import Mathlib

/-! Night Watch (`src/main.cpp`): a shallow embedding of the game core.

The `Game` class of `src/main.cpp` is embedded as a record `Game` together
with one Lean function per member function (`Reset`, `Update`, `UpdatePlay`,
`StartDay`, `StartNight`, `StartResult`, `HandleEvent`, `SpawnBalls`,
`UpdateBallsDuringNight`, `IsKeyTriggered`).

Modelling conventions.

* C++ `int` is a 32-bit two's-complement integer, held in an `Int`.  The
  additions, subtractions and multiplications on the members that grow
  without bound (`dayCount_`, `playerAttack_`, `baseDefense_`, `points_`,
  `lastEarnedPoints_`) and on the locals computed from them wrap modulo
  `2 ^ 32` (`wrapInt`), as the compiled program computes them.  The two
  countdowns, which run from 600 resp. 300 down to 0, and `baseHP_`, which
  stays within `[0, 200]`, are far from the ends of the range, and
  `stat / 100 + 1` cannot leave it; these are written without `wrapInt`.
  `/` on `int` is `Int.tdiv` (truncation toward zero).
* `double` and `float` values are binary floating-point numbers `m * 2 ^ e`
  (`Flt`); every operation computes the exact result and rounds it to the
  53 resp. 24 significant bits of the format, to nearest, ties to even.
  Exponent range (overflow, subnormals) is not modelled; no value of the
  program comes near it.
* `std::mt19937 rng_` is a stream of raw naturals with a cursor; one call of
  a `std::uniform_int_distribution<int>(lo, hi)` consumes one element of the
  stream and reduces it into the closed interval `[lo, hi]`.
* A key snapshot `std::array<BYTE, 256>` is a map from virtual-key codes to
  the truth value of the byte.
* The GDI handles (`titleBitmap_`, `titleFont_`, `defaultFont_`) and the
  `Draw*` functions belong to the renderer and are left out.
-/

/-! ## Binary floating point -/

/-- Number of low bits to drop from `a` so that at most `p` significant bits
remain (`fuel` bounds the number of halvings). -/
def dropBits (p : Nat) : Nat → Nat → Nat
  | 0, _ => 0
  | fuel + 1, a => if a < 2 ^ p then 0 else dropBits p fuel (a / 2) + 1

/-- Round the natural `a` to `p` significant bits: the nearest multiple of
`2 ^ s`, where `s` is the number of excess bits, ties to the even multiple. -/
def roundSig (p a : Nat) : Nat :=
  let s := dropBits p a a
  let q := a / 2 ^ s
  let r := a % 2 ^ s
  if 2 * r < 2 ^ s then q * 2 ^ s
  else if 2 ^ s < 2 * r then (q + 1) * 2 ^ s
  else if q % 2 = 0 then q * 2 ^ s
  else (q + 1) * 2 ^ s

/-- Bit length of a natural (`0` for `0`). -/
def bitLen (a : Nat) : Nat := dropBits 0 a a

/-- A finite binary floating-point value `m * 2 ^ e`. -/
structure Flt where
  m : Int
  e : Int
  deriving DecidableEq, Repr

namespace Flt

/-- Round to `p` significant bits (nearest, ties to even; sign-symmetric). -/
def round (p : Nat) (x : Flt) : Flt :=
  ⟨Int.sign x.m * (roundSig p x.m.natAbs : Int), x.e⟩

/-- Conversion of an `int` to the format with `p` significant bits. -/
def ofInt (p : Nat) (i : Int) : Flt := round p ⟨i, 0⟩

/-- Correctly rounded quotient `a / d * 2 ^ e` of naturals (`d ≠ 0`): the
quotient is computed with at least `p + 3` bits and a sticky bit. -/
def ofQuot (p : Nat) (a d : Nat) (e : Int) : Flt :=
  let k := p + 2 + bitLen d
  let q := a * 2 ^ k / d
  let sticky := if a * 2 ^ k % d = 0 then 0 else 1
  ⟨(roundSig p (2 * q + sticky) : Int), e - ((k + 1 : Nat) : Int)⟩

/-- The decimal literal `num / den` (non-negative) in the format with `p`
significant bits. -/
def lit (p : Nat) (num den : Nat) : Flt := ofQuot p num den 0

def neg (x : Flt) : Flt := ⟨-x.m, x.e⟩

def mul (p : Nat) (x y : Flt) : Flt := round p ⟨x.m * y.m, x.e + y.e⟩

def add (p : Nat) (x y : Flt) : Flt :=
  let e := min x.e y.e
  round p ⟨x.m * 2 ^ (x.e - e).toNat + y.m * 2 ^ (y.e - e).toNat, e⟩

def div (p : Nat) (x y : Flt) : Flt :=
  let r := ofQuot p x.m.natAbs y.m.natAbs (x.e - y.e)
  if Int.sign x.m * Int.sign y.m < 0 then neg r else r

/-- Strict comparison `x < y`. -/
def lt (x y : Flt) : Bool :=
  let e := min x.e y.e
  decide (x.m * 2 ^ (x.e - e).toNat < y.m * 2 ^ (y.e - e).toNat)

/-- Conversion to `int`, `static_cast<int>`: truncation toward zero. -/
def toInt (x : Flt) : Int :=
  if 0 ≤ x.e then x.m * 2 ^ x.e.toNat else Int.tdiv x.m (2 ^ (-x.e).toNat)

end Flt

/-- Significant bits of `double`. -/
def dblBits : Nat := 53

/-- Significant bits of `float`. -/
def fltBits : Nat := 24

/-! ## Data model -/

inductive TimePhase where
  | Day
  | Night
  | Result
  deriving DecidableEq, Repr

inductive GameState where
  | Title
  | Explanation
  | Play
  | GameOver
  deriving DecidableEq, Repr

/-- The member `struct Ball`; `type`: 0 = red, 1 = blue, 2 = gray, 3 = yellow. -/
structure Ball where
  x : Flt
  y : Flt
  speed : Flt
  type : Int
  deriving DecidableEq, Repr

/-- The generator `rng_`: a stream of raw values and the number of values
consumed so far. -/
structure Rng where
  stream : Nat → Nat
  pos : Nat

/-- One call `std::uniform_int_distribution<int>(lo, hi)(rng_)`: the value
drawn, in `[lo, hi]`, and the advanced generator. -/
def Rng.draw (r : Rng) (lo hi : Int) : Int × Rng :=
  (lo + ((r.stream r.pos % (hi - lo + 1).toNat : Nat) : Int), { r with pos := r.pos + 1 })

/-- A key snapshot `std::array<BYTE, 256>`, read as truth values. -/
abbrev Keys := Nat → Bool

def kWindowWidth : Int := 1280
def kWindowHeight : Int := 720

/-- Win32 virtual-key code of the Enter key. -/
def VK_RETURN : Nat := 0x0D

/-- Character code of the character literal 1. -/
def key1 : Nat := 49
/-- Character code of the character literal 2. -/
def key2 : Nat := 50
/-- Character code of the character literal 3. -/
def key3 : Nat := 51
/-- Character code of the character literal R. -/
def keyR : Nat := 82

/-- Smallest value of the C++ type `int`. -/
def INT_MIN : Int := -2147483648

/-- Largest value of the C++ type `int`. -/
def INT_MAX : Int := 2147483647

/-- The result of an `int` operation whose exact result is `x`: reduction
modulo `2 ^ 32` into `[INT_MIN, INT_MAX]`. -/
def wrapInt (x : Int) : Int := (x + 2147483648) % 4294967296 - 2147483648

/-- The data members of `class Game`. -/
structure Game where
  state_ : GameState
  phase_ : TimePhase
  phaseTimer_ : Int
  nightTimer_ : Int
  dayCount_ : Int
  baseHP_ : Int
  playerAttack_ : Int
  baseDefense_ : Int
  points_ : Int
  lastEarnedPoints_ : Int
  dayPointsBackup_ : Int
  attackBackup_ : Int
  defenseBackup_ : Int
  baseHPBackup_ : Int
  baseHPBackupNight_ : Int
  eventMessage_ : String
  balls_ : List Ball
  rng_ : Rng

namespace Game

def kNightFramesDefault : Int := 300

/-- `Game::IsKeyTriggered`. -/
def IsKeyTriggered (keys preKeys : Keys) (vk : Nat) : Bool :=
  keys vk && !preKeys vk

/-- `Game::Reset`. -/
def Reset (g : Game) : Game :=
  let g : Game :=
    { g with
      state_ := GameState.Title
      phase_ := TimePhase.Day
      phaseTimer_ := 600
      nightTimer_ := 300
      dayCount_ := 1
      baseHP_ := 100
      playerAttack_ := 10
      baseDefense_ := 5
      points_ := 5
      lastEarnedPoints_ := 0 }
  { g with
    dayPointsBackup_ := g.points_
    attackBackup_ := g.playerAttack_
    defenseBackup_ := g.baseDefense_
    baseHPBackup_ := g.baseHP_
    baseHPBackupNight_ := g.baseHP_
    eventMessage_ := ""
    balls_ := [] }

/-- The constructor `Game::Game`: the generator is seeded (any stream, nothing
consumed), then `Reset` sets every other member. -/
def new (stream : Nat → Nat) : Game :=
  Reset
    { state_ := GameState.Title, phase_ := TimePhase.Day, phaseTimer_ := 0,
      nightTimer_ := 0, dayCount_ := 0, baseHP_ := 0, playerAttack_ := 0,
      baseDefense_ := 0, points_ := 0, lastEarnedPoints_ := 0,
      dayPointsBackup_ := 0, attackBackup_ := 0, defenseBackup_ := 0,
      baseHPBackup_ := 0, baseHPBackupNight_ := 0, eventMessage_ := "",
      balls_ := [], rng_ := ⟨stream, 0⟩ }

/-- `Game::ComputeGraySpeed`: `(kWindowWidth * 0.5f) / 300.0f` in `float`. -/
def ComputeGraySpeed : Flt :=
  let distance := Flt.mul fltBits (Flt.ofInt fltBits kWindowWidth) (Flt.lit fltBits 5 10)
  let frames := Flt.ofInt fltBits kNightFramesDefault
  Flt.div fltBits distance frames

/-- One of the four `for` loops of `SpawnBalls`: `count` times draw `x`, then
`y`, and push a ball of the given speed and type. -/
def spawnLoop (speed : Flt) (type : Int) : Nat → Game → Game
  | 0, g => g
  | count + 1, g =>
    let dx := g.rng_.draw 0 (kWindowWidth.tdiv 2 - 1)
    let dy := dx.2.draw 0 (kWindowHeight - 64)
    spawnLoop speed type count
      { g with
        balls_ := g.balls_ ++ [⟨Flt.ofInt fltBits dx.1, Flt.ofInt fltBits dy.1, speed, type⟩]
        rng_ := dy.2 }

/-- `Game::SpawnBalls`. -/
def SpawnBalls (g : Game) : Game :=
  let g := { g with balls_ := [] }
  let redCount : Nat := 3
  let blueCount : Nat := if g.dayCount_ ≥ 6 then 2 else 0
  let grayCount : Nat := if g.dayCount_ ≥ 11 then 2 else 0
  let yellowCount : Nat := if g.dayCount_ ≥ 16 then 1 else 0
  let graySpeed := ComputeGraySpeed
  let redSpeed := Flt.mul fltBits graySpeed (Flt.lit fltBits 40 100)
  let blueSpeed := Flt.mul fltBits graySpeed (Flt.lit fltBits 70 100)
  let yellowSpeed := Flt.mul fltBits graySpeed (Flt.lit fltBits 90 100)
  let g := spawnLoop redSpeed 0 redCount g
  let g := spawnLoop blueSpeed 1 blueCount g
  let g := spawnLoop graySpeed 2 grayCount g
  spawnLoop yellowSpeed 3 yellowCount g

/-- `Game::UpdateBallsDuringNight`. -/
def UpdateBallsDuringNight (g : Game) : Game :=
  { g with
    balls_ := g.balls_.map fun b =>
      let x := Flt.add fltBits b.x b.speed
      if Flt.lt (Flt.add fltBits (Flt.ofInt fltBits kWindowWidth) (Flt.lit fltBits 64 1)) x then
        { b with x := Flt.neg (Flt.lit fltBits 64 1) }
      else
        { b with x := x } }

/-- `Game::StartDay`. -/
def StartDay (g : Game) : Game :=
  SpawnBalls
    { g with
      phase_ := TimePhase.Day
      phaseTimer_ := 600
      dayCount_ := wrapInt (g.dayCount_ + 1)
      points_ := wrapInt (g.points_ + g.lastEarnedPoints_)
      eventMessage_ := "" }

/-- `Game::StartNight`. -/
def StartNight (g : Game) : Game :=
  { g with
    phase_ := TimePhase.Night
    nightTimer_ := 300
    baseHPBackupNight_ := g.baseHP_ }

/-- The local `defenseRate` of `StartResult`, a `double`. -/
def defenseRate (dayCount : Int) : Flt :=
  if dayCount ≤ 5 then Flt.lit dblBits 10 10
  else if dayCount ≤ 10 then Flt.lit dblBits 8 10
  else if dayCount ≤ 15 then Flt.lit dblBits 666 1000
  else Flt.lit dblBits 5 10

/-- The local `effectiveDefense` of `StartResult`:
`static_cast<int>((playerAttack_ + baseDefense_) * defenseRate)`. -/
def effectiveDefense (g : Game) : Int :=
  Flt.toInt (Flt.mul dblBits (Flt.ofInt dblBits (wrapInt (g.playerAttack_ + g.baseDefense_)))
    (defenseRate g.dayCount_))

/-- The local `enemyCount` of `StartResult`: `dayCount_ * 5`. -/
def enemyCount (g : Game) : Int :=
  wrapInt (g.dayCount_ * 5)

/-- The local `damage` of `StartResult`: `enemyCount * 3 - effectiveDefense`. -/
def damage (g : Game) : Int :=
  wrapInt (wrapInt (enemyCount g * 3) - effectiveDefense g)

/-- `Game::HandleEvent`. -/
def HandleEvent (g : Game) : Game :=
  let g := { g with eventMessage_ := "" }
  let d1 := g.rng_.draw 0 9999
  let g := { g with rng_ := d1.2 }
  if d1.1 < 2 then
    { g with
      playerAttack_ := wrapInt (g.playerAttack_ + wrapInt (g.dayCount_ * 10))
      baseDefense_ := wrapInt (g.baseDefense_ + wrapInt (g.dayCount_ * 10))
      lastEarnedPoints_ := wrapInt (g.lastEarnedPoints_ * 3)
      eventMessage_ := "【覚醒】力がみなぎる！（ポイント3倍）" }
  else
    let d2 := g.rng_.draw 0 99
    let g := { g with rng_ := d2.2 }
    let roll := d2.1
    if roll < 30 then
      let d3 := g.rng_.draw 0 3
      let g := { g with rng_ := d3.2 }
      let goodType := d3.1
      if goodType = 0 then
        { g with
          playerAttack_ := wrapInt (g.playerAttack_ + wrapInt (g.dayCount_ * 5))
          eventMessage_ := "いい武器を拾った！" }
      else if goodType = 1 then
        { g with
          baseDefense_ := wrapInt (g.baseDefense_ + wrapInt (g.dayCount_ * 5))
          eventMessage_ := "いい防具を拾った！" }
      else if goodType = 2 then
        { g with
          lastEarnedPoints_ := wrapInt (g.lastEarnedPoints_ * 2)
          eventMessage_ := "今日は調子が良い！（ポイント2倍）" }
      else if goodType = 3 then
        { g with
          baseHP_ := 200
          eventMessage_ := "シスターに癒された！（HP全回復）" }
      else g
    else if roll < 50 then
      let d3 := g.rng_.draw 0 2
      let g := { g with rng_ := d3.2 }
      let badType := d3.1
      if badType = 0 then
        let a := wrapInt (g.playerAttack_ - g.dayCount_)
        { g with
          playerAttack_ := if a < 0 then 0 else a
          eventMessage_ := "武器が壊れた…" }
      else if badType = 1 then
        let f := wrapInt (g.baseDefense_ - g.dayCount_)
        { g with
          baseDefense_ := if f < 0 then 0 else f
          eventMessage_ := "防具が壊れた…" }
      else if badType = 2 then
        { g with
          lastEarnedPoints_ := g.lastEarnedPoints_.tdiv 2
          eventMessage_ := "今日は調子が悪い…（ポイント半減）" }
      else g
    else
      { g with eventMessage_ := "今日は特に何も起きなかった…。" }

/-- `Game::StartResult` up to, and without, its final call of `HandleEvent`:
damage resolution and the points earned. -/
def StartResultDamage (g : Game) : Game :=
  let dmg := damage g
  let hp := if dmg > 0 then g.baseHP_ - dmg else g.baseHP_
  let hp := if hp < 0 then 0 else hp
  { g with
    phase_ := TimePhase.Result
    baseHP_ := hp
    lastEarnedPoints_ := (enemyCount g).tdiv 2 }

/-- `Game::StartResult`. -/
def StartResult (g : Game) : Game :=
  HandleEvent (StartResultDamage g)

/-- `Game::UpdatePlay`. -/
def UpdatePlay (g : Game) (keys preKeys : Keys) : Game :=
  let attackCost := g.playerAttack_.tdiv 100 + 1
  let defenseCost := g.baseDefense_.tdiv 100 + 1
  match g.phase_ with
  | TimePhase.Day =>
    let g : Game :=
      if g.phaseTimer_ = 600 then
        { g with
          dayPointsBackup_ := g.points_
          attackBackup_ := g.playerAttack_
          defenseBackup_ := g.baseDefense_
          baseHPBackup_ := g.baseHP_ }
      else g
    let g : Game := { g with phaseTimer_ := g.phaseTimer_ - 1 }
    let g : Game :=
      if IsKeyTriggered keys preKeys key1 && decide (g.points_ ≥ attackCost) then
        { g with
          playerAttack_ := wrapInt (g.playerAttack_ + 2)
          points_ := wrapInt (g.points_ - attackCost) }
      else g
    let g : Game :=
      if IsKeyTriggered keys preKeys key2 && decide (g.points_ ≥ defenseCost) then
        { g with
          baseDefense_ := wrapInt (g.baseDefense_ + 2)
          points_ := wrapInt (g.points_ - defenseCost) }
      else g
    let g : Game :=
      if IsKeyTriggered keys preKeys key3 && decide (g.points_ > 0) then
        let hp := g.baseHP_ + 10
        { g with
          baseHP_ := if hp > 200 then 200 else hp
          points_ := wrapInt (g.points_ - 1) }
      else g
    let g : Game :=
      if IsKeyTriggered keys preKeys keyR then
        { g with
          points_ := g.dayPointsBackup_
          playerAttack_ := g.attackBackup_
          baseDefense_ := g.defenseBackup_
          baseHP_ := g.baseHPBackup_ }
      else g
    if IsKeyTriggered keys preKeys VK_RETURN || decide (g.phaseTimer_ ≤ 0) then
      StartNight g
    else g
  | TimePhase.Night =>
    let g : Game := { g with nightTimer_ := g.nightTimer_ - 1 }
    let g : Game := UpdateBallsDuringNight g
    if g.nightTimer_ ≤ 0 then StartResult g else g
  | TimePhase.Result =>
    if IsKeyTriggered keys preKeys VK_RETURN then StartDay g else g

/-- `Game::Update`: one tick. -/
def Update (g : Game) (keys preKeys : Keys) : Game :=
  match g.state_ with
  | GameState.Title =>
    if IsKeyTriggered keys preKeys VK_RETURN then
      { g with state_ := GameState.Explanation }
    else g
  | GameState.Explanation =>
    if IsKeyTriggered keys preKeys VK_RETURN then
      SpawnBalls
        { g with
          state_ := GameState.Play
          phase_ := TimePhase.Day
          phaseTimer_ := 600
          dayCount_ := 1
          baseHP_ := 100
          points_ := 5
          eventMessage_ := "" }
    else g
  | GameState.Play =>
    let g := UpdatePlay g keys preKeys
    if g.baseHP_ ≤ 0 then { g with state_ := GameState.GameOver } else g
  | GameState.GameOver =>
    if IsKeyTriggered keys preKeys VK_RETURN then Reset g else g

end Game

/-! ## Notions used to state the properties -/

/-- The exact result `x` of an `int` operation is representable: the operation
does not overflow. -/
def inInt (x : Int) : Prop := INT_MIN ≤ x ∧ x ≤ INT_MAX

instance inInt.decidable (x : Int) : Decidable (inInt x) :=
  inferInstanceAs (Decidable (INT_MIN ≤ x ∧ x ≤ INT_MAX))

/-- The defense rate as the specification gives it, as an exact decimal. -/
def specDefenseRate (dayCounter : Int) : ℚ :=
  if dayCounter ≤ 5 then 1.0
  else if dayCounter ≤ 10 then 0.8
  else if dayCounter ≤ 15 then 0.666
  else 0.5

/-- The states the program can be in at a tick boundary: the freshly
constructed game, for any seed, and whatever `Update` makes of a reachable
state, for any two key snapshots. -/
inductive Reachable : Game → Prop
  | init (stream : Nat → Nat) : Reachable (Game.new stream)
  | tick (g : Game) (keys preKeys : Keys) : Reachable g → Reachable (Game.Update g keys preKeys)

/-- The economy 4-tuple `(points, attack, defense, health)`. -/
def Game.economy (g : Game) : Int × Int × Int × Int :=
  (g.points_, g.playerAttack_, g.baseDefense_, g.baseHP_)

/-- The day-start snapshot `(dayPointsBackup_, attackBackup_, defenseBackup_,
baseHPBackup_)`. -/
def Game.snapshot (g : Game) : Int × Int × Int × Int :=
  (g.dayPointsBackup_, g.attackBackup_, g.defenseBackup_, g.baseHPBackup_)

/-- A sequence of ticks, each with its current and previous key snapshot. -/
def Game.runTicks (g : Game) (ticks : List (Keys × Keys)) : Game :=
  ticks.foldl (fun s t => Game.Update s t.1 t.2) g

/-- A key snapshot in which exactly the listed keys are down. -/
def keysDown (l : List Nat) : Keys := fun vk => l.contains vk

/-- A game in session state `Play` with the given phase, timers, day counter
and economy; used for concrete instances. -/
def Game.sample (phase : TimePhase) (phaseTimer nightTimer dayCount : Int)
    (hp attack defense points : Int) (stream : Nat → Nat) : Game :=
  { Game.new stream with
    state_ := GameState.Play
    phase_ := phase
    phaseTimer_ := phaseTimer
    nightTimer_ := nightTimer
    dayCount_ := dayCount
    baseHP_ := hp
    playerAttack_ := attack
    baseDefense_ := defense
    points_ := points }

/-! ### The statements of the `Day` case of `UpdatePlay`, one by one

`UpdatePlay` in phase `Day` is the composition of the following seven steps
(`Game.UpdatePlay_Day` below); the proofs go through them one at a time. -/

/-- Snapshot capture, `if (phaseTimer_ == 600) { ... }`. -/
def Game.dayCapture (g : Game) : Game :=
  if g.phaseTimer_ = 600 then
    { g with
      dayPointsBackup_ := g.points_
      attackBackup_ := g.playerAttack_
      defenseBackup_ := g.baseDefense_
      baseHPBackup_ := g.baseHP_ }
  else g

/-- The statement `phaseTimer_--`. -/
def Game.dayCountdown (g : Game) : Game :=
  { g with phaseTimer_ := g.phaseTimer_ - 1 }

/-- Attack-up, with the key edge and the cost computed at the start of the tick. -/
def Game.dayAttackUp (edge : Bool) (attackCost : Int) (g : Game) : Game :=
  if edge && decide (g.points_ ≥ attackCost) then
    { g with
      playerAttack_ := wrapInt (g.playerAttack_ + 2)
      points_ := wrapInt (g.points_ - attackCost) }
  else g

/-- Defense-up, with the key edge and the cost computed at the start of the tick. -/
def Game.dayDefenseUp (edge : Bool) (defenseCost : Int) (g : Game) : Game :=
  if edge && decide (g.points_ ≥ defenseCost) then
    { g with
      baseDefense_ := wrapInt (g.baseDefense_ + 2)
      points_ := wrapInt (g.points_ - defenseCost) }
  else g

/-- Heal. -/
def Game.dayHeal (edge : Bool) (g : Game) : Game :=
  if edge && decide (g.points_ > 0) then
    let hp := g.baseHP_ + 10
    { g with
      baseHP_ := if hp > 200 then 200 else hp
      points_ := wrapInt (g.points_ - 1) }
  else g

/-- Undo. -/
def Game.dayUndo (edge : Bool) (g : Game) : Game :=
  if edge then
    { g with
      points_ := g.dayPointsBackup_
      playerAttack_ := g.attackBackup_
      baseDefense_ := g.defenseBackup_
      baseHP_ := g.baseHPBackup_ }
  else g

/-- End of the day by skip or timeout. -/
def Game.dayEnd (edge : Bool) (g : Game) : Game :=
  if edge || decide (g.phaseTimer_ ≤ 0) then Game.StartNight g else g

/-- Health and its day-start backup lie in `[0, 200]`. -/
def hpInv (g : Game) : Prop :=
  0 ≤ g.baseHP_ ∧ g.baseHP_ ≤ 200 ∧ 0 ≤ g.baseHPBackup_ ∧ g.baseHPBackup_ ≤ 200

/-- Every state of the run, from the start of its first tick to the end of its
last, is a `Play` state in phase `Day`: the ticks lie within one Day phase. -/
def Game.staysInDay (g : Game) : List (Keys × Keys) → Prop
  | [] => g.state_ = GameState.Play ∧ g.phase_ = TimePhase.Day
  | t :: ts =>
    (g.state_ = GameState.Play ∧ g.phase_ = TimePhase.Day) ∧
      Game.staysInDay (Game.Update g t.1 t.2) ts

/-- Within a Day that started in `g0`: either no tick has run yet, or the
snapshot holds the economy of `g0`. -/
def dayInv (g0 g : Game) : Prop :=
  (g.phaseTimer_ = 600 ∧ g.economy = g0.economy) ∨
    (g.phaseTimer_ < 600 ∧ g.snapshot = g0.economy)

/-- First draw of `HandleEvent`, in `[0, 9999]`. -/
def Game.draw1 (g : Game) : Int := (g.rng_.draw 0 9999).1

/-- Second draw of `HandleEvent` (the local `roll`), in `[0, 99]`. -/
def Game.draw2 (g : Game) : Int := ((g.rng_.draw 0 9999).2.draw 0 99).1

/-- Third draw of `HandleEvent`, in `[0, hi]` (`hi = 3` for `goodType`,
`hi = 2` for `badType`). -/
def Game.draw3 (g : Game) (hi : Int) : Int :=
  (((g.rng_.draw 0 9999).2.draw 0 99).2.draw 0 hi).1

/-- The five economy fields `(health, attack, defense, points,
lastEarnedPoints)`. -/
def Game.economy5 (g : Game) : Int × Int × Int × Int × Int :=
  (g.baseHP_, g.playerAttack_, g.baseDefense_, g.points_, g.lastEarnedPoints_)

/-- A generator stream that yields the listed raw values, then zeros. -/
def streamOf (l : List Nat) : Nat → Nat := fun n => l.getD n 0

/-- The state after `n` ticks of `Update`, tick `i` (counted from 0) with the
key snapshots `ks i`. -/
def Game.runFor (g : Game) (ks : Nat → Keys × Keys) : Nat → Game
  | 0 => g
  | n + 1 => Game.Update (Game.runFor g ks n) (ks n).1 (ks n).2

/-- The state after `n` calls of `UpdatePlay`, call `i` (counted from 0) with
the key snapshots `ks i`. -/
def Game.runPlayFor (g : Game) (ks : Nat → Keys × Keys) : Nat → Game
  | 0 => g
  | n + 1 => Game.UpdatePlay (Game.runPlayFor g ks n) (ks n).1 (ks n).2

/-- The enemy wave as the specification gives it, by type and in order: 3 red
(type 0) always, 2 blue (type 1) once `dayCounter ≥ 6`, 2 gray (type 2) once
`dayCounter ≥ 11`, 1 yellow (type 3) once `dayCounter ≥ 16`. -/
def waveTypes (dayCounter : Int) : List Int :=
  [0, 0, 0] ++ (if dayCounter ≥ 6 then [1, 1] else []) ++
    (if dayCounter ≥ 11 then [2, 2] else []) ++ (if dayCounter ≥ 16 then [3] else [])

/-- Before the first game starts, attack and defense hold their defaults. -/
def titleInv (g : Game) : Prop :=
  (g.state_ = GameState.Title ∨ g.state_ = GameState.Explanation) →
    g.playerAttack_ = 10 ∧ g.baseDefense_ = 5

/-- The main loop of `WinMain`, as far as the game is concerned: in every
iteration the current snapshot becomes the previous one (`preKeys = keys`), a
new snapshot is sampled, and `Update` is called with the two.  `keys` is the
snapshot of the preceding iteration, the list holds the snapshots sampled in
the following iterations. -/
def Game.runLoop (g : Game) (keys : Keys) : List Keys → Game
  | [] => g
  | sampled :: rest => Game.runLoop (Game.Update g sampled keys) sampled rest

/-- Points, attack, defense, the points earned, their day-start backups and the
day counter are non-negative. -/
def nonnegInv (g : Game) : Prop :=
  0 ≤ g.points_ ∧ 0 ≤ g.playerAttack_ ∧ 0 ≤ g.baseDefense_ ∧ 0 ≤ g.lastEarnedPoints_ ∧
    0 ≤ g.dayPointsBackup_ ∧ 0 ≤ g.attackBackup_ ∧ 0 ≤ g.defenseBackup_ ∧ 0 ≤ g.dayCount_

/-- In `Play`, health is at least 1, and within a Day either no tick has run
yet or the health backup is at least 1. -/
def aliveInv (g : Game) : Prop :=
  g.state_ = GameState.Play →
    1 ≤ g.baseHP_ ∧ (g.phase_ = TimePhase.Day → g.phaseTimer_ = 600 ∨ 1 ≤ g.baseHPBackup_)

/-- The economy against the day-start snapshot: no more points, no less attack,
defense and health than the snapshot holds. -/
def resInv (g : Game) : Prop :=
  g.points_ ≤ g.dayPointsBackup_ ∧ g.attackBackup_ ≤ g.playerAttack_ ∧
    g.defenseBackup_ ≤ g.baseDefense_ ∧ g.baseHPBackup_ ≤ g.baseHP_

/-- The Day countdown never exceeds 600, and in `Play`, once a tick of the
current Day has run (Day countdown below 600, or the Night that follows), the
economy is bounded by the snapshot. -/
def undoInv (g : Game) : Prop :=
  (g.phase_ = TimePhase.Day → g.phaseTimer_ ≤ 600) ∧
    (g.state_ = GameState.Play →
      ((g.phase_ = TimePhase.Day ∧ g.phaseTimer_ < 600) ∨ g.phase_ = TimePhase.Night) →
        resInv g)

/-- The sums and products that a tick can form from the members of `g` are at
most `INT_MAX`: `attack + 2` and `defense + 2` (upgrades), `attack + defense`
and `dayCount * 15` (damage resolution), `attack + dayCount * 10` and
`defense + dayCount * 10` (events), `points + lastEarnedPoints` (next day).
When the members are non-negative, no `int` operation of a tick that starts in
`g` overflows, whatever the keys and the draws. -/
def Game.inRange (g : Game) : Prop :=
  g.playerAttack_ + 2 ≤ INT_MAX ∧ g.baseDefense_ + 2 ≤ INT_MAX ∧
    g.playerAttack_ + g.baseDefense_ ≤ INT_MAX ∧ g.dayCount_ * 15 ≤ INT_MAX ∧
    g.playerAttack_ + g.dayCount_ * 10 ≤ INT_MAX ∧
    g.baseDefense_ + g.dayCount_ * 10 ≤ INT_MAX ∧
    g.points_ + g.lastEarnedPoints_ ≤ INT_MAX

instance Game.inRange.decidable (g : Game) : Decidable g.inRange :=
  inferInstanceAs (Decidable (_ ∧ _))

/-- The states reachable without `int` overflow: the freshly constructed game,
for any seed, and whatever `Update` makes of such a state that is `inRange`,
for any two key snapshots. -/
inductive ReachableInRange : Game → Prop
  | init (stream : Nat → Nat) : ReachableInRange (Game.new stream)
  | tick (g : Game) (keys preKeys : Keys) :
    ReachableInRange g → g.inRange → ReachableInRange (Game.Update g keys preKeys)

/-- Every tick of the run starts in a state that is `inRange`. -/
def Game.runInRange (g : Game) : List (Keys × Keys) → Prop
  | [] => True
  | t :: ts => g.inRange ∧ Game.runInRange (Game.Update g t.1 t.2) ts

/-- The key snapshots of a tick on which Enter, and no other key, goes down. -/
def enterEdge : Keys × Keys := (keysDown [VK_RETURN], keysDown [])

/-- The key snapshots of the tick after `enterEdge` when Enter is released: no
key is down, Enter was down on the tick before. -/
def enterRelease : Keys × Keys := (keysDown [], keysDown [VK_RETURN])

/-- The key snapshots of the ticks of `overflowRun`, chained as in the main loop
of `WinMain` (`preKeys` of a tick is `keys` of the tick before, and no key is
down before the first tick): Enter is down on the ticks 0, 2, 4, ... and up on
the ticks 1, 3, 5, ..., and no other key is ever down.  So every even tick has
an Enter edge and no odd tick has one. -/
def overflowKeys (n : Nat) : Keys × Keys :=
  if n % 2 = 0 then enterEdge else enterRelease

/-- The run that overflows `playerAttack_`: the game seeded with a generator
whose raw values are all 4, after `n` ticks with the key snapshots
`overflowKeys`.  The ticks 0, 1, 2 lead from `Title` to `Play`; from then on a
day takes 304 ticks: a Day tick without an edge, the Day tick whose Enter edge
ends the Day, the 300 Night ticks, a Result tick without an edge, and the
Result tick whose Enter edge starts the next day.  The draws 4, 4, 0 of every
Result entry select the event `playerAttack_ += dayCount_ * 5`, and nothing is
ever bought. -/
def overflowRun (n : Nat) : Game :=
  Game.runFor (Game.new fun _ => 4) overflowKeys n

/-- Health at the start of day `d` of `overflowRun`. -/
def overflowRunHP (d : Int) : Int :=
  if d ≤ 2 then 100 else if d = 3 then 90 else if d = 4 then 75 else if d = 5 then 60
  else if d = 6 then 50 else if d = 7 then 32 else 23

/-- The state at the start of day `d` of `overflowRun`: attack is
`10 + 5 * (1 + ... + (d - 1))`, defense 5, and the points lie between 0 and
`5 + (5 / 4) * d ^ 2`. -/
def overflowRunDay (d : Int) (g : Game) : Prop :=
  g.state_ = GameState.Play ∧ g.phase_ = TimePhase.Day ∧ g.phaseTimer_ = 600 ∧
    g.dayCount_ = d ∧ 2 * g.playerAttack_ = 20 + 5 * d * (d - 1) ∧ g.baseDefense_ = 5 ∧
    g.baseHP_ = overflowRunHP d ∧ 0 ≤ g.points_ ∧ 4 * g.points_ ≤ 20 + 5 * d * d ∧
    g.rng_.stream = fun _ => 4

/-! ## Rounding lemmas -/

theorem dropBits_eq_zero (p fuel a : Nat) (h : a < 2 ^ p) : dropBits p fuel a = 0 := by
  cases fuel with
  | zero => rfl
  | succ n => simp [dropBits, h]

theorem dropBits_le (p : Nat) : ∀ fuel a t : Nat, a < 2 ^ (p + t) → dropBits p fuel a ≤ t := by
  intro fuel
  induction fuel with
  | zero => intro a t _; simp [dropBits]
  | succ n ih =>
    intro a t h
    unfold dropBits
    split_ifs with hlt
    · exact Nat.zero_le _
    · cases t with
      | zero => exact absurd (by simpa using h) hlt
      | succ t =>
        have h2 : a / 2 < 2 ^ (p + t) := by
          have : 2 ^ (p + (t + 1)) = 2 * 2 ^ (p + t) := by ring
          omega
        have := ih (a / 2) t h2
        omega

theorem roundSig_of_lt (p a : Nat) (h : a < 2 ^ p) : roundSig p a = a := by
  simp [roundSig, dropBits_eq_zero p a a h, Nat.mod_one]

theorem roundSig_ge_floor (p a : Nat) :
    a / 2 ^ dropBits p a a * 2 ^ dropBits p a a ≤ roundSig p a := by
  unfold roundSig
  simp only
  split_ifs <;> first | exact le_refl _ | exact Nat.mul_le_mul_right _ (Nat.le_succ _)

theorem roundSig_le_add (p a : Nat) : roundSig p a ≤ a + 2 ^ dropBits p a a := by
  have hdm := Nat.div_add_mod a (2 ^ dropBits p a a)
  have hle : a / 2 ^ dropBits p a a * 2 ^ dropBits p a a ≤ a := Nat.div_mul_le_self _ _
  unfold roundSig
  simp only
  split_ifs <;> first | omega | (rw [Nat.add_mul, Nat.one_mul]; omega)

/-- Rounding never crosses a value below the argument that is itself a
multiple of the rounding unit. -/
theorem roundSig_ge_of_dvd (p a K : Nat) (hK : K ≤ a) (hd : 2 ^ dropBits p a a ∣ K) :
    K ≤ roundSig p a := by
  obtain ⟨j, rfl⟩ := hd
  refine le_trans ?_ (roundSig_ge_floor p a)
  rw [Nat.mul_comm]
  apply Nat.mul_le_mul_right
  rw [Nat.le_div_iff_mul_le (Nat.pow_pos (by norm_num))]
  rw [Nat.mul_comm]; exact hK

/-- The four `double` constants of `defenseRate`. -/
theorem lit_values :
    Flt.lit 53 10 10 = ⟨1152921504606846976, -60⟩ ∧
    Flt.lit 53 8 10 = ⟨922337203685477632, -60⟩ ∧
    Flt.lit 53 666 1000 = ⟨49142126212362248192, -66⟩ ∧
    Flt.lit 53 5 10 = ⟨576460752303423488, -60⟩ := by
  decide

/-- The product of an `int`-sized natural with a `double` constant `M / 2 ^ E`
slightly above `num / den`, rounded to `double` and truncated, is the exact
floor of `N * num / den`.  Stated for the four constants of `defenseRate`. -/
theorem roundSig_mul_rate (N : Nat) (hN : N < 2 ^ 32) :
    roundSig 53 (N * 1152921504606846976) / 2 ^ 60 = N ∧
    roundSig 53 (N * 922337203685477632) / 2 ^ 60 = N * 8 / 10 ∧
    roundSig 53 (N * 49142126212362248192) / 2 ^ 66 = N * 666 / 1000 ∧
    roundSig 53 (N * 576460752303423488) / 2 ^ 60 = N * 5 / 10 := by
  refine ⟨?_, ?_, ?_, ?_⟩
  · have hs : dropBits 53 (N * 1152921504606846976) (N * 1152921504606846976) ≤ 40 := by
      apply dropBits_le
      norm_num at hN ⊢
      omega
    have hX := Nat.pow_le_pow_right (show 0 < 2 by norm_num) hs
    have hup := roundSig_le_add 53 (N * 1152921504606846976)
    have hlo := roundSig_ge_of_dvd 53 (N * 1152921504606846976) (N * 2 ^ 60)
      (by norm_num) (Dvd.dvd.mul_left (pow_dvd_pow 2 (by omega)) _)
    norm_num at hN hX hup hlo ⊢
    omega
  · have hs : dropBits 53 (N * 922337203685477632) (N * 922337203685477632) ≤ 40 := by
      apply dropBits_le
      norm_num at hN ⊢
      omega
    have hX := Nat.pow_le_pow_right (show 0 < 2 by norm_num) hs
    have hup := roundSig_le_add 53 (N * 922337203685477632)
    have hlo := roundSig_ge_of_dvd 53 (N * 922337203685477632) (N * 8 / 10 * 2 ^ 60)
      (by norm_num at hN ⊢; omega) (Dvd.dvd.mul_left (pow_dvd_pow 2 (by omega)) _)
    norm_num at hN hX hup hlo ⊢
    omega
  · have hs : dropBits 53 (N * 49142126212362248192) (N * 49142126212362248192) ≤ 45 := by
      apply dropBits_le
      norm_num at hN ⊢
      omega
    have hX := Nat.pow_le_pow_right (show 0 < 2 by norm_num) hs
    have hup := roundSig_le_add 53 (N * 49142126212362248192)
    have hlo := roundSig_ge_of_dvd 53 (N * 49142126212362248192) (N * 666 / 1000 * 2 ^ 66)
      (by norm_num at hN ⊢; omega) (Dvd.dvd.mul_left (pow_dvd_pow 2 (by omega)) _)
    norm_num at hN hX hup hlo ⊢
    omega
  · have hs : dropBits 53 (N * 576460752303423488) (N * 576460752303423488) ≤ 40 := by
      apply dropBits_le
      norm_num at hN ⊢
      omega
    have hX := Nat.pow_le_pow_right (show 0 < 2 by norm_num) hs
    have hup := roundSig_le_add 53 (N * 576460752303423488)
    have hlo := roundSig_ge_of_dvd 53 (N * 576460752303423488) (N * 5 / 10 * 2 ^ 60)
      (by norm_num at hN ⊢; omega) (Dvd.dvd.mul_left (pow_dvd_pow 2 (by omega)) _)
    norm_num at hN hX hup hlo ⊢
    omega

theorem Flt.round_natCast (p a : Nat) (e : Int) :
    Flt.round p ⟨(a : Int), e⟩ = ⟨(roundSig p a : Int), e⟩ := by
  unfold Flt.round
  rcases Nat.eq_zero_or_pos a with h | h
  · subst h; simp [roundSig, dropBits]
  · have : Int.sign (a : Int) = 1 := Int.sign_eq_one_of_pos (by exact_mod_cast h)
    simp [this]

/-- The `double` product of an `int`-sized natural and a positive constant,
converted back to `int`. -/
theorem Flt.toInt_mul_natCast (N M E : Nat) (hN : N < 2 ^ 32) (hE : 0 < E) :
    Flt.toInt (Flt.mul 53 (Flt.ofInt 53 (N : Int)) ⟨(M : Int), -(E : Int)⟩) =
      ((roundSig 53 (N * M) / 2 ^ E : Nat) : Int) := by
  have hN53 : N < 2 ^ 53 := lt_of_lt_of_le hN (Nat.pow_le_pow_right (by norm_num) (by norm_num))
  have h1 : Flt.ofInt 53 (N : Int) = ⟨(N : Int), 0⟩ := by
    unfold Flt.ofInt
    rw [Flt.round_natCast, roundSig_of_lt 53 N hN53]
  rw [h1]
  unfold Flt.mul
  simp only [zero_add]
  rw [show ((N : Int) * (M : Int)) = ((N * M : Nat) : Int) by push_cast; ring, Flt.round_natCast]
  unfold Flt.toInt
  have hneg : ¬ (0 : Int) ≤ -(E : Int) := by omega
  simp only [hneg, if_false, neg_neg, Int.toNat_ofNat]
  rw [Int.tdiv_eq_ediv (by positivity) (by positivity)]
  norm_cast

/-! ## Damage resolution -/

/-- An `int` operation whose exact result is representable yields that result. -/
theorem wrapInt_of_inInt (x : Int) (h : inInt x) : wrapInt x = x := by
  unfold inInt INT_MIN INT_MAX at h
  unfold wrapInt
  omega

/-- Wrapping changes a value by a multiple of `2 ^ 32`. -/
theorem wrapInt_cases (x : Int) : ∃ k : Int, wrapInt x = x + 4294967296 * k := by
  refine ⟨-((x + 2147483648) / 4294967296), ?_⟩
  unfold wrapInt
  omega

/-- The result of an `int` operation is an `int`. -/
theorem wrapInt_inInt (x : Int) : inInt (wrapInt x) := by
  unfold inInt INT_MIN INT_MAX wrapInt
  omega

/-- The `double` computation of `effectiveDefense` agrees with exact integer
arithmetic on the decimal rates, for non-negative attack and defense whose sum
is an `int`. -/
theorem Game.effectiveDefense_eq (g : Game)
    (ha : 0 ≤ g.playerAttack_) (hf : 0 ≤ g.baseDefense_)
    (hsum : g.playerAttack_ + g.baseDefense_ ≤ INT_MAX) :
    Game.effectiveDefense g =
      if g.dayCount_ ≤ 5 then g.playerAttack_ + g.baseDefense_
      else if g.dayCount_ ≤ 10 then (g.playerAttack_ + g.baseDefense_) * 8 / 10
      else if g.dayCount_ ≤ 15 then (g.playerAttack_ + g.baseDefense_) * 666 / 1000
      else (g.playerAttack_ + g.baseDefense_) * 5 / 10 := by
  have hw : wrapInt (g.playerAttack_ + g.baseDefense_) = g.playerAttack_ + g.baseDefense_ :=
    wrapInt_of_inInt _ ⟨by unfold INT_MIN; omega, hsum⟩
  unfold INT_MAX at hsum
  obtain ⟨N, hN⟩ := Int.eq_ofNat_of_zero_le (add_nonneg ha hf)
  have hN32 : N < 2 ^ 32 := by
    have : (N : Int) < 2 ^ 32 := by rw [← hN]; norm_num; omega
    exact_mod_cast this
  obtain ⟨r1, r2, r3, r4⟩ := roundSig_mul_rate N hN32
  obtain ⟨l1, l2, l3, l4⟩ := lit_values
  unfold Game.effectiveDefense Game.defenseRate dblBits
  rw [hw, hN]
  split_ifs
  · rw [l1]
    exact (Flt.toInt_mul_natCast N 1152921504606846976 60 hN32 (by norm_num)).trans (by rw [r1])
  · rw [l2]
    exact (Flt.toInt_mul_natCast N 922337203685477632 60 hN32 (by norm_num)).trans
      (by rw [r2]; norm_cast)
  · rw [l3]
    exact (Flt.toInt_mul_natCast N 49142126212362248192 66 hN32 (by norm_num)).trans
      (by rw [r3]; norm_cast)
  · rw [l4]
    exact (Flt.toInt_mul_natCast N 576460752303423488 60 hN32 (by norm_num)).trans
      (by rw [r4]; norm_cast)

/-- The floor of a product with the decimal rate of the specification, in
integer arithmetic. -/
theorem floor_mul_specDefenseRate (n d : Int) :
    ⌊(n : ℚ) * specDefenseRate d⌋ =
      if d ≤ 5 then n
      else if d ≤ 10 then n * 8 / 10
      else if d ≤ 15 then n * 666 / 1000
      else n * 5 / 10 := by
  unfold specDefenseRate
  split_ifs
  · norm_num
  · have : (n : ℚ) * 0.8 = ((n * 8 : Int) : ℚ) / ((10 : Nat) : ℚ) := by
      push_cast; norm_num; ring
    rw [this, Rat.floor_intCast_div_natCast]; rfl
  · have : (n : ℚ) * 0.666 = ((n * 666 : Int) : ℚ) / ((1000 : Nat) : ℚ) := by
      push_cast; norm_num; ring
    rw [this, Rat.floor_intCast_div_natCast]; rfl
  · have : (n : ℚ) * 0.5 = ((n * 5 : Int) : ℚ) / ((10 : Nat) : ℚ) := by
      push_cast; norm_num; ring
    rw [this, Rat.floor_intCast_div_natCast]; rfl

/-- With non-negative attack and defense whose sum is an `int`, the effective
defense lies between half the sum (rounded down) and the sum. -/
theorem Game.effectiveDefense_bounds (g : Game)
    (ha : 0 ≤ g.playerAttack_) (hf : 0 ≤ g.baseDefense_)
    (hsum : g.playerAttack_ + g.baseDefense_ ≤ INT_MAX) :
    (g.playerAttack_ + g.baseDefense_) * 5 / 10 ≤ Game.effectiveDefense g ∧
    Game.effectiveDefense g ≤ g.playerAttack_ + g.baseDefense_ := by
  rw [Game.effectiveDefense_eq g ha hf hsum]
  split_ifs <;> omega

/-- The `int` computation of `damage`, when `dayCount_ * 15` and the sum of the
non-negative attack and defense are representable. -/
theorem Game.damage_eq (g : Game) (hd : 0 ≤ g.dayCount_) (hd' : 15 * g.dayCount_ ≤ INT_MAX)
    (ha : 0 ≤ g.playerAttack_) (hf : 0 ≤ g.baseDefense_)
    (hsum : g.playerAttack_ + g.baseDefense_ ≤ INT_MAX) :
    Game.enemyCount g = 5 * g.dayCount_ ∧
    Game.damage g = 15 * g.dayCount_ - Game.effectiveDefense g := by
  obtain ⟨-, hb2⟩ := Game.effectiveDefense_bounds g ha hf hsum
  have hb1 : 0 ≤ Game.effectiveDefense g := by
    have := (Game.effectiveDefense_bounds g ha hf hsum).1
    have h0 : 0 ≤ (g.playerAttack_ + g.baseDefense_) * 5 / 10 :=
      Int.ediv_nonneg (by omega) (by norm_num)
    omega
  unfold INT_MAX at hd' hsum
  have e1 : Game.enemyCount g = 5 * g.dayCount_ := by
    unfold Game.enemyCount
    rw [wrapInt_of_inInt _ ⟨by unfold INT_MIN; omega, by unfold INT_MAX; omega⟩]
    ring
  refine ⟨e1, ?_⟩
  unfold Game.damage
  rw [e1, wrapInt_of_inInt (5 * g.dayCount_ * 3) ⟨by unfold INT_MIN; omega, by unfold INT_MAX; omega⟩,
    wrapInt_of_inInt _ ⟨by unfold INT_MIN; omega, by unfold INT_MAX; omega⟩]
  ring

/-- C1: damage resolution at Result entry, before the random event.  For a day
counter `d ≥ 1`, attack `a ≥ 0`, defense `f ≥ 0` and health `h ≥ 0`, with
`15 * d` and `a + f` representable as `int` (no operation of the computation
overflows): with `enemyCount = 5 * d`, the decimal defense rate of the
specification, `effectiveDefense = ⌊(a + f) * rate⌋` and
`damage = 3 * enemyCount - effectiveDefense`, the code computes exactly this
`enemyCount`, `effectiveDefense` and `damage`, health becomes
`max 0 (h - damage)` when `damage > 0` and stays `h` otherwise, and
`lastEarnedPoints` becomes `⌊enemyCount / 2⌋`.  For `d = 6`, `a = 10`, `f = 5`
the effective defense is 12 and the damage 78. -/
theorem C1_damage_resolution (g : Game) (hd : 1 ≤ g.dayCount_)
    (hd' : 15 * g.dayCount_ ≤ INT_MAX)
    (ha : 0 ≤ g.playerAttack_) (hf : 0 ≤ g.baseDefense_)
    (hsum : g.playerAttack_ + g.baseDefense_ ≤ INT_MAX) (hh : 0 ≤ g.baseHP_) :
    let enemyCount := 5 * g.dayCount_
    let effDef := ⌊((g.playerAttack_ + g.baseDefense_ : Int) : ℚ) * specDefenseRate g.dayCount_⌋
    let dmg := 3 * enemyCount - effDef
    Game.enemyCount g = enemyCount ∧ Game.effectiveDefense g = effDef ∧ Game.damage g = dmg ∧
    (Game.StartResultDamage g).baseHP_ =
      (if dmg > 0 then max 0 (g.baseHP_ - dmg) else g.baseHP_) ∧
    (Game.StartResultDamage g).lastEarnedPoints_ = ⌊((enemyCount : Int) : ℚ) / 2⌋ ∧
    (Game.StartResultDamage g).phase_ = TimePhase.Result ∧
    (g.dayCount_ = 6 → g.playerAttack_ = 10 → g.baseDefense_ = 5 →
      Game.effectiveDefense g = 12 ∧ Game.damage g = 78) := by
  intro enemyCount effDef dmg
  obtain ⟨hEC, hDM⟩ := Game.damage_eq g (by omega) hd' ha hf hsum
  have hE : Game.effectiveDefense g = effDef := by
    rw [Game.effectiveDefense_eq g ha hf hsum]
    exact (floor_mul_specDefenseRate _ _).symm
  have hD : Game.damage g = dmg := by
    rw [hDM, hE]; show _ = 3 * (5 * g.dayCount_) - effDef; ring
  refine ⟨hEC, hE, hD, ?_, ?_, rfl, ?_⟩
  · simp only [Game.StartResultDamage, hD]
    split_ifs <;> omega
  · simp only [Game.StartResultDamage, hEC]
    have : (((enemyCount : Int) : ℚ) / 2) = ((enemyCount : Int) : ℚ) / ((2 : Nat) : ℚ) := by
      norm_num
    rw [this, Rat.floor_intCast_div_natCast]
    have h0 : 0 ≤ 5 * g.dayCount_ := by omega
    rw [Int.tdiv_eq_ediv h0 (by norm_num)]
    rfl
  · intro h6 h10 h5
    rw [hD, hE]
    simp only [dmg, enemyCount, effDef, floor_mul_specDefenseRate, h6, h10, h5]
    decide

/-- C1, instance: day 6, attack 10, defense 5, health 100. -/
theorem C1_damage_resolution_witness :
    (Game.StartResultDamage (Game.sample TimePhase.Night 0 0 6 100 10 5 5 (fun _ => 0))).baseHP_
        = 22 ∧
    Game.damage (Game.sample TimePhase.Night 0 0 6 100 10 5 5 (fun _ => 0)) = 78 := by
  have h := C1_damage_resolution (Game.sample TimePhase.Night 0 0 6 100 10 5 5 (fun _ => 0))
    (by decide) (by decide) (by decide) (by decide) (by decide) (by decide)
  refine ⟨?_, (h.2.2.2.2.2.2 rfl rfl rfl).2⟩
  rw [h.2.2.2.1]
  simp only [floor_mul_specDefenseRate]
  decide

/-! ## Structure of a tick -/

/-- `UpdatePlay` in phase `Day` is the sequence of its seven statements. -/
theorem Game.UpdatePlay_Day (g : Game) (keys preKeys : Keys) (h : g.phase_ = TimePhase.Day) :
    Game.UpdatePlay g keys preKeys =
      Game.dayEnd (Game.IsKeyTriggered keys preKeys VK_RETURN)
        (Game.dayUndo (Game.IsKeyTriggered keys preKeys keyR)
          (Game.dayHeal (Game.IsKeyTriggered keys preKeys key3)
            (Game.dayDefenseUp (Game.IsKeyTriggered keys preKeys key2)
              (g.baseDefense_.tdiv 100 + 1)
              (Game.dayAttackUp (Game.IsKeyTriggered keys preKeys key1)
                (g.playerAttack_.tdiv 100 + 1)
                (Game.dayCountdown (Game.dayCapture g)))))) := by
  unfold Game.UpdatePlay
  split <;> rename_i hp <;> first | rfl | (rw [h] at hp; cases hp)

theorem Game.UpdatePlay_Night (g : Game) (keys preKeys : Keys) (h : g.phase_ = TimePhase.Night) :
    Game.UpdatePlay g keys preKeys =
      if g.nightTimer_ - 1 ≤ 0 then
        Game.StartResult (Game.UpdateBallsDuringNight { g with nightTimer_ := g.nightTimer_ - 1 })
      else Game.UpdateBallsDuringNight { g with nightTimer_ := g.nightTimer_ - 1 } := by
  unfold Game.UpdatePlay
  split <;> rename_i hp <;> first | rfl | (rw [h] at hp; cases hp)

theorem Game.UpdatePlay_Result (g : Game) (keys preKeys : Keys)
    (h : g.phase_ = TimePhase.Result) :
    Game.UpdatePlay g keys preKeys =
      if Game.IsKeyTriggered keys preKeys VK_RETURN then Game.StartDay g else g := by
  unfold Game.UpdatePlay
  split <;> rename_i hp <;> first | rfl | (rw [h] at hp; cases hp)

theorem Game.Update_Play (g : Game) (keys preKeys : Keys) (h : g.state_ = GameState.Play) :
    Game.Update g keys preKeys =
      if (Game.UpdatePlay g keys preKeys).baseHP_ ≤ 0 then
        { Game.UpdatePlay g keys preKeys with state_ := GameState.GameOver }
      else Game.UpdatePlay g keys preKeys := by
  unfold Game.Update
  split <;> rename_i hp <;> first | rfl | (rw [h] at hp; cases hp)

/-- In `Play`, `Update` is `UpdatePlay` followed by the game-over check, which
touches only the session state. -/
theorem Game.Update_Play_frame (g : Game) (keys preKeys : Keys) (h : g.state_ = GameState.Play) :
    ∃ st, Game.Update g keys preKeys = { Game.UpdatePlay g keys preKeys with state_ := st } := by
  rw [Game.Update_Play g keys preKeys h]
  split_ifs
  · exact ⟨_, rfl⟩
  · exact ⟨(Game.UpdatePlay g keys preKeys).state_, rfl⟩

/-- `spawnLoop` touches only the enemy list and the generator. -/
theorem Game.spawnLoop_frame (speed : Flt) (type : Int) (count : Nat) (g : Game) :
    ∃ bs r, Game.spawnLoop speed type count g = { g with balls_ := bs, rng_ := r } := by
  induction count generalizing g with
  | zero => exact ⟨g.balls_, g.rng_, rfl⟩
  | succ n ih =>
    unfold Game.spawnLoop
    obtain ⟨bs, r, h⟩ := ih
      { g with
        balls_ := g.balls_ ++ [⟨Flt.ofInt fltBits (g.rng_.draw 0 (kWindowWidth.tdiv 2 - 1)).1,
          Flt.ofInt fltBits ((g.rng_.draw 0 (kWindowWidth.tdiv 2 - 1)).2.draw 0
            (kWindowHeight - 64)).1, speed, type⟩]
        rng_ := ((g.rng_.draw 0 (kWindowWidth.tdiv 2 - 1)).2.draw 0 (kWindowHeight - 64)).2 }
    exact ⟨bs, r, h⟩

/-- `SpawnBalls` touches only the enemy list and the generator. -/
theorem Game.SpawnBalls_frame (g : Game) :
    ∃ bs r, Game.SpawnBalls g = { g with balls_ := bs, rng_ := r } := by
  unfold Game.SpawnBalls
  simp only
  obtain ⟨b1, r1, h1⟩ := Game.spawnLoop_frame
    (Flt.mul fltBits Game.ComputeGraySpeed (Flt.lit fltBits 40 100)) 0 3 { g with balls_ := [] }
  rw [h1]
  obtain ⟨b2, r2, h2⟩ := Game.spawnLoop_frame
    (Flt.mul fltBits Game.ComputeGraySpeed (Flt.lit fltBits 70 100)) 1
    (if g.dayCount_ ≥ 6 then 2 else 0) { g with balls_ := b1, rng_ := r1 }
  rw [h2]
  obtain ⟨b3, r3, h3⟩ := Game.spawnLoop_frame Game.ComputeGraySpeed 2
    (if g.dayCount_ ≥ 11 then 2 else 0) { g with balls_ := b2, rng_ := r2 }
  rw [h3]
  obtain ⟨b4, r4, h4⟩ := Game.spawnLoop_frame
    (Flt.mul fltBits Game.ComputeGraySpeed (Flt.lit fltBits 90 100)) 3
    (if g.dayCount_ ≥ 16 then 1 else 0) { g with balls_ := b3, rng_ := r3 }
  rw [h4]
  exact ⟨b4, r4, rfl⟩

/-! ## Health stays within bounds -/

theorem Game.HandleEvent_hp (g : Game) :
    (Game.HandleEvent g).baseHP_ = g.baseHP_ ∨ (Game.HandleEvent g).baseHP_ = 200 := by
  unfold Game.HandleEvent
  simp only
  split_ifs <;> simp

theorem Game.HandleEvent_hpBackup (g : Game) :
    (Game.HandleEvent g).baseHPBackup_ = g.baseHPBackup_ := by
  unfold Game.HandleEvent
  simp only
  split_ifs <;> rfl

theorem hpInv_UpdatePlay (g : Game) (keys preKeys : Keys) (h : hpInv g) :
    hpInv (Game.UpdatePlay g keys preKeys) := by
  have capture : ∀ s, hpInv s → hpInv (Game.dayCapture s) := by
    intro s hs; unfold Game.dayCapture hpInv at *; split_ifs <;> (try simp) <;> omega
  have attackUp : ∀ e c s, hpInv s → hpInv (Game.dayAttackUp e c s) := by
    intro e c s hs; unfold Game.dayAttackUp; split_ifs <;> exact hs
  have defenseUp : ∀ e c s, hpInv s → hpInv (Game.dayDefenseUp e c s) := by
    intro e c s hs; unfold Game.dayDefenseUp; split_ifs <;> exact hs
  have heal : ∀ e s, hpInv s → hpInv (Game.dayHeal e s) := by
    intro e s hs; unfold Game.dayHeal hpInv at *; split_ifs <;> (try simp) <;> omega
  have undo : ∀ e s, hpInv s → hpInv (Game.dayUndo e s) := by
    intro e s hs; unfold Game.dayUndo hpInv at *; split_ifs <;> (try simp) <;> omega
  have dend : ∀ e s, hpInv s → hpInv (Game.dayEnd e s) := by
    intro e s hs; unfold Game.dayEnd; split_ifs <;> exact hs
  have result : ∀ s, hpInv s → hpInv (Game.StartResult s) := by
    intro s hs
    have hd : hpInv (Game.StartResultDamage s) := by
      unfold Game.StartResultDamage hpInv at *
      simp only
      split_ifs <;> (try simp) <;> omega
    unfold Game.StartResult hpInv
    rw [Game.HandleEvent_hpBackup]
    rcases Game.HandleEvent_hp (Game.StartResultDamage s) with h1 | h1 <;> rw [h1] <;>
      unfold hpInv at hd <;> omega
  cases hph : g.phase_ with
  | Day =>
    rw [Game.UpdatePlay_Day g keys preKeys hph]
    exact dend _ _ (undo _ _ (heal _ _ (defenseUp _ _ _ (attackUp _ _ _ (capture _ h)))))
  | Night =>
    rw [Game.UpdatePlay_Night g keys preKeys hph]
    split_ifs
    · exact result _ h
    · exact h
  | Result =>
    rw [Game.UpdatePlay_Result g keys preKeys hph]
    split_ifs
    · unfold Game.StartDay
      obtain ⟨bs, r, hs⟩ := Game.SpawnBalls_frame
        { g with
          phase_ := TimePhase.Day
          phaseTimer_ := 600
          dayCount_ := wrapInt (g.dayCount_ + 1)
          points_ := wrapInt (g.points_ + g.lastEarnedPoints_)
          eventMessage_ := "" }
      rw [hs]
      exact h
    · exact h

theorem hpInv_Update (g : Game) (keys preKeys : Keys) (h : hpInv g) :
    hpInv (Game.Update g keys preKeys) := by
  cases hst : g.state_ with
  | Title =>
    unfold Game.Update; rw [hst]; simp only
    split_ifs <;> exact h
  | Explanation =>
    unfold Game.Update; rw [hst]; simp only
    split_ifs
    · obtain ⟨bs, r, hs⟩ := Game.SpawnBalls_frame
        { g with
          state_ := GameState.Play
          phase_ := TimePhase.Day
          phaseTimer_ := 600
          dayCount_ := 1
          baseHP_ := 100
          points_ := 5
          eventMessage_ := "" }
      rw [hs]
      exact ⟨by norm_num, by norm_num, h.2.2.1, h.2.2.2⟩
    · exact h
  | Play =>
    rw [Game.Update_Play g keys preKeys hst]
    split_ifs <;> exact hpInv_UpdatePlay g keys preKeys h
  | GameOver =>
    unfold Game.Update; rw [hst]; simp only
    split_ifs
    · simp [hpInv, Game.Reset]
    · exact h

theorem Reachable_runTicks (g : Game) (ticks : List (Keys × Keys)) (h : Reachable g) :
    Reachable (Game.runTicks g ticks) := by
  induction ticks generalizing g with
  | nil => exact h
  | cons t ts ih => exact ih _ (Reachable.tick g t.1 t.2 h)

theorem hpInv_of_Reachable (g : Game) (h : Reachable g) : hpInv g := by
  induction h with
  | init stream => simp [hpInv, Game.new, Game.Reset]
  | tick g keys preKeys _ ih => exact hpInv_Update g keys preKeys ih

/-- C2: health clamp invariant.  In every state reachable from the initial
(Reset) state by any sequence of `Update` ticks, with any key snapshots and any
generator stream, `0 ≤ health ≤ 200`. -/
theorem C2_health_clamp (g : Game) (h : Reachable g) : 0 ≤ g.baseHP_ ∧ g.baseHP_ ≤ 200 :=
  ⟨(hpInv_of_Reachable g h).1, (hpInv_of_Reachable g h).2.1⟩

/-- C2, instance: the state after Enter on the title screen, Enter on the
explanation screen and one heal in the first day tick. -/
theorem C2_health_clamp_witness :
    0 ≤ (Game.runTicks (Game.new fun n => n)
          [(keysDown [VK_RETURN], keysDown []), (keysDown [], keysDown [VK_RETURN]),
           (keysDown [VK_RETURN], keysDown []), (keysDown [key3], keysDown [])]).baseHP_ ∧
    (Game.runTicks (Game.new fun n => n)
          [(keysDown [VK_RETURN], keysDown []), (keysDown [], keysDown [VK_RETURN]),
           (keysDown [VK_RETURN], keysDown []), (keysDown [key3], keysDown [])]).baseHP_ ≤ 200 :=
  C2_health_clamp _ (Reachable_runTicks _ _ (Reachable.init _))

/-! ## The day steps as record updates -/

theorem Game.dayCapture_eq (g : Game) :
    Game.dayCapture g =
      { g with
        dayPointsBackup_ := if g.phaseTimer_ = 600 then g.points_ else g.dayPointsBackup_
        attackBackup_ := if g.phaseTimer_ = 600 then g.playerAttack_ else g.attackBackup_
        defenseBackup_ := if g.phaseTimer_ = 600 then g.baseDefense_ else g.defenseBackup_
        baseHPBackup_ := if g.phaseTimer_ = 600 then g.baseHP_ else g.baseHPBackup_ } := by
  unfold Game.dayCapture
  split_ifs <;> rfl

theorem Game.dayAttackUp_eq (edge : Bool) (cost : Int) (g : Game) :
    Game.dayAttackUp edge cost g =
      { g with
        playerAttack_ :=
          if edge = true ∧ cost ≤ g.points_ then wrapInt (g.playerAttack_ + 2)
          else g.playerAttack_
        points_ :=
          if edge = true ∧ cost ≤ g.points_ then wrapInt (g.points_ - cost)
          else g.points_ } := by
  unfold Game.dayAttackUp
  by_cases h : edge = true ∧ cost ≤ g.points_
  · simp [h]
  · simp only [h, if_false]
    rw [if_neg]
    simpa using h

theorem Game.dayDefenseUp_eq (edge : Bool) (cost : Int) (g : Game) :
    Game.dayDefenseUp edge cost g =
      { g with
        baseDefense_ :=
          if edge = true ∧ cost ≤ g.points_ then wrapInt (g.baseDefense_ + 2)
          else g.baseDefense_
        points_ :=
          if edge = true ∧ cost ≤ g.points_ then wrapInt (g.points_ - cost)
          else g.points_ } := by
  unfold Game.dayDefenseUp
  by_cases h : edge = true ∧ cost ≤ g.points_
  · simp [h]
  · simp only [h, if_false]
    rw [if_neg]
    simpa using h

theorem Game.dayHeal_eq (edge : Bool) (g : Game) :
    Game.dayHeal edge g =
      { g with
        baseHP_ := if edge = true ∧ 1 ≤ g.points_ then min (g.baseHP_ + 10) 200 else g.baseHP_
        points_ :=
          if edge = true ∧ 1 ≤ g.points_ then wrapInt (g.points_ - 1) else g.points_ } := by
  unfold Game.dayHeal
  by_cases h : edge = true ∧ 1 ≤ g.points_
  · have h2 : 0 < g.points_ := by omega
    have h3 : (if g.baseHP_ + 10 > 200 then (200 : Int) else g.baseHP_ + 10)
        = min (g.baseHP_ + 10) 200 := by
      split_ifs <;> omega
    simp [h, h2, h3]
  · simp only [h, if_false]
    rw [if_neg]
    simp only [Bool.and_eq_true, decide_eq_true_eq]
    intro h'
    exact h ⟨h'.1, by omega⟩

theorem Game.dayUndo_eq (edge : Bool) (g : Game) :
    Game.dayUndo edge g =
      { g with
        points_ := if edge = true then g.dayPointsBackup_ else g.points_
        playerAttack_ := if edge = true then g.attackBackup_ else g.playerAttack_
        baseDefense_ := if edge = true then g.defenseBackup_ else g.baseDefense_
        baseHP_ := if edge = true then g.baseHPBackup_ else g.baseHP_ } := by
  unfold Game.dayUndo
  split_ifs <;> rfl

theorem Game.dayEnd_eq (edge : Bool) (g : Game) :
    Game.dayEnd edge g =
      { g with
        phase_ := if edge = true ∨ g.phaseTimer_ ≤ 0 then TimePhase.Night else g.phase_
        nightTimer_ := if edge = true ∨ g.phaseTimer_ ≤ 0 then 300 else g.nightTimer_
        baseHPBackupNight_ :=
          if edge = true ∨ g.phaseTimer_ ≤ 0 then g.baseHP_ else g.baseHPBackupNight_ } := by
  unfold Game.dayEnd Game.StartNight
  by_cases h : edge = true ∨ g.phaseTimer_ ≤ 0
  · simp [h]
  · simp only [h, if_false]
    rw [if_neg]
    simpa using h

/-! ## Upgrade actions -/

/-- C3: the Day-phase upgrade actions are cost-gated.  In a tick of a `Play`
state in phase `Day` without an undo edge, with non-negative attack and defense
and with `attack + 2`, `defense + 2` and the points at most `INT_MAX` (so that
no operation of the tick overflows): with `attackCost` and `defenseCost`
computed from the stats at the start of the tick (`stat / 100 + 1`, which is
`⌊stat / 100⌋ + 1 ≥ 1`) and the fixed cost 1 for heal, the three actions are
evaluated in the order attack-up, defense-up, heal, each against the points
left at that moment: an action whose key edge fires and whose cost is covered
changes its stat as specified (`attack += 2`, `defense += 2`,
`health = min (health + 10) 200`) and lowers points by exactly its cost; an
action whose key edge does not fire or whose cost is not covered changes none
of health, attack, defense, points. -/
theorem C3_upgrades_cost_gated (g : Game) (keys preKeys : Keys)
    (hPlay : g.state_ = GameState.Play) (hDay : g.phase_ = TimePhase.Day)
    (hR : Game.IsKeyTriggered keys preKeys keyR = false)
    (ha : 0 ≤ g.playerAttack_) (ha2 : g.playerAttack_ + 2 ≤ INT_MAX)
    (hf : 0 ≤ g.baseDefense_) (hf2 : g.baseDefense_ + 2 ≤ INT_MAX)
    (hp : g.points_ ≤ INT_MAX) :
    let attackCost := g.playerAttack_.tdiv 100 + 1
    let defenseCost := g.baseDefense_.tdiv 100 + 1
    let okA := Game.IsKeyTriggered keys preKeys key1 = true ∧ attackCost ≤ g.points_
    let p1 := if okA then g.points_ - attackCost else g.points_
    let okD := Game.IsKeyTriggered keys preKeys key2 = true ∧ defenseCost ≤ p1
    let p2 := if okD then p1 - defenseCost else p1
    let okH := Game.IsKeyTriggered keys preKeys key3 = true ∧ 1 ≤ p2
    let p3 := if okH then p2 - 1 else p2
    (Game.Update g keys preKeys).playerAttack_ =
      (if okA then g.playerAttack_ + 2 else g.playerAttack_) ∧
    (Game.Update g keys preKeys).baseDefense_ =
      (if okD then g.baseDefense_ + 2 else g.baseDefense_) ∧
    (Game.Update g keys preKeys).baseHP_ =
      (if okH then min (g.baseHP_ + 10) 200 else g.baseHP_) ∧
    (Game.Update g keys preKeys).points_ = p3 ∧
    (attackCost = ⌊(g.playerAttack_ : ℚ) / 100⌋ + 1 ∧ 1 ≤ attackCost) ∧
    (defenseCost = ⌊(g.baseDefense_ : ℚ) / 100⌋ + 1 ∧ 1 ≤ defenseCost) := by
  intro attackCost defenseCost okA p1 okD p2 okH p3
  have hfloor : ∀ x : Int, 0 ≤ x →
      x.tdiv 100 + 1 = ⌊(x : ℚ) / 100⌋ + 1 ∧ 1 ≤ x.tdiv 100 + 1 := by
    intro x hx
    have h1 : ((x : ℚ) / 100) = (x : ℚ) / ((100 : Nat) : ℚ) := by norm_num
    rw [h1, Rat.floor_intCast_div_natCast, Int.tdiv_eq_ediv hx (by norm_num)]
    constructor
    · rfl
    · have : (0 : Int) ≤ x / 100 := Int.ediv_nonneg hx (by norm_num)
      omega
  have hcA1 : 1 ≤ attackCost := (hfloor _ ha).2
  have hcD1 : 1 ≤ defenseCost := (hfloor _ hf).2
  have wa : wrapInt (g.playerAttack_ + 2) = g.playerAttack_ + 2 :=
    wrapInt_of_inInt _ ⟨by unfold INT_MIN; omega, ha2⟩
  have wf : wrapInt (g.baseDefense_ + 2) = g.baseDefense_ + 2 :=
    wrapInt_of_inInt _ ⟨by unfold INT_MIN; omega, hf2⟩
  have wsub : ∀ p c : Int, 1 ≤ c → c ≤ p → p ≤ INT_MAX → wrapInt (p - c) = p - c := by
    intro p c h1 h2 h3
    unfold INT_MAX at h3
    exact wrapInt_of_inInt _ ⟨by unfold INT_MIN; omega, by unfold INT_MAX; omega⟩
  have e1 : (if okA then wrapInt (g.points_ - attackCost) else g.points_) = p1 := by
    show _ = if okA then g.points_ - attackCost else g.points_
    by_cases h : okA
    · rw [if_pos h, if_pos h, wsub _ _ hcA1 h.2 hp]
    · rw [if_neg h, if_neg h]
  have hp1 : p1 ≤ INT_MAX := by
    show (if okA then g.points_ - attackCost else g.points_) ≤ INT_MAX
    split_ifs <;> omega
  have e2 : (if okD then wrapInt (p1 - defenseCost) else p1) = p2 := by
    show _ = if okD then p1 - defenseCost else p1
    by_cases h : okD
    · rw [if_pos h, if_pos h, wsub _ _ hcD1 h.2 hp1]
    · rw [if_neg h, if_neg h]
  have hp2 : p2 ≤ INT_MAX := by
    show (if okD then p1 - defenseCost else p1) ≤ INT_MAX
    split_ifs <;> omega
  have e3 : (if okH then wrapInt (p2 - 1) else p2) = p3 := by
    show _ = if okH then p2 - 1 else p2
    by_cases h : okH
    · rw [if_pos h, if_pos h, wsub _ _ (le_refl 1) h.2 hp2]
    · rw [if_neg h, if_neg h]
  obtain ⟨st, hU⟩ := Game.Update_Play_frame g keys preKeys hPlay
  rw [hU, Game.UpdatePlay_Day g keys preKeys hDay, hR]
  simp only [Game.dayEnd_eq, Game.dayUndo_eq, Game.dayHeal_eq, Game.dayDefenseUp_eq,
    Game.dayAttackUp_eq, Game.dayCountdown, Game.dayCapture_eq]
  simp only [Bool.false_eq_true, if_false, wa, wf]
  simp only [p3, p2, p1, okH, okD, okA, attackCost, defenseCost] at e1 e2 e3 ⊢
  simp only [e1, e2, e3]
  exact ⟨trivial, trivial, trivial, trivial, hfloor _ ha, hfloor _ hf⟩

/-- C3, instance: on the first tick of day 1 (attack 10, defense 5, health 100,
points 5) an attack-up edge alone gives attack 12 and points 4, defense and
health unchanged. -/
theorem C3_upgrades_cost_gated_witness :
    (Game.Update (Game.sample TimePhase.Day 600 300 1 100 10 5 5 fun _ => 0)
        (keysDown [key1]) (keysDown [])).playerAttack_ = 12 ∧
    (Game.Update (Game.sample TimePhase.Day 600 300 1 100 10 5 5 fun _ => 0)
        (keysDown [key1]) (keysDown [])).points_ = 4 := by
  have h := C3_upgrades_cost_gated (Game.sample TimePhase.Day 600 300 1 100 10 5 5 fun _ => 0)
    (keysDown [key1]) (keysDown []) rfl rfl rfl (by decide) (by decide) (by decide)
    (by decide) (by decide)
  exact ⟨h.1.trans (by decide), h.2.2.2.1.trans (by decide)⟩

/-! ## Undo -/

/-- One Day tick establishes the snapshot, and an undo edge restores it. -/
theorem dayInv_tick (g0 g : Game) (keys preKeys : Keys)
    (hP : g.state_ = GameState.Play) (hD : g.phase_ = TimePhase.Day) (hI : dayInv g0 g) :
    ((Game.Update g keys preKeys).phaseTimer_ < 600 ∧
      (Game.Update g keys preKeys).snapshot = g0.economy) ∧
    (Game.IsKeyTriggered keys preKeys keyR = true →
      (Game.Update g keys preKeys).economy = g0.economy) ∧
    ((Game.Update g keys preKeys).phase_ = TimePhase.Day ∨
      ((Game.Update g keys preKeys).phase_ = TimePhase.Night ∧
        (Game.Update g keys preKeys).nightTimer_ = 300)) := by
  obtain ⟨st, hU⟩ := Game.Update_Play_frame g keys preKeys hP
  rw [hU, Game.UpdatePlay_Day g keys preKeys hD]
  simp only [Game.dayEnd_eq, Game.dayUndo_eq, Game.dayHeal_eq, Game.dayDefenseUp_eq,
    Game.dayAttackUp_eq, Game.dayCountdown, Game.dayCapture_eq, Game.snapshot, Game.economy]
  have hph : ∀ c : Prop, [Decidable c] →
      ((if c then TimePhase.Night else g.phase_) = TimePhase.Day ∨
        ((if c then TimePhase.Night else g.phase_) = TimePhase.Night ∧
          (if c then (300 : Int) else g.nightTimer_) = 300)) := by
    intro c _
    by_cases hc : c
    · simp [hc]
    · simp [hc, hD]
  rcases hI with ⟨ht, he⟩ | ⟨ht, hs⟩
  · simp only [Game.economy] at he
    simp only [ht, if_true]
    refine ⟨⟨by norm_num, he⟩, ?_, hph _⟩
    intro hR
    simp only [hR, if_true]
    exact he
  · simp only [Game.snapshot] at hs
    have hne : ¬ g.phaseTimer_ = 600 := by omega
    simp only [hne, if_false]
    refine ⟨⟨by omega, hs⟩, ?_, hph _⟩
    intro hR
    simp only [hR, if_true]
    exact hs

theorem undo_after_run (g0 : Game) (keys preKeys : Keys)
    (hR : Game.IsKeyTriggered keys preKeys keyR = true) :
    ∀ (ticks : List (Keys × Keys)) (g : Game), dayInv g0 g → Game.staysInDay g ticks →
      (Game.Update (Game.runTicks g ticks) keys preKeys).economy = g0.economy ∧
      (Game.Update (Game.runTicks g ticks) keys preKeys).phaseTimer_ < 600 ∧
      (Game.Update (Game.runTicks g ticks) keys preKeys).snapshot = g0.economy ∧
      ((Game.Update (Game.runTicks g ticks) keys preKeys).phase_ = TimePhase.Day ∨
        ((Game.Update (Game.runTicks g ticks) keys preKeys).phase_ = TimePhase.Night ∧
          (Game.Update (Game.runTicks g ticks) keys preKeys).nightTimer_ = 300)) := by
  intro ticks
  induction ticks with
  | nil =>
    intro g hI hS
    have h := dayInv_tick g0 g keys preKeys hS.1 hS.2 hI
    exact ⟨h.2.1 hR, h.1.1, h.1.2, h.2.2⟩
  | cons t ts ih =>
    intro g hI hS
    have h := dayInv_tick g0 g t.1 t.2 hS.1.1 hS.1.2 hI
    exact ih (Game.Update g t.1 t.2) (Or.inr h.1) hS.2

/-- A tick taken in `Play` right after a Day tick leaves the economy as the
snapshot says, when an undo edge fires. -/
theorem undo_again (g0 g : Game) (keys preKeys : Keys)
    (hP : g.state_ = GameState.Play) (ht : g.phaseTimer_ < 600)
    (hs : g.snapshot = g0.economy) (he : g.economy = g0.economy)
    (hph : g.phase_ = TimePhase.Day ∨ (g.phase_ = TimePhase.Night ∧ g.nightTimer_ = 300))
    (hR : Game.IsKeyTriggered keys preKeys keyR = true) :
    (Game.Update g keys preKeys).economy = g0.economy := by
  rcases hph with hD | ⟨hN, hn⟩
  · exact (dayInv_tick g0 g keys preKeys hP hD (Or.inr ⟨ht, hs⟩)).2.1 hR
  · obtain ⟨st, hU⟩ := Game.Update_Play_frame g keys preKeys hP
    rw [hU, Game.UpdatePlay_Night g keys preKeys hN, hn]
    simp only [Game.economy] at he ⊢
    simpa [Game.UpdateBallsDuringNight] using he

/-- C4: undo restores the day-start snapshot and is idempotent.  Let a Day start
in `g0` (countdown 600) and let any sequence of ticks run within that Day (any
upgrades, any earlier undos).  A following tick in which the undo edge fires
leaves `(points, attack, defense, health)` equal to the 4-tuple of `g0`; and if
the session is still in `Play`, a second tick with an undo edge right after it
yields the same 4-tuple again. -/
theorem C4_undo_restores_snapshot (g0 : Game) (ticks : List (Keys × Keys))
    (keys preKeys keys2 preKeys2 : Keys)
    (hT : g0.phaseTimer_ = 600) (hS : Game.staysInDay g0 ticks)
    (hR : Game.IsKeyTriggered keys preKeys keyR = true)
    (hR2 : Game.IsKeyTriggered keys2 preKeys2 keyR = true) :
    (Game.Update (Game.runTicks g0 ticks) keys preKeys).economy = g0.economy ∧
    ((Game.Update (Game.runTicks g0 ticks) keys preKeys).state_ = GameState.Play →
      (Game.Update (Game.Update (Game.runTicks g0 ticks) keys preKeys) keys2 preKeys2).economy =
        (Game.Update (Game.runTicks g0 ticks) keys preKeys).economy) := by
  obtain ⟨h1, h2, h3, h4⟩ := undo_after_run g0 keys preKeys hR ticks g0 (Or.inl ⟨hT, rfl⟩) hS
  refine ⟨h1, fun hP => ?_⟩
  rw [h1]
  exact undo_again g0 _ keys2 preKeys2 hP h2 h3 h1 h4 hR2

/-- C4, instance: day 1 starts with points 5, attack 10, defense 5, health 100;
after an attack-up tick and a heal tick, an undo tick restores `(5, 10, 5, 100)`. -/
theorem C4_undo_restores_snapshot_witness :
    (Game.Update (Game.runTicks (Game.sample TimePhase.Day 600 300 1 100 10 5 5 fun _ => 0)
        [(keysDown [key1], keysDown []), (keysDown [key3], keysDown [key1])])
      (keysDown [keyR]) (keysDown [key3])).economy = (5, 10, 5, 100) :=
  (C4_undo_restores_snapshot (Game.sample TimePhase.Day 600 300 1 100 10 5 5 fun _ => 0)
    [(keysDown [key1], keysDown []), (keysDown [key3], keysDown [key1])]
    (keysDown [keyR]) (keysDown [key3]) (keysDown [keyR]) (keysDown [])
    rfl ⟨⟨rfl, rfl⟩, ⟨rfl, rfl⟩, ⟨rfl, rfl⟩⟩ rfl rfl).1

/-! ## The random event -/

theorem Rng.draw_range (r : Rng) (lo hi : Int) (h : lo ≤ hi) :
    lo ≤ (r.draw lo hi).1 ∧ (r.draw lo hi).1 ≤ hi := by
  unfold Rng.draw
  simp only
  have hpos : 0 < (hi - lo + 1).toNat := by omega
  have hlt := Nat.mod_lt (r.stream r.pos) hpos
  omega

theorem Rng.draw_pos (r : Rng) (lo hi : Int) : (r.draw lo hi).2.pos = r.pos + 1 := rfl

theorem Game.HandleEvent_awakening (g : Game) (h : g.draw1 < 2) :
    Game.HandleEvent g =
      { g with
        playerAttack_ := wrapInt (g.playerAttack_ + wrapInt (g.dayCount_ * 10))
        baseDefense_ := wrapInt (g.baseDefense_ + wrapInt (g.dayCount_ * 10))
        lastEarnedPoints_ := wrapInt (g.lastEarnedPoints_ * 3)
        eventMessage_ := "【覚醒】力がみなぎる！（ポイント3倍）"
        rng_ := (g.rng_.draw 0 9999).2 } := by
  unfold Game.draw1 at h
  unfold Game.HandleEvent
  simp only [h, if_true]

theorem Game.HandleEvent_good (g : Game) (h1 : 2 ≤ g.draw1) (h2 : g.draw2 < 30) :
    Game.HandleEvent g =
      { g with
        playerAttack_ :=
          if g.draw3 3 = 0 then wrapInt (g.playerAttack_ + wrapInt (g.dayCount_ * 5))
          else g.playerAttack_
        baseDefense_ :=
          if g.draw3 3 = 1 then wrapInt (g.baseDefense_ + wrapInt (g.dayCount_ * 5))
          else g.baseDefense_
        lastEarnedPoints_ :=
          if g.draw3 3 = 2 then wrapInt (g.lastEarnedPoints_ * 2) else g.lastEarnedPoints_
        baseHP_ := if g.draw3 3 = 3 then 200 else g.baseHP_
        eventMessage_ :=
          if g.draw3 3 = 0 then "いい武器を拾った！"
          else if g.draw3 3 = 1 then "いい防具を拾った！"
          else if g.draw3 3 = 2 then "今日は調子が良い！（ポイント2倍）"
          else if g.draw3 3 = 3 then "シスターに癒された！（HP全回復）"
          else ""
        rng_ := (((g.rng_.draw 0 9999).2.draw 0 99).2.draw 0 3).2 } := by
  unfold Game.draw1 at h1
  unfold Game.draw2 at h2
  have h1' : ¬ (g.rng_.draw 0 9999).1 < 2 := by omega
  unfold Game.HandleEvent Game.draw3
  simp only [h1', h2, if_true, if_false]
  split_ifs <;> first | rfl | omega

theorem Game.HandleEvent_bad (g : Game) (h1 : 2 ≤ g.draw1) (h2 : 30 ≤ g.draw2)
    (h3 : g.draw2 < 50) :
    Game.HandleEvent g =
      { g with
        playerAttack_ :=
          if g.draw3 2 = 0 then max 0 (wrapInt (g.playerAttack_ - g.dayCount_))
          else g.playerAttack_
        baseDefense_ :=
          if g.draw3 2 = 1 then max 0 (wrapInt (g.baseDefense_ - g.dayCount_))
          else g.baseDefense_
        lastEarnedPoints_ :=
          if g.draw3 2 = 2 then g.lastEarnedPoints_.tdiv 2 else g.lastEarnedPoints_
        eventMessage_ :=
          if g.draw3 2 = 0 then "武器が壊れた…"
          else if g.draw3 2 = 1 then "防具が壊れた…"
          else if g.draw3 2 = 2 then "今日は調子が悪い…（ポイント半減）"
          else ""
        rng_ := (((g.rng_.draw 0 9999).2.draw 0 99).2.draw 0 2).2 } := by
  unfold Game.draw1 at h1
  unfold Game.draw2 at h2 h3
  have h1' : ¬ (g.rng_.draw 0 9999).1 < 2 := by omega
  have h2' : ¬ ((g.rng_.draw 0 9999).2.draw 0 99).1 < 30 := by omega
  unfold Game.HandleEvent Game.draw3
  simp only [h1', h2', h3, if_true, if_false]
  have hmax : ∀ x : Int, (if x < 0 then 0 else x) = max 0 x := by
    intro x; split_ifs <;> omega
  simp only [hmax]
  split_ifs <;> first | rfl | omega

theorem Game.HandleEvent_neutral (g : Game) (h1 : 2 ≤ g.draw1) (h2 : 50 ≤ g.draw2) :
    Game.HandleEvent g =
      { g with
        eventMessage_ := "今日は特に何も起きなかった…。"
        rng_ := ((g.rng_.draw 0 9999).2.draw 0 99).2 } := by
  unfold Game.draw1 at h1
  unfold Game.draw2 at h2
  have h1' : ¬ (g.rng_.draw 0 9999).1 < 2 := by omega
  have h2' : ¬ ((g.rng_.draw 0 9999).2.draw 0 99).1 < 30 := by omega
  have h3' : ¬ ((g.rng_.draw 0 9999).2.draw 0 99).1 < 50 := by omega
  unfold Game.HandleEvent
  simp only [h1', h2', h3', if_false]

/-! ## Game over at Result entry -/

/-- Health after `HandleEvent`: 200 after the full heal, unchanged otherwise. -/
theorem Game.HandleEvent_hp_eq (g : Game) :
    (Game.HandleEvent g).baseHP_ =
      if 2 ≤ g.draw1 ∧ g.draw2 < 30 ∧ g.draw3 3 = 3 then 200 else g.baseHP_ := by
  by_cases h1 : g.draw1 < 2
  · have hc : ¬ (2 ≤ g.draw1 ∧ g.draw2 < 30 ∧ g.draw3 3 = 3) := fun hc => by omega
    rw [Game.HandleEvent_awakening g h1, if_neg hc]
  · have h1' : 2 ≤ g.draw1 := by omega
    by_cases h2 : g.draw2 < 30
    · rw [Game.HandleEvent_good g h1' h2]
      by_cases h3 : g.draw3 3 = 3
      · simp [h1', h2, h3]
      · simp [h3]
    · by_cases h3 : g.draw2 < 50
      · have hc : ¬ (2 ≤ g.draw1 ∧ g.draw2 < 30 ∧ g.draw3 3 = 3) := fun hc => h2 hc.2.1
        rw [Game.HandleEvent_bad g h1' (by omega) h3, if_neg hc]
      · have hc : ¬ (2 ≤ g.draw1 ∧ g.draw2 < 30 ∧ g.draw3 3 = 3) := fun hc => h2 hc.2.1
        rw [Game.HandleEvent_neutral g h1' (by omega), if_neg hc]

/-- The tick that ends the Night, seen from `Update`. -/
theorem Game.Update_night_end (g : Game) (keys preKeys : Keys)
    (hP : g.state_ = GameState.Play) (hN : g.phase_ = TimePhase.Night)
    (hT : g.nightTimer_ - 1 ≤ 0) :
    Game.UpdatePlay g keys preKeys =
      Game.HandleEvent (Game.StartResultDamage
        (Game.UpdateBallsDuringNight { g with nightTimer_ := g.nightTimer_ - 1 })) ∧
    (Game.Update g keys preKeys).baseHP_ = (Game.UpdatePlay g keys preKeys).baseHP_ ∧
    (Game.Update g keys preKeys).state_ =
      if (Game.UpdatePlay g keys preKeys).baseHP_ ≤ 0 then GameState.GameOver
      else GameState.Play := by
  have hU : Game.UpdatePlay g keys preKeys =
      Game.HandleEvent (Game.StartResultDamage
        (Game.UpdateBallsDuringNight { g with nightTimer_ := g.nightTimer_ - 1 })) := by
    rw [Game.UpdatePlay_Night g keys preKeys hN, if_pos hT]
    rfl
  have hst : (Game.UpdatePlay g keys preKeys).state_ = GameState.Play := by
    rw [hU]
    unfold Game.HandleEvent
    simp only
    split_ifs <;> exact hP
  refine ⟨hU, ?_, ?_⟩
  · rw [Game.Update_Play g keys preKeys hP]
    split_ifs <;> rfl
  · rw [Game.Update_Play g keys preKeys hP]
    split_ifs
    · rfl
    · exact hst

/-- C5, as the claim states it, fails when the random event is the full heal:
on the last Night tick of day 5 with attack 10, defense 5 and health 10 the
damage is 60, damage resolution brings health to 0, the rolls 5, 0, 3 select
the full heal, and the tick ends in `Play` with health 200. -/
theorem C5_counterexample :
    (Game.sample TimePhase.Night 0 1 5 10 10 5 0 (streamOf [5, 0, 3])).baseHP_ ≤
      Game.damage (Game.sample TimePhase.Night 0 1 5 10 10 5 0 (streamOf [5, 0, 3])) ∧
    (Game.StartResultDamage
      (Game.sample TimePhase.Night 0 1 5 10 10 5 0 (streamOf [5, 0, 3]))).baseHP_ = 0 ∧
    (Game.Update (Game.sample TimePhase.Night 0 1 5 10 10 5 0 (streamOf [5, 0, 3]))
      (keysDown []) (keysDown [])).phase_ = TimePhase.Result ∧
    (Game.Update (Game.sample TimePhase.Night 0 1 5 10 10 5 0 (streamOf [5, 0, 3]))
      (keysDown []) (keysDown [])).baseHP_ = 200 ∧
    (Game.Update (Game.sample TimePhase.Night 0 1 5 10 10 5 0 (streamOf [5, 0, 3]))
      (keysDown []) (keysDown [])).state_ ≠ GameState.GameOver := by
  decide

/-- C5 (amended): for every `Play` state whose Night ends on this tick, if the
computed damage is at least the current health, damage resolution brings health
to 0, and at the end of that same tick the session state is `GameOver` (health
0) for every outcome of the random event rolls except the full heal (first draw
at least 2, second draw below 30, third draw 3), after which health is 200 and
the session state is still `Play`. -/
theorem C5_game_over_unless_full_heal (g : Game) (keys preKeys : Keys)
    (hP : g.state_ = GameState.Play) (hN : g.phase_ = TimePhase.Night)
    (hT : g.nightTimer_ - 1 ≤ 0) (hdmg : g.baseHP_ ≤ Game.damage g) :
    (Game.StartResultDamage g).baseHP_ = 0 ∧
    (if 2 ≤ g.draw1 ∧ g.draw2 < 30 ∧ g.draw3 3 = 3 then
      (Game.Update g keys preKeys).baseHP_ = 200 ∧
        (Game.Update g keys preKeys).state_ = GameState.Play
    else
      (Game.Update g keys preKeys).baseHP_ = 0 ∧
        (Game.Update g keys preKeys).state_ = GameState.GameOver) := by
  have hzero : ∀ s : Game, s.baseHP_ ≤ Game.damage s →
      (Game.StartResultDamage s).baseHP_ = 0 := by
    intro s hs
    unfold Game.StartResultDamage
    simp only
    split_ifs <;> omega
  obtain ⟨hU, hhp, hst⟩ := Game.Update_night_end g keys preKeys hP hN hT
  have h0 : (Game.StartResultDamage
      (Game.UpdateBallsDuringNight { g with nightTimer_ := g.nightTimer_ - 1 })).baseHP_ = 0 :=
    hzero _ hdmg
  have hE := Game.HandleEvent_hp_eq (Game.StartResultDamage
      (Game.UpdateBallsDuringNight { g with nightTimer_ := g.nightTimer_ - 1 }))
  rw [h0, ← hU] at hE
  have hE' : (Game.UpdatePlay g keys preKeys).baseHP_ =
      if 2 ≤ g.draw1 ∧ g.draw2 < 30 ∧ g.draw3 3 = 3 then 200 else 0 := hE
  refine ⟨hzero g hdmg, ?_⟩
  by_cases hc : 2 ≤ g.draw1 ∧ g.draw2 < 30 ∧ g.draw3 3 = 3
  · rw [if_pos hc] at hE' ⊢
    rw [hhp, hst, hE']
    exact ⟨rfl, by decide⟩
  · rw [if_neg hc] at hE' ⊢
    rw [hhp, hst, hE']
    exact ⟨rfl, by decide⟩

/-- C5, instance: the last Night tick of day 5 with attack 10, defense 5 and
health 10, neutral event (rolls 5, 70): the tick ends in `GameOver`. -/
theorem C5_game_over_unless_full_heal_witness :
    (Game.Update (Game.sample TimePhase.Night 0 1 5 10 10 5 0 (streamOf [5, 70]))
      (keysDown []) (keysDown [])).state_ = GameState.GameOver := by
  have h := C5_game_over_unless_full_heal
    (Game.sample TimePhase.Night 0 1 5 10 10 5 0 (streamOf [5, 70]))
    (keysDown []) (keysDown []) rfl rfl (by decide) (by decide)
  rw [if_neg (by decide)] at h
  exact h.2.2

/-! ## The event table -/

theorem Game.draw1_range (g : Game) : 0 ≤ g.draw1 ∧ g.draw1 ≤ 9999 :=
  Rng.draw_range _ 0 9999 (by norm_num)

theorem Game.draw2_range (g : Game) : 0 ≤ g.draw2 ∧ g.draw2 ≤ 99 :=
  Rng.draw_range _ 0 99 (by norm_num)

theorem Game.draw3_range (g : Game) (hi : Int) (h : 0 ≤ hi) :
    0 ≤ g.draw3 hi ∧ g.draw3 hi ≤ hi :=
  Rng.draw_range _ 0 hi h

/-- C6: the awakening event.  With `d` the day counter and `r1` the first draw
of `HandleEvent` (always in `[0, 9999]`): if `r1 < 2`, attack and defense rise
by `10 * d` (when `10 * d` and the sum are representable as `int`, so that the
addition does not overflow), `lastEarnedPoints` is multiplied by 3 (when the
product is representable), health (and points) are unchanged, the message is
the non-empty awakening message, and exactly one draw is consumed.  If
`r1 ≥ 2` the awakening is not applied: the message is not the awakening
message, at least one more draw is consumed, and the awakening effects are
absent (attack does not become `attack + 10 * d` nor does defense, for an
`int` `d > 0` and a non-negative stat; `lastEarnedPoints` does not become its
triple unless it is 0). -/
theorem C6_awakening (g : Game) :
    (0 ≤ g.draw1 ∧ g.draw1 ≤ 9999) ∧
    (g.draw1 < 2 →
      (inInt (g.dayCount_ * 10) → inInt (g.playerAttack_ + g.dayCount_ * 10) →
        (Game.HandleEvent g).playerAttack_ = g.playerAttack_ + 10 * g.dayCount_) ∧
      (inInt (g.dayCount_ * 10) → inInt (g.baseDefense_ + g.dayCount_ * 10) →
        (Game.HandleEvent g).baseDefense_ = g.baseDefense_ + 10 * g.dayCount_) ∧
      (inInt (g.lastEarnedPoints_ * 3) →
        (Game.HandleEvent g).lastEarnedPoints_ = g.lastEarnedPoints_ * 3) ∧
      (Game.HandleEvent g).baseHP_ = g.baseHP_ ∧
      (Game.HandleEvent g).points_ = g.points_ ∧
      (Game.HandleEvent g).eventMessage_ = "【覚醒】力がみなぎる！（ポイント3倍）" ∧
      (Game.HandleEvent g).eventMessage_ ≠ "" ∧
      (Game.HandleEvent g).rng_.pos = g.rng_.pos + 1) ∧
    (2 ≤ g.draw1 →
      (Game.HandleEvent g).eventMessage_ ≠ "【覚醒】力がみなぎる！（ポイント3倍）" ∧
      g.rng_.pos + 2 ≤ (Game.HandleEvent g).rng_.pos ∧
      (0 < g.dayCount_ → g.dayCount_ ≤ INT_MAX → 0 ≤ g.playerAttack_ →
        (Game.HandleEvent g).playerAttack_ ≠ g.playerAttack_ + 10 * g.dayCount_) ∧
      (0 < g.dayCount_ → g.dayCount_ ≤ INT_MAX → 0 ≤ g.baseDefense_ →
        (Game.HandleEvent g).baseDefense_ ≠ g.baseDefense_ + 10 * g.dayCount_) ∧
      (g.lastEarnedPoints_ ≠ 0 → inInt g.lastEarnedPoints_ →
        (Game.HandleEvent g).lastEarnedPoints_ ≠ g.lastEarnedPoints_ * 3)) := by
  refine ⟨Game.draw1_range g, ?_, ?_⟩
  · intro h
    rw [Game.HandleEvent_awakening g h]
    refine ⟨?_, ?_, ?_, rfl, rfl, rfl, by simp only; decide, rfl⟩
    · intro hd hs
      simp only
      rw [wrapInt_of_inInt _ hd, wrapInt_of_inInt _ hs]; ring
    · intro hd hs
      simp only
      rw [wrapInt_of_inInt _ hd, wrapInt_of_inInt _ hs]; ring
    · intro hl
      simp only
      rw [wrapInt_of_inInt _ hl]
  · intro h1
    have htd : ∀ x : Int, x ≠ 0 → x.tdiv 2 ≠ x * 3 := by
      intro x hx heq
      rcases le_or_lt 0 x with h0 | h0
      · rw [Int.tdiv_eq_ediv h0 (by norm_num)] at heq
        omega
      · have h2 : (-x).tdiv 2 = -(x.tdiv 2) := Int.neg_tdiv x 2
        rw [Int.tdiv_eq_ediv (by omega) (by norm_num)] at h2
        omega
    have hup : ∀ x d : Int, 0 < d → d ≤ INT_MAX →
        wrapInt (x + wrapInt (d * 5)) ≠ x + 10 * d := by
      intro x d hd hd' he
      unfold INT_MAX at hd'
      obtain ⟨k1, e1⟩ := wrapInt_cases (d * 5)
      obtain ⟨k2, e2⟩ := wrapInt_cases (x + wrapInt (d * 5))
      rw [e2, e1] at he
      obtain ⟨m, hm⟩ : ∃ m : Int, d = 4294967296 * m :=
        ⟨3435973837 * (k1 + k2) - 4 * d, by linarith⟩
      clear he e1 e2
      omega
    have hdown : ∀ x d : Int, 0 < d → d ≤ INT_MAX → 0 ≤ x →
        max 0 (wrapInt (x - d)) ≠ x + 10 * d := by
      intro x d hd hd' hx he
      unfold INT_MAX at hd'
      obtain ⟨k1, e1⟩ := wrapInt_cases (x - d)
      rw [e1] at he
      rcases le_total (x - d + 4294967296 * k1) 0 with h0 | h0
      · rw [max_eq_left h0] at he; omega
      · rw [max_eq_right h0] at he
        obtain ⟨m, hm⟩ : ∃ m : Int, d = 4294967296 * m :=
          ⟨3123612579 * k1 - 8 * d, by linarith⟩
        clear he e1 h0
        omega
    have hdbl : ∀ x : Int, x ≠ 0 → inInt x → wrapInt (x * 2) ≠ x * 3 := by
      intro x hx hi
      unfold inInt INT_MIN INT_MAX at hi
      obtain ⟨k1, e1⟩ := wrapInt_cases (x * 2)
      rw [e1]
      omega
    by_cases h2 : g.draw2 < 30
    · rw [Game.HandleEvent_good g h1 h2]
      have hr := Game.draw3_range g 3 (by norm_num)
      refine ⟨?_, ?_, ?_, ?_, ?_⟩
      · simp only
        split_ifs <;> decide
      · simp only [Rng.draw_pos]; omega
      · intro hd hd' ha; simp only; split_ifs
        · exact hup _ _ hd hd'
        · omega
      · intro hd hd' ha; simp only; split_ifs
        · exact hup _ _ hd hd'
        · omega
      · intro hl hi; simp only; split_ifs
        · exact hdbl _ hl hi
        · omega
    · by_cases h3 : g.draw2 < 50
      · rw [Game.HandleEvent_bad g h1 (by omega) h3]
        refine ⟨?_, ?_, ?_, ?_, ?_⟩
        · simp only
          split_ifs <;> decide
        · simp only [Rng.draw_pos]; omega
        · intro hd hd' ha; simp only; split_ifs
          · exact hdown _ _ hd hd' ha
          · omega
        · intro hd hd' ha; simp only; split_ifs
          · exact hdown _ _ hd hd' ha
          · omega
        · intro hl hi; simp only
          split_ifs
          · exact htd _ hl
          · omega
      · rw [Game.HandleEvent_neutral g h1 (by omega)]
        refine ⟨by simp only; decide, ?_, ?_, ?_, ?_⟩
        · simp only [Rng.draw_pos]; omega
        · intro hd hd' ha; simp only; omega
        · intro hd hd' ha; simp only; omega
        · intro hl hi; simp only; omega

/-- C6, instance: on day 6 with attack 10, defense 5 and 15 points earned, a
first raw draw of 1 triggers the awakening: attack 70, defense 65, 45 points
earned, one draw consumed. -/
theorem C6_awakening_witness :
    (Game.HandleEvent (Game.StartResultDamage
      (Game.sample TimePhase.Night 0 0 6 100 10 5 0 (streamOf [1])))).economy5 =
        (22, 70, 65, 0, 45) ∧
    (Game.HandleEvent (Game.StartResultDamage
      (Game.sample TimePhase.Night 0 0 6 100 10 5 0 (streamOf [1])))).rng_.pos = 1 := by
  obtain ⟨h1, h2, h3, h4, h5, -, -, h8⟩ := (C6_awakening (Game.StartResultDamage
    (Game.sample TimePhase.Night 0 0 6 100 10 5 0 (streamOf [1])))).2.1 (by decide)
  refine ⟨?_, h8⟩
  simp only [Game.economy5, h1 (by decide) (by decide), h2 (by decide) (by decide),
    h3 (by decide), h4, h5]
  decide

/-- C7: the second-stage event table.  With `d` the day counter, when the first
draw is at least 2 and `roll` is the second draw (always in `[0, 99]`):
if `roll < 30` a third draw `t` in `[0, 3]` applies exactly one of
`attack += 5 * d` (`t = 0`), `defense += 5 * d` (`t = 1`),
`lastEarnedPoints *= 2` (`t = 2`), `health = 200` (`t = 3`);
if `30 ≤ roll < 50` a third draw `b` in `[0, 2]` applies exactly one of
`attack = max 0 (attack - d)` (`b = 0`), `defense = max 0 (defense - d)`
(`b = 1`), `lastEarnedPoints = lastEarnedPoints / 2` with truncating integer
division (`b = 2`); if `roll ≥ 50` no economy field changes and only two draws
are consumed.  Each arithmetic outcome is stated for operands whose exact
product, sum or difference is representable as `int`, so that the operation
does not overflow.  In every case the other economy fields are unchanged and
the event message is non-empty afterwards.  The bounds are strict: the good
branch is `roll < 30`, the bad branch `30 ≤ roll < 50`. -/
theorem C7_event_table (g : Game) (h1 : 2 ≤ g.draw1) :
    (0 ≤ g.draw2 ∧ g.draw2 ≤ 99) ∧
    (g.draw2 < 30 →
      (0 ≤ g.draw3 3 ∧ g.draw3 3 ≤ 3) ∧
      (Game.HandleEvent g).rng_.pos = g.rng_.pos + 3 ∧
      (g.draw3 3 = 0 → inInt (g.dayCount_ * 5) → inInt (g.playerAttack_ + g.dayCount_ * 5) →
        (Game.HandleEvent g).economy5 =
          (g.baseHP_, g.playerAttack_ + 5 * g.dayCount_, g.baseDefense_, g.points_,
            g.lastEarnedPoints_)) ∧
      (g.draw3 3 = 1 → inInt (g.dayCount_ * 5) → inInt (g.baseDefense_ + g.dayCount_ * 5) →
        (Game.HandleEvent g).economy5 =
          (g.baseHP_, g.playerAttack_, g.baseDefense_ + 5 * g.dayCount_, g.points_,
            g.lastEarnedPoints_)) ∧
      (g.draw3 3 = 2 → inInt (g.lastEarnedPoints_ * 2) →
        (Game.HandleEvent g).economy5 =
          (g.baseHP_, g.playerAttack_, g.baseDefense_, g.points_, g.lastEarnedPoints_ * 2)) ∧
      (g.draw3 3 = 3 → (Game.HandleEvent g).economy5 =
        (200, g.playerAttack_, g.baseDefense_, g.points_, g.lastEarnedPoints_))) ∧
    (30 ≤ g.draw2 → g.draw2 < 50 →
      (0 ≤ g.draw3 2 ∧ g.draw3 2 ≤ 2) ∧
      (Game.HandleEvent g).rng_.pos = g.rng_.pos + 3 ∧
      (g.draw3 2 = 0 → inInt (g.playerAttack_ - g.dayCount_) →
        (Game.HandleEvent g).economy5 =
          (g.baseHP_, max 0 (g.playerAttack_ - g.dayCount_), g.baseDefense_, g.points_,
            g.lastEarnedPoints_)) ∧
      (g.draw3 2 = 1 → inInt (g.baseDefense_ - g.dayCount_) →
        (Game.HandleEvent g).economy5 =
          (g.baseHP_, g.playerAttack_, max 0 (g.baseDefense_ - g.dayCount_), g.points_,
            g.lastEarnedPoints_)) ∧
      (g.draw3 2 = 2 → (Game.HandleEvent g).economy5 =
        (g.baseHP_, g.playerAttack_, g.baseDefense_, g.points_,
          g.lastEarnedPoints_.tdiv 2))) ∧
    (50 ≤ g.draw2 →
      (Game.HandleEvent g).economy5 = g.economy5 ∧
      (Game.HandleEvent g).rng_.pos = g.rng_.pos + 2) ∧
    (Game.HandleEvent g).eventMessage_ ≠ "" := by
  refine ⟨Game.draw2_range g, ?_, ?_, ?_, ?_⟩
  · intro h2
    rw [Game.HandleEvent_good g h1 h2]
    refine ⟨Game.draw3_range g 3 (by norm_num), rfl, ?_, ?_, ?_, ?_⟩
    · intro h3 hd hs
      simp [Game.economy5, h3, wrapInt_of_inInt _ hd, wrapInt_of_inInt _ hs, mul_comm]
    · intro h3 hd hs
      simp [Game.economy5, h3, wrapInt_of_inInt _ hd, wrapInt_of_inInt _ hs, mul_comm]
    · intro h3 hl
      simp [Game.economy5, h3, wrapInt_of_inInt _ hl]
    · intro h3
      simp [Game.economy5, h3]
  · intro h2 h3
    rw [Game.HandleEvent_bad g h1 h2 h3]
    refine ⟨Game.draw3_range g 2 (by norm_num), rfl, ?_, ?_, ?_⟩
    · intro h4 hs
      simp [Game.economy5, h4, wrapInt_of_inInt _ hs]
    · intro h4 hs
      simp [Game.economy5, h4, wrapInt_of_inInt _ hs]
    · intro h4
      simp [Game.economy5, h4]
  · intro h2
    rw [Game.HandleEvent_neutral g h1 h2]
    exact ⟨rfl, rfl⟩
  · by_cases h2 : g.draw2 < 30
    · rw [Game.HandleEvent_good g h1 h2]
      have hr := Game.draw3_range g 3 (by norm_num)
      simp only
      split_ifs
      · decide
      · decide
      · decide
      · decide
      · omega
    · by_cases h3 : g.draw2 < 50
      · rw [Game.HandleEvent_bad g h1 (by omega) h3]
        have hr := Game.draw3_range g 2 (by norm_num)
        simp only
        split_ifs
        · decide
        · decide
        · decide
        · omega
      · rw [Game.HandleEvent_neutral g h1 (by omega)]
        simp only
        decide

/-- C7, instance: on day 6 with 15 points earned, the raw draws 5, 29, 2 select
the good outcome that doubles the points earned: 30. -/
theorem C7_event_table_witness :
    (Game.HandleEvent (Game.StartResultDamage
      (Game.sample TimePhase.Night 0 0 6 100 10 5 0 (streamOf [5, 29, 2])))).economy5 =
        (22, 10, 5, 0, 30) :=
  ((C7_event_table (Game.StartResultDamage
      (Game.sample TimePhase.Night 0 0 6 100 10 5 0 (streamOf [5, 29, 2])))
    (by decide)).2.1 (by decide)).2.2.2.2.1 (by decide) (by decide) |>.trans (by decide)

/-! ## Phase durations -/

theorem Game.HandleEvent_phase (g : Game) : (Game.HandleEvent g).phase_ = g.phase_ := by
  unfold Game.HandleEvent
  simp only
  split_ifs <;> rfl

/-- A Day call of `UpdatePlay` without a confirm edge: countdown, phase, and
positivity of health and of its backup. -/
theorem Game.day_tick_facts (s : Game) (keys preKeys : Keys)
    (hD : s.phase_ = TimePhase.Day)
    (hE : Game.IsKeyTriggered keys preKeys VK_RETURN = false) :
    (Game.UpdatePlay s keys preKeys).phaseTimer_ = s.phaseTimer_ - 1 ∧
    (s.phaseTimer_ - 1 ≤ 0 →
      (Game.UpdatePlay s keys preKeys).phase_ = TimePhase.Night ∧
        (Game.UpdatePlay s keys preKeys).nightTimer_ = 300) ∧
    (0 < s.phaseTimer_ - 1 → (Game.UpdatePlay s keys preKeys).phase_ = TimePhase.Day) ∧
    (0 < s.baseHP_ → (s.phaseTimer_ = 600 ∨ 0 < s.baseHPBackup_) →
      0 < (Game.UpdatePlay s keys preKeys).baseHP_ ∧
        0 < (Game.UpdatePlay s keys preKeys).baseHPBackup_) := by
  rw [Game.UpdatePlay_Day s keys preKeys hD, hE]
  simp only [Game.dayEnd_eq, Game.dayUndo_eq, Game.dayHeal_eq, Game.dayDefenseUp_eq,
    Game.dayAttackUp_eq, Game.dayCountdown, Game.dayCapture_eq]
  simp only [Bool.false_eq_true, false_or]
  refine ⟨trivial, ?_, ?_, ?_⟩
  · intro h; simp [h]
  · intro h
    have h' : ¬ s.phaseTimer_ - 1 ≤ 0 := by omega
    simp [h', hD]
  · intro hhp hb
    constructor
    · split_ifs <;> omega
    · split_ifs <;> omega

/-- A Night call of `UpdatePlay`. -/
theorem Game.night_tick_facts (s : Game) (keys preKeys : Keys)
    (hN : s.phase_ = TimePhase.Night) :
    (s.nightTimer_ - 1 ≤ 0 → (Game.UpdatePlay s keys preKeys).phase_ = TimePhase.Result) ∧
    (0 < s.nightTimer_ - 1 →
      (Game.UpdatePlay s keys preKeys).phase_ = TimePhase.Night ∧
        (Game.UpdatePlay s keys preKeys).nightTimer_ = s.nightTimer_ - 1 ∧
        (Game.UpdatePlay s keys preKeys).baseHP_ = s.baseHP_) := by
  rw [Game.UpdatePlay_Night s keys preKeys hN]
  constructor
  · intro h
    rw [if_pos h]
    unfold Game.StartResult
    rw [Game.HandleEvent_phase]
    rfl
  · intro h
    rw [if_neg (by omega)]
    exact ⟨hN, rfl, rfl⟩

/-- A `Play` tick that ends with positive health is `UpdatePlay`. -/
theorem Game.Update_Play_alive (s : Game) (keys preKeys : Keys)
    (hP : s.state_ = GameState.Play) (h : 0 < (Game.UpdatePlay s keys preKeys).baseHP_) :
    Game.Update s keys preKeys = Game.UpdatePlay s keys preKeys := by
  rw [Game.Update_Play s keys preKeys hP, if_neg (by omega)]

theorem Game.UpdatePlay_state (s : Game) (keys preKeys : Keys) :
    (Game.UpdatePlay s keys preKeys).state_ = s.state_ := by
  cases hph : s.phase_ with
  | Day =>
    rw [Game.UpdatePlay_Day s keys preKeys hph]
    simp only [Game.dayEnd_eq, Game.dayUndo_eq, Game.dayHeal_eq, Game.dayDefenseUp_eq,
      Game.dayAttackUp_eq, Game.dayCountdown, Game.dayCapture_eq]
  | Night =>
    rw [Game.UpdatePlay_Night s keys preKeys hph]
    split_ifs
    · unfold Game.StartResult Game.HandleEvent
      simp only
      split_ifs <;> rfl
    · rfl
  | Result =>
    rw [Game.UpdatePlay_Result s keys preKeys hph]
    split_ifs
    · obtain ⟨bs, r, h⟩ := Game.SpawnBalls_frame
        { s with
          phase_ := TimePhase.Day
          phaseTimer_ := 600
          dayCount_ := wrapInt (s.dayCount_ + 1)
          points_ := wrapInt (s.points_ + s.lastEarnedPoints_)
          eventMessage_ := "" }
      unfold Game.StartDay
      rw [h]
    · rfl

/-- C8: phase durations by timeout.  Start in a state that has just entered the
Day phase (countdown 600) and apply ticks without a confirm edge.  Then the
phase is `Day` after each of the ticks 1..599, `Night` after tick 600 and after
each of the ticks 601..899, and `Result` after tick 900.  This holds for the
sequence of `UpdatePlay` calls from any such state, and for the sequence of
`Update` ticks from any such state of the session state `Play` with positive
health. -/
theorem C8_phase_durations (g : Game) (ks : Nat → Keys × Keys)
    (hD : g.phase_ = TimePhase.Day) (hT : g.phaseTimer_ = 600)
    (hE : ∀ i, Game.IsKeyTriggered (ks i).1 (ks i).2 VK_RETURN = false) :
    ((∀ n, 1 ≤ n → n ≤ 599 → (Game.runPlayFor g ks n).phase_ = TimePhase.Day) ∧
      (∀ n, 600 ≤ n → n ≤ 899 → (Game.runPlayFor g ks n).phase_ = TimePhase.Night) ∧
      (Game.runPlayFor g ks 900).phase_ = TimePhase.Result) ∧
    (g.state_ = GameState.Play → 0 < g.baseHP_ →
      (∀ n, 1 ≤ n → n ≤ 599 → (Game.runFor g ks n).phase_ = TimePhase.Day) ∧
      (∀ n, 600 ≤ n → n ≤ 899 → (Game.runFor g ks n).phase_ = TimePhase.Night) ∧
      (Game.runFor g ks 900).phase_ = TimePhase.Result) := by
  have key : ∀ n : Nat,
      (n ≤ 599 → (Game.runPlayFor g ks n).phase_ = TimePhase.Day ∧
        (Game.runPlayFor g ks n).phaseTimer_ = 600 - (n : Int)) ∧
      (600 ≤ n → n ≤ 899 → (Game.runPlayFor g ks n).phase_ = TimePhase.Night ∧
        (Game.runPlayFor g ks n).nightTimer_ = 900 - (n : Int)) ∧
      (n = 900 → (Game.runPlayFor g ks n).phase_ = TimePhase.Result) := by
    intro n
    induction n with
    | zero =>
      refine ⟨fun _ => ⟨hD, by simpa using hT⟩, fun h => by omega, fun h => by omega⟩
    | succ n ih =>
      obtain ⟨ih1, ih2, -⟩ := ih
      show (_ → (Game.UpdatePlay _ _ _).phase_ = _ ∧ (Game.UpdatePlay _ _ _).phaseTimer_ = _) ∧
        (_ → _ → (Game.UpdatePlay _ _ _).phase_ = _ ∧ (Game.UpdatePlay _ _ _).nightTimer_ = _) ∧
        (_ → (Game.UpdatePlay _ _ _).phase_ = _)
      refine ⟨?_, ?_, ?_⟩
      · intro hn
        obtain ⟨hph, htm⟩ := ih1 (by omega)
        obtain ⟨f1, -, f3, -⟩ := Game.day_tick_facts _ (ks n).1 (ks n).2 hph (hE n)
        refine ⟨f3 (by omega), ?_⟩
        rw [f1, htm]; push_cast; ring
      · intro hn1 hn2
        rcases Nat.eq_or_lt_of_le hn1 with h600 | h600
        · obtain ⟨hph, htm⟩ := ih1 (by omega)
          obtain ⟨-, f2, -, -⟩ := Game.day_tick_facts _ (ks n).1 (ks n).2 hph (hE n)
          obtain ⟨g1, g2⟩ := f2 (by omega)
          refine ⟨g1, ?_⟩
          rw [g2]; push_cast; omega
        · obtain ⟨hph, htm⟩ := ih2 (by omega) (by omega)
          obtain ⟨-, f2⟩ := Game.night_tick_facts _ (ks n).1 (ks n).2 hph
          obtain ⟨g1, g2, -⟩ := f2 (by omega)
          refine ⟨g1, ?_⟩
          rw [g2, htm]; push_cast; ring
      · intro hn
        obtain ⟨hph, htm⟩ := ih2 (by omega) (by omega)
        exact (Game.night_tick_facts _ (ks n).1 (ks n).2 hph).1 (by omega)
  refine ⟨⟨fun n _ h2 => ((key n).1 h2).1, fun n h1 h2 => ((key n).2.1 h1 h2).1,
    (key 900).2.2 rfl⟩, ?_⟩
  intro hP hHP
  have alive : ∀ n : Nat, n ≤ 899 →
      Game.runFor g ks n = Game.runPlayFor g ks n ∧
      (Game.runPlayFor g ks n).state_ = GameState.Play ∧
      0 < (Game.runPlayFor g ks n).baseHP_ ∧
      (1 ≤ n → n ≤ 599 → 0 < (Game.runPlayFor g ks n).baseHPBackup_) := by
    intro n
    induction n with
    | zero => intro _; exact ⟨rfl, hP, hHP, fun h => by omega⟩
    | succ n ih =>
      intro hn
      obtain ⟨e1, e2, e3, e4⟩ := ih (by omega)
      have hst : (Game.UpdatePlay (Game.runPlayFor g ks n) (ks n).1 (ks n).2).state_ =
          GameState.Play := by rw [Game.UpdatePlay_state]; exact e2
      have hfacts : 0 < (Game.UpdatePlay (Game.runPlayFor g ks n) (ks n).1 (ks n).2).baseHP_ ∧
          (n + 1 ≤ 599 →
            0 < (Game.UpdatePlay (Game.runPlayFor g ks n) (ks n).1 (ks n).2).baseHPBackup_) := by
        rcases Nat.lt_or_ge n 600 with hlt | hge
        · obtain ⟨hph, htm⟩ := (key n).1 (by omega)
          obtain ⟨-, -, -, f4⟩ := Game.day_tick_facts _ (ks n).1 (ks n).2 hph (hE n)
          have hb : (Game.runPlayFor g ks n).phaseTimer_ = 600 ∨
              0 < (Game.runPlayFor g ks n).baseHPBackup_ := by
            rcases Nat.eq_zero_or_pos n with h0 | h0
            · left; rw [htm, h0]; norm_num
            · right; exact e4 h0 (by omega)
          exact ⟨(f4 e3 hb).1, fun _ => (f4 e3 hb).2⟩
        · obtain ⟨hph, htm⟩ := (key n).2.1 hge (by omega)
          obtain ⟨-, f2⟩ := Game.night_tick_facts _ (ks n).1 (ks n).2 hph
          obtain ⟨-, -, g3⟩ := f2 (by omega)
          exact ⟨by rw [g3]; exact e3, fun h => by omega⟩
      refine ⟨?_, hst, hfacts.1, fun _ h => hfacts.2 h⟩
      show Game.Update (Game.runFor g ks n) (ks n).1 (ks n).2 = _
      rw [e1]
      exact Game.Update_Play_alive _ _ _ e2 hfacts.1
  refine ⟨fun n h1 h2 => ?_, fun n h1 h2 => ?_, ?_⟩
  · rw [(alive n (by omega)).1]; exact ((key n).1 h2).1
  · rw [(alive n (by omega)).1]; exact ((key n).2.1 h1 h2).1
  · have last : ∀ n : Nat, n = 899 → (Game.runFor g ks (n + 1)).phase_ = TimePhase.Result := by
      intro n hn
      obtain ⟨e1, e2, -, -⟩ := alive n (by omega)
      show (Game.Update (Game.runFor g ks n) (ks n).1 (ks n).2).phase_ = _
      rw [e1]
      obtain ⟨st, hU⟩ := Game.Update_Play_frame (Game.runPlayFor g ks n) (ks n).1 (ks n).2 e2
      rw [hU]
      exact (key (n + 1)).2.2 (by omega)
    exact last 899 rfl

/-- C8, instance: day 1 from the defaults, no key ever pressed: Day after tick
599, Night after ticks 600 and 899, Result after tick 900. -/
theorem C8_phase_durations_witness :
    (Game.runFor (Game.sample TimePhase.Day 600 300 1 100 10 5 5 fun _ => 0)
      (fun _ => (keysDown [], keysDown [])) 599).phase_ = TimePhase.Day ∧
    (Game.runFor (Game.sample TimePhase.Day 600 300 1 100 10 5 5 fun _ => 0)
      (fun _ => (keysDown [], keysDown [])) 600).phase_ = TimePhase.Night ∧
    (Game.runFor (Game.sample TimePhase.Day 600 300 1 100 10 5 5 fun _ => 0)
      (fun _ => (keysDown [], keysDown [])) 899).phase_ = TimePhase.Night ∧
    (Game.runFor (Game.sample TimePhase.Day 600 300 1 100 10 5 5 fun _ => 0)
      (fun _ => (keysDown [], keysDown [])) 900).phase_ = TimePhase.Result := by
  have h := (C8_phase_durations (Game.sample TimePhase.Day 600 300 1 100 10 5 5 fun _ => 0)
    (fun _ => (keysDown [], keysDown [])) rfl rfl (fun _ => rfl)).2 rfl (by decide)
  exact ⟨h.1 599 (by norm_num) (by norm_num), h.2.1 600 (by norm_num) (by norm_num),
    h.2.1 899 (by norm_num) (by norm_num), h.2.2⟩

/-! ## Entering a day -/

theorem Game.spawnLoop_types (speed : Flt) (type : Int) (count : Nat) (g : Game) :
    (Game.spawnLoop speed type count g).balls_.map (fun b => b.type) =
      g.balls_.map (fun b => b.type) ++ List.replicate count type := by
  induction count generalizing g with
  | zero => simp [Game.spawnLoop]
  | succ n ih =>
    unfold Game.spawnLoop
    rw [ih]
    simp [List.replicate_succ]

theorem Game.spawnLoop_dayCount (speed : Flt) (type : Int) (count : Nat) (g : Game) :
    (Game.spawnLoop speed type count g).dayCount_ = g.dayCount_ := by
  obtain ⟨bs, r, h⟩ := Game.spawnLoop_frame speed type count g
  rw [h]

/-- The types of the wave built by `SpawnBalls`, whatever the previous list. -/
theorem Game.SpawnBalls_types (g : Game) :
    (Game.SpawnBalls g).balls_.map (fun b => b.type) = waveTypes g.dayCount_ := by
  unfold Game.SpawnBalls waveTypes
  simp only [Game.spawnLoop_types, List.map_nil, List.nil_append]
  split_ifs <;> simp [List.replicate]

/-- C9: Result to Day.  For every `Play` state in the Result phase in which
`dayCount + 1` and `points + lastEarnedPoints` are representable as `int` (the
two additions do not overflow), a tick with a confirm edge yields phase `Day`
with countdown 600, the day counter increased by exactly 1, points increased by
exactly `lastEarnedPoints`, the event message empty, and the enemy list rebuilt
for the new day counter (its types are the wave of the new day, whatever the
list was before); attack, defense and health are unchanged. -/
theorem C9_result_to_day (g : Game) (keys preKeys : Keys)
    (hP : g.state_ = GameState.Play) (hR : g.phase_ = TimePhase.Result)
    (hE : Game.IsKeyTriggered keys preKeys VK_RETURN = true)
    (hd : inInt (g.dayCount_ + 1)) (hp : inInt (g.points_ + g.lastEarnedPoints_)) :
    (Game.Update g keys preKeys).phase_ = TimePhase.Day ∧
    (Game.Update g keys preKeys).phaseTimer_ = 600 ∧
    (Game.Update g keys preKeys).dayCount_ = g.dayCount_ + 1 ∧
    (Game.Update g keys preKeys).points_ = g.points_ + g.lastEarnedPoints_ ∧
    (Game.Update g keys preKeys).eventMessage_ = "" ∧
    (Game.Update g keys preKeys).balls_.map (fun b => b.type) = waveTypes (g.dayCount_ + 1) ∧
    (Game.Update g keys preKeys).playerAttack_ = g.playerAttack_ ∧
    (Game.Update g keys preKeys).baseDefense_ = g.baseDefense_ ∧
    (Game.Update g keys preKeys).baseHP_ = g.baseHP_ := by
  rw [← wrapInt_of_inInt _ hd, ← wrapInt_of_inInt _ hp]
  obtain ⟨st, hU⟩ := Game.Update_Play_frame g keys preKeys hP
  have hty := Game.SpawnBalls_types
    { g with
      phase_ := TimePhase.Day
      phaseTimer_ := 600
      dayCount_ := wrapInt (g.dayCount_ + 1)
      points_ := wrapInt (g.points_ + g.lastEarnedPoints_)
      eventMessage_ := "" }
  obtain ⟨bs, r, hS⟩ := Game.SpawnBalls_frame
    { g with
      phase_ := TimePhase.Day
      phaseTimer_ := 600
      dayCount_ := wrapInt (g.dayCount_ + 1)
      points_ := wrapInt (g.points_ + g.lastEarnedPoints_)
      eventMessage_ := "" }
  rw [hU, Game.UpdatePlay_Result g keys preKeys hR, if_pos hE]
  unfold Game.StartDay
  refine ⟨?_, ?_, ?_, ?_, ?_, hty, ?_, ?_, ?_⟩ <;> (simp only; rw [hS])

/-- C9, instance: in Result of day 1 with 5 points and 2 points earned, a
confirm edge starts day 2 with 7 points and a wave of 3 red entities. -/
theorem C9_result_to_day_witness :
    (Game.Update
      (Game.HandleEvent (Game.StartResultDamage
        (Game.sample TimePhase.Night 0 0 1 100 10 5 5 (streamOf [5, 70]))))
      (keysDown [VK_RETURN]) (keysDown [])).dayCount_ = 2 ∧
    (Game.Update
      (Game.HandleEvent (Game.StartResultDamage
        (Game.sample TimePhase.Night 0 0 1 100 10 5 5 (streamOf [5, 70]))))
      (keysDown [VK_RETURN]) (keysDown [])).points_ = 7 := by
  have h := C9_result_to_day
    (Game.HandleEvent (Game.StartResultDamage
      (Game.sample TimePhase.Night 0 0 1 100 10 5 5 (streamOf [5, 70]))))
    (keysDown [VK_RETURN]) (keysDown []) (by decide) (by decide) rfl (by decide) (by decide)
  exact ⟨h.2.2.1.trans (by decide), h.2.2.2.1.trans (by decide)⟩

/-! ## Session start -/

theorem titleInv_Update (g : Game) (keys preKeys : Keys) (h : titleInv g) :
    titleInv (Game.Update g keys preKeys) := by
  cases hst : g.state_ with
  | Title =>
    have hv := h (Or.inl hst)
    unfold Game.Update; rw [hst]; simp only
    split_ifs <;> exact fun _ => hv
  | Explanation =>
    have hv := h (Or.inr hst)
    unfold Game.Update; rw [hst]; simp only
    split_ifs
    · obtain ⟨bs, r, hS⟩ := Game.SpawnBalls_frame
        { g with
          state_ := GameState.Play
          phase_ := TimePhase.Day
          phaseTimer_ := 600
          dayCount_ := 1
          baseHP_ := 100
          points_ := 5
          eventMessage_ := "" }
      rw [hS]
      exact fun _ => hv
    · exact fun _ => hv
  | Play =>
    obtain ⟨st, hU⟩ := Game.Update_Play_frame g keys preKeys hst
    have hs : (Game.Update g keys preKeys).state_ = GameState.Play ∨
        (Game.Update g keys preKeys).state_ = GameState.GameOver := by
      rw [Game.Update_Play g keys preKeys hst]
      split_ifs
      · exact Or.inr rfl
      · left; rw [Game.UpdatePlay_state]; exact hst
    intro hc
    rcases hs with h1 | h1 <;> rcases hc with h2 | h2 <;> rw [h1] at h2 <;> cases h2
  | GameOver =>
    unfold Game.Update; rw [hst]; simp only
    split_ifs
    · exact fun _ => ⟨rfl, rfl⟩
    · intro hc
      rcases hc with h2 | h2 <;> rw [hst] at h2 <;> cases h2

theorem titleInv_of_Reachable (g : Game) (h : Reachable g) : titleInv g := by
  induction h with
  | init stream => exact fun _ => ⟨rfl, rfl⟩
  | tick g keys preKeys _ ih => exact titleInv_Update g keys preKeys ih

/-- C10: session start defaults.  For every reachable state whose session state
is `Explanation`, a tick with a confirm edge yields session state `Play`, phase
`Day` with countdown 600, day counter 1, health 100, attack 10, defense 5,
points 5, an empty event message, and an enemy list of exactly 3 red
entities. -/
theorem C10_session_start (g : Game) (keys preKeys : Keys) (hreach : Reachable g)
    (hX : g.state_ = GameState.Explanation)
    (hE : Game.IsKeyTriggered keys preKeys VK_RETURN = true) :
    (Game.Update g keys preKeys).state_ = GameState.Play ∧
    (Game.Update g keys preKeys).phase_ = TimePhase.Day ∧
    (Game.Update g keys preKeys).phaseTimer_ = 600 ∧
    (Game.Update g keys preKeys).dayCount_ = 1 ∧
    (Game.Update g keys preKeys).baseHP_ = 100 ∧
    (Game.Update g keys preKeys).playerAttack_ = 10 ∧
    (Game.Update g keys preKeys).baseDefense_ = 5 ∧
    (Game.Update g keys preKeys).points_ = 5 ∧
    (Game.Update g keys preKeys).eventMessage_ = "" ∧
    (Game.Update g keys preKeys).balls_.map (fun b => b.type) = [0, 0, 0] ∧
    (Game.Update g keys preKeys).balls_.length = 3 := by
  obtain ⟨ha, hf⟩ := titleInv_of_Reachable g hreach (Or.inr hX)
  have hty := Game.SpawnBalls_types
    { g with
      state_ := GameState.Play
      phase_ := TimePhase.Day
      phaseTimer_ := 600
      dayCount_ := 1
      baseHP_ := 100
      points_ := 5
      eventMessage_ := "" }
  obtain ⟨bs, r, hS⟩ := Game.SpawnBalls_frame
    { g with
      state_ := GameState.Play
      phase_ := TimePhase.Day
      phaseTimer_ := 600
      dayCount_ := 1
      baseHP_ := 100
      points_ := 5
      eventMessage_ := "" }
  have hU : Game.Update g keys preKeys = Game.SpawnBalls
      { g with
        state_ := GameState.Play
        phase_ := TimePhase.Day
        phaseTimer_ := 600
        dayCount_ := 1
        baseHP_ := 100
        points_ := 5
        eventMessage_ := "" } := by
    unfold Game.Update
    rw [hX]
    simp only [hE, if_true]
  have hty' : (Game.Update g keys preKeys).balls_.map (fun b => b.type) = [0, 0, 0] := by
    rw [hU, hty]
    show waveTypes 1 = [0, 0, 0]
    decide
  have hlen : (Game.Update g keys preKeys).balls_.length = 3 := by
    have := congrArg List.length hty'
    simpa using this
  refine ⟨?_, ?_, ?_, ?_, ?_, ?_, ?_, ?_, ?_, hty', hlen⟩ <;> rw [hU, hS]
  · exact ha
  · exact hf

/-- C10, instance: the fresh game after Enter on the title screen and a release;
Enter on the explanation screen starts the session with the defaults. -/
theorem C10_session_start_witness :
    (Game.Update
      (Game.runTicks (Game.new fun n => n)
        [(keysDown [VK_RETURN], keysDown []), (keysDown [], keysDown [VK_RETURN])])
      (keysDown [VK_RETURN]) (keysDown [])).state_ = GameState.Play ∧
    (Game.Update
      (Game.runTicks (Game.new fun n => n)
        [(keysDown [VK_RETURN], keysDown []), (keysDown [], keysDown [VK_RETURN])])
      (keysDown [VK_RETURN]) (keysDown [])).playerAttack_ = 10 :=
  have h := C10_session_start
    (Game.runTicks (Game.new fun n => n)
      [(keysDown [VK_RETURN], keysDown []), (keysDown [], keysDown [VK_RETURN])])
    (keysDown [VK_RETURN]) (keysDown [])
    (Reachable_runTicks _ _ (Reachable.init _)) rfl rfl
  ⟨h.1, h.2.2.2.2.2.1⟩

/-! ## Waiting in Result -/

/-- C11: the Result entry action runs once.  For every `Play` state in the
Result phase, a tick without a confirm edge leaves the game state unchanged:
`UpdatePlay` returns the state as it is, so health, attack, defense, points,
`lastEarnedPoints`, the day counter, the event message, the enemy list, the
phase, the timers and the snapshots after `Update` are those before, and the
generator is untouched (no draw consumed); damage and the random event are not
computed again.  The only member `Update` can change is the session state
(by its game-over check), and with positive health the whole state is
unchanged. -/
theorem C11_result_waits (g : Game) (keys preKeys : Keys)
    (hP : g.state_ = GameState.Play) (hR : g.phase_ = TimePhase.Result)
    (hE : Game.IsKeyTriggered keys preKeys VK_RETURN = false) :
    Game.UpdatePlay g keys preKeys = g ∧
    (∃ st, Game.Update g keys preKeys = { g with state_ := st }) ∧
    (Game.Update g keys preKeys).economy5 = g.economy5 ∧
    (Game.Update g keys preKeys).dayCount_ = g.dayCount_ ∧
    (Game.Update g keys preKeys).eventMessage_ = g.eventMessage_ ∧
    (Game.Update g keys preKeys).balls_ = g.balls_ ∧
    (Game.Update g keys preKeys).phase_ = TimePhase.Result ∧
    (Game.Update g keys preKeys).phaseTimer_ = g.phaseTimer_ ∧
    (Game.Update g keys preKeys).nightTimer_ = g.nightTimer_ ∧
    (Game.Update g keys preKeys).rng_ = g.rng_ ∧
    (Game.Update g keys preKeys).rng_.pos = g.rng_.pos ∧
    (0 < g.baseHP_ → Game.Update g keys preKeys = g) := by
  have hU : Game.UpdatePlay g keys preKeys = g := by
    rw [Game.UpdatePlay_Result g keys preKeys hR, hE]
    rfl
  obtain ⟨st, hst⟩ := Game.Update_Play_frame g keys preKeys hP
  rw [hU] at hst
  refine ⟨hU, ⟨st, hst⟩, ?_, ?_, ?_, ?_, ?_, ?_, ?_, ?_, ?_, ?_⟩
  · rw [hst]; rfl
  · rw [hst]
  · rw [hst]
  · rw [hst]
  · rw [hst]; exact hR
  · rw [hst]
  · rw [hst]
  · rw [hst]
  · rw [hst]
  · intro hhp
    rw [Game.Update_Play_alive g keys preKeys hP (by rw [hU]; exact hhp), hU]

/-- C11, instance: in Result of day 1 after a neutral event, a tick without any
key leaves health, points earned and the number of draws consumed as they are. -/
theorem C11_result_waits_witness :
    (Game.Update
      (Game.HandleEvent (Game.StartResultDamage
        (Game.sample TimePhase.Night 0 0 1 100 10 5 5 (streamOf [5, 70]))))
      (keysDown []) (keysDown [])).economy5 = (100, 10, 5, 5, 2) ∧
    (Game.Update
      (Game.HandleEvent (Game.StartResultDamage
        (Game.sample TimePhase.Night 0 0 1 100 10 5 5 (streamOf [5, 70]))))
      (keysDown []) (keysDown [])).rng_.pos = 2 := by
  have h := C11_result_waits
    (Game.HandleEvent (Game.StartResultDamage
      (Game.sample TimePhase.Night 0 0 1 100 10 5 5 (streamOf [5, 70]))))
    (keysDown []) (keysDown []) (by decide) (by decide) rfl
  exact ⟨h.2.2.1.trans (by decide), h.2.2.2.2.2.2.2.2.2.2.1.trans (by decide)⟩

/-! ## The enemy wave -/

/-- C13: enemy wave composition.  For every day counter `d` and every previous
enemy list, `SpawnBalls` discards the previous list and produces, in this
order, 3 red entities (type 0), then 2 blue (type 1) iff `d ≥ 6`, then 2 gray
(type 2) iff `d ≥ 11`, then 1 yellow (type 3) iff `d ≥ 16`; the length is
`3 + 2 * [d ≥ 6] + 2 * [d ≥ 11] + [d ≥ 16]`.  At `d = 1` the list is exactly
3 red entities, at `d = 16` it has 8 entities of all 4 types. -/
theorem C13_wave_composition (g : Game) :
    (∀ previous : List Ball,
      (Game.SpawnBalls { g with balls_ := previous }).balls_ = (Game.SpawnBalls g).balls_) ∧
    (Game.SpawnBalls g).balls_.map (fun b => b.type) = waveTypes g.dayCount_ ∧
    (Game.SpawnBalls g).balls_.map (fun b => b.type) =
      List.replicate 3 0 ++ (if g.dayCount_ ≥ 6 then List.replicate 2 1 else []) ++
        (if g.dayCount_ ≥ 11 then List.replicate 2 2 else []) ++
        (if g.dayCount_ ≥ 16 then List.replicate 1 3 else []) ∧
    (Game.SpawnBalls g).balls_.length =
      3 + (if g.dayCount_ ≥ 6 then 2 else 0) + (if g.dayCount_ ≥ 11 then 2 else 0) +
        (if g.dayCount_ ≥ 16 then 1 else 0) ∧
    (g.dayCount_ = 1 → (Game.SpawnBalls g).balls_.map (fun b => b.type) = [0, 0, 0]) ∧
    (g.dayCount_ = 16 →
      (Game.SpawnBalls g).balls_.map (fun b => b.type) = [0, 0, 0, 1, 1, 2, 2, 3] ∧
      (Game.SpawnBalls g).balls_.length = 8) := by
  have ht := Game.SpawnBalls_types g
  have hlen : (Game.SpawnBalls g).balls_.length = (waveTypes g.dayCount_).length := by
    rw [← ht, List.length_map]
  refine ⟨fun _ => rfl, ht, ?_, ?_, ?_, ?_⟩
  · rw [ht]; unfold waveTypes
    split_ifs <;> rfl
  · rw [hlen]; unfold waveTypes
    split_ifs <;> rfl
  · intro h1
    rw [ht, h1]; decide
  · intro h16
    rw [hlen, ht, h16]
    exact ⟨by decide, by decide⟩

/-- C13, instance: the wave of day 16 built with the generator stream
`0, 1, 2, …`, seen through its types. -/
theorem C13_wave_composition_witness :
    (Game.SpawnBalls (Game.sample TimePhase.Day 600 300 16 100 10 5 5 fun n => n)).balls_.map
      (fun b => b.type) = [0, 0, 0, 1, 1, 2, 2, 3] :=
  ((C13_wave_composition
    (Game.sample TimePhase.Day 600 300 16 100 10 5 5 fun n => n)).2.2.2.2.2 rfl).1

/-! ## The session state machine -/

/-- C15: full reset on game over.  For every state whose session state is
`GameOver`, a tick with a confirm edge is `Reset`: session state `Title`, day
counter 1, health 100, attack 10, defense 5, points 5, `lastEarnedPoints` 0,
phase `Day`, an empty event message and an empty enemy list, whatever the
values were before (the result is the freshly constructed game but for the
generator), and the generator is left as it was, neither advanced nor reseeded;
a `GameOver` tick without a confirm edge leaves the state unchanged. -/
theorem C15_full_reset (g : Game) (keys preKeys : Keys)
    (hG : g.state_ = GameState.GameOver) :
    (Game.IsKeyTriggered keys preKeys VK_RETURN = true →
      Game.Update g keys preKeys = Game.Reset g ∧
      Game.Update g keys preKeys = { Game.new g.rng_.stream with rng_ := g.rng_ } ∧
      (Game.Update g keys preKeys).state_ = GameState.Title ∧
      (Game.Update g keys preKeys).dayCount_ = 1 ∧
      (Game.Update g keys preKeys).baseHP_ = 100 ∧
      (Game.Update g keys preKeys).playerAttack_ = 10 ∧
      (Game.Update g keys preKeys).baseDefense_ = 5 ∧
      (Game.Update g keys preKeys).points_ = 5 ∧
      (Game.Update g keys preKeys).lastEarnedPoints_ = 0 ∧
      (Game.Update g keys preKeys).phase_ = TimePhase.Day ∧
      (Game.Update g keys preKeys).eventMessage_ = "" ∧
      (Game.Update g keys preKeys).balls_ = [] ∧
      (Game.Update g keys preKeys).rng_ = g.rng_) ∧
    (Game.IsKeyTriggered keys preKeys VK_RETURN = false →
      Game.Update g keys preKeys = g) := by
  have hU : Game.Update g keys preKeys =
      if Game.IsKeyTriggered keys preKeys VK_RETURN then Game.Reset g else g := by
    unfold Game.Update
    split <;> rename_i hp <;> first | rfl | (rw [hG] at hp; cases hp)
  constructor
  · intro hE
    rw [hU, hE]
    exact ⟨rfl, rfl, rfl, rfl, rfl, rfl, rfl, rfl, rfl, rfl, rfl, rfl, rfl⟩
  · intro hE
    rw [hU, hE]
    rfl

/-- C15, instance: a game over on day 5 with attack 70 and 33 points; Enter
returns to the title with the defaults and the generator still at its stream
position. -/
theorem C15_full_reset_witness :
    (Game.Update
      { Game.sample TimePhase.Result 0 0 5 0 70 5 33 (streamOf [5, 70]) with
        state_ := GameState.GameOver }
      (keysDown [VK_RETURN]) (keysDown [])).state_ = GameState.Title ∧
    (Game.Update
      { Game.sample TimePhase.Result 0 0 5 0 70 5 33 (streamOf [5, 70]) with
        state_ := GameState.GameOver }
      (keysDown [VK_RETURN]) (keysDown [])).playerAttack_ = 10 :=
  have h := (C15_full_reset
    { Game.sample TimePhase.Result 0 0 5 0 70 5 33 (streamOf [5, 70]) with
      state_ := GameState.GameOver }
    (keysDown [VK_RETURN]) (keysDown []) rfl).1 rfl
  ⟨h.2.2.1, h.2.2.2.2.2.1⟩

/-- C17: Night accepts no player input.  For every `Play` state in the Night
phase and any two pairs of current/previous key snapshots, `Update` produces
the same state (the generator, hence the draws, being part of the state). -/
theorem C17_night_ignores_input (g : Game) (keys1 preKeys1 keys2 preKeys2 : Keys)
    (hP : g.state_ = GameState.Play) (hN : g.phase_ = TimePhase.Night) :
    Game.Update g keys1 preKeys1 = Game.Update g keys2 preKeys2 := by
  rw [Game.Update_Play g keys1 preKeys1 hP, Game.Update_Play g keys2 preKeys2 hP,
    Game.UpdatePlay_Night g keys1 preKeys1 hN, Game.UpdatePlay_Night g keys2 preKeys2 hN]

/-- C17, instance: the last Night tick of day 5, once with no key and once with
every action key and Enter freshly pressed. -/
theorem C17_night_ignores_input_witness :
    Game.Update (Game.sample TimePhase.Night 0 1 5 100 10 5 0 (streamOf [5, 70]))
        (keysDown []) (keysDown []) =
      Game.Update (Game.sample TimePhase.Night 0 1 5 100 10 5 0 (streamOf [5, 70]))
        (keysDown [VK_RETURN, key1, key2, key3, keyR]) (keysDown []) :=
  C17_night_ignores_input (Game.sample TimePhase.Night 0 1 5 100 10 5 0 (streamOf [5, 70]))
    (keysDown []) (keysDown []) (keysDown [VK_RETURN, key1, key2, key3, keyR]) (keysDown [])
    rfl rfl

/-- C18: the Play to GameOver check.  For every tick taken in session state
`Play`, the session state after the tick is `GameOver` if health at the end of
that tick is `≤ 0` and `Play` otherwise; it is never `Title` or
`Explanation`. -/
theorem C18_play_game_over_check (g : Game) (keys preKeys : Keys)
    (hP : g.state_ = GameState.Play) :
    ((Game.Update g keys preKeys).baseHP_ ≤ 0 →
      (Game.Update g keys preKeys).state_ = GameState.GameOver) ∧
    (0 < (Game.Update g keys preKeys).baseHP_ →
      (Game.Update g keys preKeys).state_ = GameState.Play) ∧
    (Game.Update g keys preKeys).state_ ≠ GameState.Title ∧
    (Game.Update g keys preKeys).state_ ≠ GameState.Explanation ∧
    (Game.Update g keys preKeys).baseHP_ = (Game.UpdatePlay g keys preKeys).baseHP_ := by
  have hst := Game.UpdatePlay_state g keys preKeys
  rw [Game.Update_Play g keys preKeys hP]
  by_cases h : (Game.UpdatePlay g keys preKeys).baseHP_ ≤ 0
  · rw [if_pos h]
    refine ⟨fun _ => rfl, fun h2 => absurd h2 (by simp only; omega), ?_, ?_, rfl⟩ <;>
      (simp only; decide)
  · rw [if_neg h, hst, hP]
    refine ⟨fun h2 => absurd h2 h, fun _ => rfl, by decide, by decide, rfl⟩

/-- C18, instance: the last Night tick of day 5 with health 10 ends with health
0 and in `GameOver`. -/
theorem C18_play_game_over_check_witness :
    (Game.Update (Game.sample TimePhase.Night 0 1 5 10 10 5 0 (streamOf [5, 70]))
      (keysDown []) (keysDown [])).state_ = GameState.GameOver :=
  (C18_play_game_over_check (Game.sample TimePhase.Night 0 1 5 10 10 5 0 (streamOf [5, 70]))
    (keysDown []) (keysDown []) rfl).1 (by decide)

/-! ## Points earned -/

/-- C12: earned points after the event modifier.  For every day counter
`d ≥ 1` with `15 * d ≤ INT_MAX` (so that `enemyCount * 3`, the largest product
of the Result entry, is representable as `int`), after the whole Result entry (`StartResult`, the random event
included), `lastEarnedPoints` is `3 * ⌊5 * d / 2⌋` after the awakening,
`2 * ⌊5 * d / 2⌋` after the good points-doubling event,
`⌊⌊5 * d / 2⌋ / 2⌋` after the bad points-halving event, and `⌊5 * d / 2⌋`
after every event that does not touch the points.  For `d = 6` these are 45,
30, 7 and 15. -/
theorem C12_earned_points (g : Game) (hd : 1 ≤ g.dayCount_)
    (hd' : 15 * g.dayCount_ ≤ INT_MAX) :
    (g.draw1 < 2 →
      (Game.StartResult g).lastEarnedPoints_ = 3 * ⌊((5 * g.dayCount_ : Int) : ℚ) / 2⌋) ∧
    (2 ≤ g.draw1 → g.draw2 < 30 → g.draw3 3 = 2 →
      (Game.StartResult g).lastEarnedPoints_ = 2 * ⌊((5 * g.dayCount_ : Int) : ℚ) / 2⌋) ∧
    (2 ≤ g.draw1 → g.draw2 < 30 → g.draw3 3 ≠ 2 →
      (Game.StartResult g).lastEarnedPoints_ = ⌊((5 * g.dayCount_ : Int) : ℚ) / 2⌋) ∧
    (2 ≤ g.draw1 → 30 ≤ g.draw2 → g.draw2 < 50 → g.draw3 2 = 2 →
      (Game.StartResult g).lastEarnedPoints_ =
        ⌊((⌊((5 * g.dayCount_ : Int) : ℚ) / 2⌋ : Int) : ℚ) / 2⌋) ∧
    (2 ≤ g.draw1 → 30 ≤ g.draw2 → g.draw2 < 50 → g.draw3 2 ≠ 2 →
      (Game.StartResult g).lastEarnedPoints_ = ⌊((5 * g.dayCount_ : Int) : ℚ) / 2⌋) ∧
    (2 ≤ g.draw1 → 50 ≤ g.draw2 →
      (Game.StartResult g).lastEarnedPoints_ = ⌊((5 * g.dayCount_ : Int) : ℚ) / 2⌋) ∧
    (g.dayCount_ = 6 →
      ⌊((5 * g.dayCount_ : Int) : ℚ) / 2⌋ = 15 ∧
      2 * ⌊((5 * g.dayCount_ : Int) : ℚ) / 2⌋ = 30 ∧
      ⌊((⌊((5 * g.dayCount_ : Int) : ℚ) / 2⌋ : Int) : ℚ) / 2⌋ = 7 ∧
      3 * ⌊((5 * g.dayCount_ : Int) : ℚ) / 2⌋ = 45) := by
  have hfl : ∀ x : Int, ⌊(x : ℚ) / 2⌋ = x / 2 := by
    intro x
    have : ((x : ℚ) / 2) = (x : ℚ) / ((2 : Nat) : ℚ) := by norm_num
    rw [this, Rat.floor_intCast_div_natCast]; rfl
  have hbase : (Game.StartResultDamage g).lastEarnedPoints_ = 5 * g.dayCount_ / 2 := by
    show (wrapInt (g.dayCount_ * 5)).tdiv 2 = _
    rw [wrapInt_of_inInt _ ⟨by unfold INT_MIN; omega, by unfold INT_MAX at hd' ⊢; omega⟩,
      Int.tdiv_eq_ediv (by omega) (by norm_num), mul_comm]
  have hb0 : 0 ≤ 5 * g.dayCount_ / 2 := Int.ediv_nonneg (by omega) (by norm_num)
  have hw3 : wrapInt (5 * g.dayCount_ / 2 * 3) = 5 * g.dayCount_ / 2 * 3 :=
    wrapInt_of_inInt _ ⟨by unfold INT_MIN; omega, by unfold INT_MAX at hd' ⊢; omega⟩
  have hw2 : wrapInt (5 * g.dayCount_ / 2 * 2) = 5 * g.dayCount_ / 2 * 2 :=
    wrapInt_of_inInt _ ⟨by unfold INT_MIN; omega, by unfold INT_MAX at hd' ⊢; omega⟩
  simp only [hfl]
  unfold Game.StartResult
  refine ⟨?_, ?_, ?_, ?_, ?_, ?_, ?_⟩
  · intro h1
    rw [Game.HandleEvent_awakening (Game.StartResultDamage g) h1]
    simp only [hbase, hw3]; ring
  · intro h1 h2 h3
    rw [Game.HandleEvent_good (Game.StartResultDamage g) h1 h2]
    have h3' : (Game.StartResultDamage g).draw3 3 = 2 := h3
    simp only [h3', if_true, hbase, hw2]; ring
  · intro h1 h2 h3
    rw [Game.HandleEvent_good (Game.StartResultDamage g) h1 h2]
    have h3' : ¬ (Game.StartResultDamage g).draw3 3 = 2 := h3
    simp only [h3', if_false, hbase]
  · intro h1 h2 h3 h4
    rw [Game.HandleEvent_bad (Game.StartResultDamage g) h1 h2 h3]
    have h4' : (Game.StartResultDamage g).draw3 2 = 2 := h4
    simp only [h4', if_true, hbase]
    exact Int.tdiv_eq_ediv hb0 (by norm_num)
  · intro h1 h2 h3 h4
    rw [Game.HandleEvent_bad (Game.StartResultDamage g) h1 h2 h3]
    have h4' : ¬ (Game.StartResultDamage g).draw3 2 = 2 := h4
    simp only [h4', if_false, hbase]
  · intro h1 h2
    rw [Game.HandleEvent_neutral (Game.StartResultDamage g) h1 h2]
    exact hbase
  · intro h6
    rw [h6]
    decide

/-- C12, instance: Result entry of day 6 with the raw draws 5, 40, 2 (the bad
event that halves the points): 7 points earned. -/
theorem C12_earned_points_witness :
    (Game.StartResult (Game.sample TimePhase.Night 0 0 6 100 10 5 0
      (streamOf [5, 40, 2]))).lastEarnedPoints_ = 7 := by
  have h := (C12_earned_points
    (Game.sample TimePhase.Night 0 0 6 100 10 5 0 (streamOf [5, 40, 2])) (by decide) (by decide)).2.2.2.1
    (by decide) (by decide) (by decide) (by decide)
  have h6 := ((C12_earned_points
    (Game.sample TimePhase.Night 0 0 6 100 10 5 0 (streamOf [5, 40, 2])) (by decide) (by decide)).2.2.2.2.2.2
    rfl).2.2.1
  rw [h, h6]

/-! ## Edge-triggered confirm -/

theorem Game.Update_Title (g : Game) (keys preKeys : Keys) (h : g.state_ = GameState.Title) :
    Game.Update g keys preKeys =
      if Game.IsKeyTriggered keys preKeys VK_RETURN then
        { g with state_ := GameState.Explanation }
      else g := by
  unfold Game.Update
  split <;> rename_i hp <;> first | rfl | (rw [h] at hp; cases hp)

theorem Game.Update_Explanation (g : Game) (keys preKeys : Keys)
    (h : g.state_ = GameState.Explanation) :
    Game.Update g keys preKeys =
      if Game.IsKeyTriggered keys preKeys VK_RETURN then
        Game.SpawnBalls
          { g with
            state_ := GameState.Play
            phase_ := TimePhase.Day
            phaseTimer_ := 600
            dayCount_ := 1
            baseHP_ := 100
            points_ := 5
            eventMessage_ := "" }
      else g := by
  unfold Game.Update
  split <;> rename_i hp <;> first | rfl | (rw [h] at hp; cases hp)

theorem Game.Update_GameOver (g : Game) (keys preKeys : Keys)
    (h : g.state_ = GameState.GameOver) :
    Game.Update g keys preKeys =
      if Game.IsKeyTriggered keys preKeys VK_RETURN then Game.Reset g else g := by
  unfold Game.Update
  split <;> rename_i hp <;> first | rfl | (rw [h] at hp; cases hp)

/-- While the confirm key stays down, the explanation screen stays. -/
theorem Game.runLoop_held (snaps : List Keys) :
    ∀ (g : Game) (keys : Keys), g.state_ = GameState.Explanation → keys VK_RETURN = true →
      (∀ k ∈ snaps, k VK_RETURN = true) →
      (Game.runLoop g keys snaps).state_ = GameState.Explanation := by
  induction snaps with
  | nil => intro g keys hX _ _; exact hX
  | cons k rest ih =>
    intro g keys hX hk hall
    have hk' : k VK_RETURN = true := hall k (List.mem_cons_self _ _)
    have hno : Game.IsKeyTriggered k keys VK_RETURN = false := by
      simp [Game.IsKeyTriggered, hk]
    have hU : Game.Update g k keys = g := by
      rw [Game.Update_Explanation g k keys hX, hno]; rfl
    show (Game.runLoop (Game.Update g k keys) k rest).state_ = _
    rw [hU]
    exact ih g k hX hk' (fun k2 h2 => hall k2 (List.mem_cons_of_mem _ h2))

/-- C14: edge-triggered confirm on the title screen.  With the key snapshots
chained as in the main loop (each tick's previous snapshot is the preceding
tick's current one), start in `Title` with the confirm key up, then have it
down in each of `n ≥ 1` consecutive snapshots: after every one of those ticks
the session state is `Explanation` (the held key does not retrigger into
`Play`).  And a `Title` tick without a confirm edge leaves the state
unchanged. -/
theorem C14_confirm_edge_on_title (g : Game) (keys : Keys) (snaps : List Keys)
    (hT : g.state_ = GameState.Title) (hup : keys VK_RETURN = false)
    (hheld : ∀ k ∈ snaps, k VK_RETURN = true) :
    (∀ n, 1 ≤ n → n ≤ snaps.length →
      (Game.runLoop g keys (snaps.take n)).state_ = GameState.Explanation) ∧
    (∀ k p : Keys, Game.IsKeyTriggered k p VK_RETURN = false → Game.Update g k p = g) := by
  constructor
  · intro n hn1 hn2
    cases snaps with
    | nil => simp at hn2; omega
    | cons k rest =>
      obtain ⟨m, rfl⟩ : ∃ m, n = m + 1 := ⟨n - 1, by omega⟩
      have hk : k VK_RETURN = true := hheld k (List.mem_cons_self _ _)
      have hedge : Game.IsKeyTriggered k keys VK_RETURN = true := by
        simp [Game.IsKeyTriggered, hk, hup]
      have hU : (Game.Update g k keys).state_ = GameState.Explanation := by
        rw [Game.Update_Title g k keys hT, hedge]; rfl
      rw [List.take_succ_cons]
      show (Game.runLoop (Game.Update g k keys) k (rest.take m)).state_ = _
      exact Game.runLoop_held _ _ k hU hk
        (fun k2 h2 => hheld k2 (List.mem_cons_of_mem _ (List.mem_of_mem_take h2)))
  · intro k p hE
    rw [Game.Update_Title g k p hT, hE]; rfl

/-- C14, instance: a fresh game, Enter up, then down for three snapshots: still
the explanation screen after the third tick. -/
theorem C14_confirm_edge_on_title_witness :
    (Game.runLoop (Game.new fun n => n) (keysDown [])
      [keysDown [VK_RETURN], keysDown [VK_RETURN], keysDown [VK_RETURN]]).state_ =
        GameState.Explanation :=
  (C14_confirm_edge_on_title (Game.new fun n => n) (keysDown [])
    [keysDown [VK_RETURN], keysDown [VK_RETURN], keysDown [VK_RETURN]] rfl rfl
    (by intro k hk; simp only [List.mem_cons, List.mem_singleton, List.not_mem_nil,
          or_false] at hk; rcases hk with h | h | h <;> rw [h] <;> rfl)).1 3
    (by norm_num) (by simp)

/-! ## A run that overflows `playerAttack_` -/

theorem Game.runFor_add (g : Game) (ks : Nat → Keys × Keys) (m n : Nat) :
    Game.runFor g ks (m + n) = Game.runFor (Game.runFor g ks m) (fun i => ks (m + i)) n := by
  induction n with
  | zero => rfl
  | succ n ih =>
    show Game.Update (Game.runFor g ks (m + n)) (ks (m + n)).1 (ks (m + n)).2 =
      Game.Update (Game.runFor (Game.runFor g ks m) (fun i => ks (m + i)) n)
        (ks (m + n)).1 (ks (m + n)).2
    rw [ih]

theorem Game.runFor_succ (g : Game) (ks : Nat → Keys × Keys) (n : Nat) :
    Game.runFor g ks (n + 1) = Game.Update (Game.runFor g ks n) (ks n).1 (ks n).2 := rfl

/-- The key snapshots `overflowKeys` are chained as in the main loop: no key is
down before the first tick, and `preKeys` of a tick is `keys` of the tick
before. -/
theorem overflowKeys_chained :
    (overflowKeys 0).2 = keysDown [] ∧ ∀ n, (overflowKeys (n + 1)).2 = (overflowKeys n).1 := by
  refine ⟨rfl, fun n => ?_⟩
  unfold overflowKeys
  rcases Nat.mod_two_eq_zero_or_one n with h | h
  · have h1 : ¬ (n + 1) % 2 = 0 := by omega
    rw [if_pos h, if_neg h1]; rfl
  · have h0 : ¬ n % 2 = 0 := by omega
    have h1 : (n + 1) % 2 = 0 := by omega
    rw [if_neg h0, if_pos h1]; rfl

theorem Reachable_runFor (g : Game) (ks : Nat → Keys × Keys) (n : Nat) (h : Reachable g) :
    Reachable (Game.runFor g ks n) := by
  induction n with
  | zero => exact h
  | succ n ih => exact Reachable.tick _ _ _ ih

theorem Rng.draw_const (r : Rng) (c : Nat) (h : r.stream = fun _ => c) (lo hi : Int) :
    (r.draw lo hi).1 = lo + ((c % (hi - lo + 1).toNat : Nat) : Int) ∧
    (r.draw lo hi).2.stream = fun _ => c := by
  unfold Rng.draw
  simp only [h]
  exact ⟨trivial, trivial⟩

theorem Game.spawnLoop_stream (speed : Flt) (type : Int) (count : Nat) (g : Game) :
    (Game.spawnLoop speed type count g).rng_.stream = g.rng_.stream := by
  induction count generalizing g with
  | zero => rfl
  | succ n ih =>
    unfold Game.spawnLoop
    rw [ih]
    rfl

theorem Game.SpawnBalls_stream (g : Game) : (Game.SpawnBalls g).rng_.stream = g.rng_.stream := by
  unfold Game.SpawnBalls
  simp only [Game.spawnLoop_stream]

/-- The first tick of a Day without any key edge: only the countdown and the
snapshot change. -/
theorem Game.Update_day_idle (g : Game) (hP : g.state_ = GameState.Play)
    (hD : g.phase_ = TimePhase.Day) (hT : g.phaseTimer_ = 600) (hhp : 0 < g.baseHP_) :
    (Game.Update g enterRelease.1 enterRelease.2).state_ = GameState.Play ∧
    (Game.Update g enterRelease.1 enterRelease.2).phase_ = TimePhase.Day ∧
    (Game.Update g enterRelease.1 enterRelease.2).phaseTimer_ = 599 ∧
    (Game.Update g enterRelease.1 enterRelease.2).dayCount_ = g.dayCount_ ∧
    (Game.Update g enterRelease.1 enterRelease.2).baseHP_ = g.baseHP_ ∧
    (Game.Update g enterRelease.1 enterRelease.2).playerAttack_ = g.playerAttack_ ∧
    (Game.Update g enterRelease.1 enterRelease.2).baseDefense_ = g.baseDefense_ ∧
    (Game.Update g enterRelease.1 enterRelease.2).points_ = g.points_ ∧
    (Game.Update g enterRelease.1 enterRelease.2).rng_ = g.rng_ := by
  have k0 : Game.IsKeyTriggered enterRelease.1 enterRelease.2 VK_RETURN = false := by decide
  have k1 : Game.IsKeyTriggered enterRelease.1 enterRelease.2 key1 = false := by decide
  have k2 : Game.IsKeyTriggered enterRelease.1 enterRelease.2 key2 = false := by decide
  have k3 : Game.IsKeyTriggered enterRelease.1 enterRelease.2 key3 = false := by decide
  have kR : Game.IsKeyTriggered enterRelease.1 enterRelease.2 keyR = false := by decide
  have hU : Game.UpdatePlay g enterRelease.1 enterRelease.2 =
      { g with
        phaseTimer_ := 599
        dayPointsBackup_ := g.points_
        attackBackup_ := g.playerAttack_
        defenseBackup_ := g.baseDefense_
        baseHPBackup_ := g.baseHP_ } := by
    rw [Game.UpdatePlay_Day g _ _ hD, k0, k1, k2, k3, kR]
    simp only [Game.dayEnd_eq, Game.dayUndo_eq, Game.dayHeal_eq, Game.dayDefenseUp_eq,
      Game.dayAttackUp_eq, Game.dayCountdown, Game.dayCapture_eq]
    simp [hT, hD]
  rw [Game.Update_Play_alive g _ _ hP (by rw [hU]; exact hhp), hU]
  exact ⟨hP, hD, rfl, rfl, rfl, rfl, rfl, rfl, rfl⟩

/-- A Day tick with an Enter edge and no other key: the Night begins, the
economy is untouched. -/
theorem Game.Update_day_enter (g : Game) (hP : g.state_ = GameState.Play)
    (hD : g.phase_ = TimePhase.Day) (hhp : 0 < g.baseHP_) :
    (Game.Update g enterEdge.1 enterEdge.2).state_ = GameState.Play ∧
    (Game.Update g enterEdge.1 enterEdge.2).phase_ = TimePhase.Night ∧
    (Game.Update g enterEdge.1 enterEdge.2).nightTimer_ = 300 ∧
    (Game.Update g enterEdge.1 enterEdge.2).dayCount_ = g.dayCount_ ∧
    (Game.Update g enterEdge.1 enterEdge.2).baseHP_ = g.baseHP_ ∧
    (Game.Update g enterEdge.1 enterEdge.2).playerAttack_ = g.playerAttack_ ∧
    (Game.Update g enterEdge.1 enterEdge.2).baseDefense_ = g.baseDefense_ ∧
    (Game.Update g enterEdge.1 enterEdge.2).points_ = g.points_ ∧
    (Game.Update g enterEdge.1 enterEdge.2).rng_ = g.rng_ := by
  have k0 : Game.IsKeyTriggered enterEdge.1 enterEdge.2 VK_RETURN = true := by decide
  have k1 : Game.IsKeyTriggered enterEdge.1 enterEdge.2 key1 = false := by decide
  have k2 : Game.IsKeyTriggered enterEdge.1 enterEdge.2 key2 = false := by decide
  have k3 : Game.IsKeyTriggered enterEdge.1 enterEdge.2 key3 = false := by decide
  have kR : Game.IsKeyTriggered enterEdge.1 enterEdge.2 keyR = false := by decide
  have hU : Game.UpdatePlay g enterEdge.1 enterEdge.2 =
      { g with
        phase_ := TimePhase.Night
        phaseTimer_ := g.phaseTimer_ - 1
        nightTimer_ := 300
        baseHPBackupNight_ := g.baseHP_
        dayPointsBackup_ := if g.phaseTimer_ = 600 then g.points_ else g.dayPointsBackup_
        attackBackup_ := if g.phaseTimer_ = 600 then g.playerAttack_ else g.attackBackup_
        defenseBackup_ := if g.phaseTimer_ = 600 then g.baseDefense_ else g.defenseBackup_
        baseHPBackup_ := if g.phaseTimer_ = 600 then g.baseHP_ else g.baseHPBackup_ } := by
    rw [Game.UpdatePlay_Day g _ _ hD, k0, k1, k2, k3, kR]
    simp only [Game.dayEnd_eq, Game.dayUndo_eq, Game.dayHeal_eq, Game.dayDefenseUp_eq,
      Game.dayAttackUp_eq, Game.dayCountdown, Game.dayCapture_eq]
    simp
  rw [Game.Update_Play_alive g _ _ hP (by rw [hU]; exact hhp), hU]
  exact ⟨hP, rfl, rfl, rfl, rfl, rfl, rfl, rfl, rfl⟩

/-- A Night tick that does not end the Night changes only the night timer and
the enemy list. -/
theorem Game.Update_night (g : Game) (keys preKeys : Keys) (hP : g.state_ = GameState.Play)
    (hN : g.phase_ = TimePhase.Night) (ht : 1 < g.nightTimer_) (hhp : 0 < g.baseHP_) :
    (Game.Update g keys preKeys).state_ = GameState.Play ∧
    (Game.Update g keys preKeys).phase_ = TimePhase.Night ∧
    (Game.Update g keys preKeys).nightTimer_ = g.nightTimer_ - 1 ∧
    (Game.Update g keys preKeys).dayCount_ = g.dayCount_ ∧
    (Game.Update g keys preKeys).baseHP_ = g.baseHP_ ∧
    (Game.Update g keys preKeys).playerAttack_ = g.playerAttack_ ∧
    (Game.Update g keys preKeys).baseDefense_ = g.baseDefense_ ∧
    (Game.Update g keys preKeys).points_ = g.points_ ∧
    (Game.Update g keys preKeys).rng_ = g.rng_ := by
  have hU : Game.UpdatePlay g keys preKeys =
      Game.UpdateBallsDuringNight { g with nightTimer_ := g.nightTimer_ - 1 } := by
    rw [Game.UpdatePlay_Night g keys preKeys hN, if_neg (by omega)]
  rw [Game.Update_Play_alive g _ _ hP (by rw [hU]; exact hhp), hU]
  exact ⟨hP, hN, rfl, rfl, rfl, rfl, rfl, rfl, rfl⟩

/-- The first `k` ticks of a Night of more than `k` ticks. -/
theorem Game.runFor_night (g : Game) (ks : Nat → Keys × Keys) (hP : g.state_ = GameState.Play)
    (hN : g.phase_ = TimePhase.Night) (hhp : 0 < g.baseHP_) :
    ∀ k : Nat, (k : Int) < g.nightTimer_ →
      (Game.runFor g ks k).state_ = GameState.Play ∧
      (Game.runFor g ks k).phase_ = TimePhase.Night ∧
      (Game.runFor g ks k).nightTimer_ = g.nightTimer_ - k ∧
      (Game.runFor g ks k).dayCount_ = g.dayCount_ ∧
      (Game.runFor g ks k).baseHP_ = g.baseHP_ ∧
      (Game.runFor g ks k).playerAttack_ = g.playerAttack_ ∧
      (Game.runFor g ks k).baseDefense_ = g.baseDefense_ ∧
      (Game.runFor g ks k).points_ = g.points_ ∧
      (Game.runFor g ks k).rng_ = g.rng_ := by
  intro k
  induction k with
  | zero => intro _; exact ⟨hP, hN, by simp [Game.runFor], rfl, rfl, rfl, rfl, rfl, rfl⟩
  | succ k ih =>
    intro hk
    obtain ⟨a1, a2, a3, a4, a5, a6, a7, a8, a9⟩ := ih (by push_cast at hk; omega)
    obtain ⟨b1, b2, b3, b4, b5, b6, b7, b8, b9⟩ :=
      Game.Update_night (Game.runFor g ks k) (ks k).1 (ks k).2 a1 a2
        (by rw [a3]; push_cast at hk; omega) (by rw [a5]; exact hhp)
    rw [Game.runFor_succ]
    refine ⟨b1, b2, ?_, b4.trans a4, b5.trans a5, b6.trans a6, b7.trans a7, b8.trans a8,
      b9.trans a9⟩
    rw [b3, a3]; push_cast; ring

/-- The tick that ends the Night when every raw draw is 4: damage resolution,
then the event `playerAttack_ += dayCount_ * 5`. -/
theorem Game.Update_night_end_four (g : Game) (keys preKeys : Keys)
    (hP : g.state_ = GameState.Play) (hN : g.phase_ = TimePhase.Night)
    (ht : g.nightTimer_ = 1) (hs : g.rng_.stream = fun _ => 4)
    (hhp : 0 < g.baseHP_) (hdmg : Game.damage g < g.baseHP_) :
    (Game.Update g keys preKeys).state_ = GameState.Play ∧
    (Game.Update g keys preKeys).phase_ = TimePhase.Result ∧
    (Game.Update g keys preKeys).dayCount_ = g.dayCount_ ∧
    (Game.Update g keys preKeys).baseHP_ =
      (if Game.damage g > 0 then g.baseHP_ - Game.damage g else g.baseHP_) ∧
    (Game.Update g keys preKeys).playerAttack_ =
      wrapInt (g.playerAttack_ + wrapInt (g.dayCount_ * 5)) ∧
    (Game.Update g keys preKeys).baseDefense_ = g.baseDefense_ ∧
    (Game.Update g keys preKeys).points_ = g.points_ ∧
    (Game.Update g keys preKeys).lastEarnedPoints_ = (wrapInt (g.dayCount_ * 5)).tdiv 2 ∧
    (Game.Update g keys preKeys).rng_.stream = fun _ => 4 := by
  obtain ⟨hU, -, -⟩ := Game.Update_night_end g keys preKeys hP hN (by omega)
  have d1 := Rng.draw_const g.rng_ 4 hs 0 9999
  have d2 := Rng.draw_const (g.rng_.draw 0 9999).2 4 d1.2 0 99
  have d3 := Rng.draw_const ((g.rng_.draw 0 9999).2.draw 0 99).2 4 d2.2 0 3
  have e1 : (Game.StartResultDamage
      (Game.UpdateBallsDuringNight { g with nightTimer_ := g.nightTimer_ - 1 })).draw1 = 4 := by
    show (g.rng_.draw 0 9999).1 = 4
    rw [d1.1]; decide
  have e2 : (Game.StartResultDamage
      (Game.UpdateBallsDuringNight { g with nightTimer_ := g.nightTimer_ - 1 })).draw2 = 4 := by
    show ((g.rng_.draw 0 9999).2.draw 0 99).1 = 4
    rw [d2.1]; decide
  have e3 : (Game.StartResultDamage
      (Game.UpdateBallsDuringNight { g with nightTimer_ := g.nightTimer_ - 1 })).draw3 3 = 0 := by
    show (((g.rng_.draw 0 9999).2.draw 0 99).2.draw 0 3).1 = 0
    rw [d3.1]; decide
  have hhp' : (if (if Game.damage g > 0 then g.baseHP_ - Game.damage g else g.baseHP_) < 0
      then 0 else (if Game.damage g > 0 then g.baseHP_ - Game.damage g else g.baseHP_)) =
      (if Game.damage g > 0 then g.baseHP_ - Game.damage g else g.baseHP_) := by
    split_ifs <;> omega
  have hpos : 0 < (if Game.damage g > 0 then g.baseHP_ - Game.damage g else g.baseHP_) := by
    split_ifs <;> omega
  have hUP : Game.UpdatePlay g keys preKeys =
      { Game.StartResultDamage
          (Game.UpdateBallsDuringNight { g with nightTimer_ := g.nightTimer_ - 1 }) with
        playerAttack_ := wrapInt (g.playerAttack_ + wrapInt (g.dayCount_ * 5))
        eventMessage_ := "いい武器を拾った！"
        rng_ := (((g.rng_.draw 0 9999).2.draw 0 99).2.draw 0 3).2 } := by
    rw [hU, Game.HandleEvent_good _ (by rw [e1]; norm_num) (by rw [e2]; norm_num)]
    simp only [e3]
    rfl
  have hhpU : (Game.UpdatePlay g keys preKeys).baseHP_ =
      (if Game.damage g > 0 then g.baseHP_ - Game.damage g else g.baseHP_) := by
    rw [hUP]
    exact hhp'
  rw [Game.Update_Play_alive g _ _ hP (by rw [hhpU]; exact hpos)]
  rw [hUP] at hhpU ⊢
  exact ⟨hP, rfl, rfl, hhpU, rfl, rfl, rfl, rfl, d3.2⟩

/-- A Result tick without an Enter edge leaves the state as it is. -/
theorem Game.Update_result_idle (g : Game) (hP : g.state_ = GameState.Play)
    (hR : g.phase_ = TimePhase.Result) (hhp : 0 < g.baseHP_) :
    Game.Update g enterRelease.1 enterRelease.2 = g := by
  have k0 : Game.IsKeyTriggered enterRelease.1 enterRelease.2 VK_RETURN = false := by decide
  have hU : Game.UpdatePlay g enterRelease.1 enterRelease.2 = g := by
    rw [Game.UpdatePlay_Result g _ _ hR, k0]
    rfl
  rw [Game.Update_Play_alive g _ _ hP (by rw [hU]; exact hhp), hU]

/-- A Result tick with an Enter edge: the next day starts. -/
theorem Game.Update_result_enter (g : Game) (hP : g.state_ = GameState.Play)
    (hR : g.phase_ = TimePhase.Result) (hhp : 0 < g.baseHP_) :
    (Game.Update g enterEdge.1 enterEdge.2).state_ = GameState.Play ∧
    (Game.Update g enterEdge.1 enterEdge.2).phase_ = TimePhase.Day ∧
    (Game.Update g enterEdge.1 enterEdge.2).phaseTimer_ = 600 ∧
    (Game.Update g enterEdge.1 enterEdge.2).dayCount_ = wrapInt (g.dayCount_ + 1) ∧
    (Game.Update g enterEdge.1 enterEdge.2).baseHP_ = g.baseHP_ ∧
    (Game.Update g enterEdge.1 enterEdge.2).playerAttack_ = g.playerAttack_ ∧
    (Game.Update g enterEdge.1 enterEdge.2).baseDefense_ = g.baseDefense_ ∧
    (Game.Update g enterEdge.1 enterEdge.2).points_ =
      wrapInt (g.points_ + g.lastEarnedPoints_) ∧
    (Game.Update g enterEdge.1 enterEdge.2).rng_.stream = g.rng_.stream := by
  have k0 : Game.IsKeyTriggered enterEdge.1 enterEdge.2 VK_RETURN = true := by decide
  have hU : Game.UpdatePlay g enterEdge.1 enterEdge.2 = Game.StartDay g := by
    rw [Game.UpdatePlay_Result g _ _ hR, if_pos k0]
  obtain ⟨bs, r, hS⟩ : ∃ bs r, Game.StartDay g =
      { g with
        phase_ := TimePhase.Day
        phaseTimer_ := 600
        dayCount_ := wrapInt (g.dayCount_ + 1)
        points_ := wrapInt (g.points_ + g.lastEarnedPoints_)
        eventMessage_ := ""
        balls_ := bs
        rng_ := r } := by
    unfold Game.StartDay
    obtain ⟨bs, r, hs⟩ := Game.SpawnBalls_frame
      { g with
        phase_ := TimePhase.Day
        phaseTimer_ := 600
        dayCount_ := wrapInt (g.dayCount_ + 1)
        points_ := wrapInt (g.points_ + g.lastEarnedPoints_)
        eventMessage_ := "" }
    exact ⟨bs, r, hs⟩
  have hst : (Game.StartDay g).rng_.stream = g.rng_.stream := by
    unfold Game.StartDay
    rw [Game.SpawnBalls_stream]
  rw [Game.Update_Play_alive g _ _ hP (by rw [hU, hS]; exact hhp), hU]
  rw [hS] at hst ⊢
  exact ⟨hP, rfl, rfl, rfl, rfl, rfl, rfl, rfl, hst⟩

/-- Arithmetic of `overflowRun`: the attack at the start of day `d`. -/
theorem overflowRun_attack (d a : Int) (hd1 : 1 ≤ d) (hd2 : d ≤ 29309)
    (ha : 2 * a = 20 + 5 * d * (d - 1)) :
    10 ≤ a ∧ a ≤ 2147470440 ∧ (d ≤ 29308 → a + 5 * d ≤ 2147470440) ∧
      (16 ≤ d → 30 * d ≤ a + 5) := by
  have e : 5 * d * (d - 1) = 5 * (d * (d - 1)) := by ring
  rw [e] at ha
  have q0 : 0 ≤ d * (d - 1) := mul_nonneg (by omega) (by omega)
  have q1 : d * (d - 1) ≤ 29309 * 29308 :=
    mul_le_mul hd2 (by omega) (by omega) (by norm_num)
  have q2 : d ≤ 29308 → d * (d - 1) ≤ 29308 * 29307 := fun h =>
    mul_le_mul h (by omega) (by omega) (by norm_num)
  have q3 : 16 ≤ d → d * 15 ≤ d * (d - 1) := fun h =>
    mul_le_mul (le_refl d) (by omega) (by norm_num) (by omega)
  generalize d * (d - 1) = q at *
  refine ⟨by omega, by omega, fun h => ?_, fun h => ?_⟩
  · have := q2 h
    omega
  · have := q3 h
    omega

/-- Arithmetic of `overflowRun`: the points at the start of day `d + 1`. -/
theorem overflowRun_points (d p : Int) (hd1 : 1 ≤ d) (hd2 : d ≤ 29309) (hp0 : 0 ≤ p)
    (hp : 4 * p ≤ 20 + 5 * d * d) :
    0 ≤ p + d * 5 / 2 ∧ p + d * 5 / 2 ≤ 1073845129 ∧
      4 * (p + d * 5 / 2) ≤ 20 + 5 * (d + 1) * (d + 1) := by
  have e : 5 * d * d = 5 * (d * d) := by ring
  have e' : 5 * (d + 1) * (d + 1) = 5 * (d * d) + 10 * d + 5 := by ring
  rw [e] at hp
  rw [e']
  have q1 : d * d ≤ 29309 * 29309 := mul_le_mul hd2 hd2 (by omega) (by norm_num)
  generalize d * d = q at *
  refine ⟨by omega, by omega, by omega⟩

/-- Damage and health in `overflowRun`: at the Result entry of day `d` the
damage is below the health, and the health that results is that of day
`d + 1`. -/
theorem overflowRun_damage (g : Game) (d : Int) (hd1 : 1 ≤ d) (hd2 : d ≤ 29309)
    (hdc : g.dayCount_ = d) (ha : 2 * g.playerAttack_ = 20 + 5 * d * (d - 1))
    (hf : g.baseDefense_ = 5) :
    Game.damage g < overflowRunHP d ∧
    (if Game.damage g > 0 then overflowRunHP d - Game.damage g else overflowRunHP d) =
      overflowRunHP (d + 1) := by
  obtain ⟨a1, a2, -, a4⟩ := overflowRun_attack d g.playerAttack_ hd1 hd2 ha
  have hsum : g.playerAttack_ + g.baseDefense_ ≤ INT_MAX := by
    rw [hf]; unfold INT_MAX; omega
  have hdm := (Game.damage_eq g (by omega) (by rw [hdc]; unfold INT_MAX; omega) (by omega)
    (by omega) hsum).2
  rw [Game.effectiveDefense_eq g (by omega) (by omega) hsum, hdc, hf] at hdm
  rw [hdm]
  rcases le_or_lt 16 d with h16 | h16
  · have h30 := a4 h16
    have c1 : ¬ d ≤ 5 := by omega
    have c2 : ¬ d ≤ 10 := by omega
    have c3 : ¬ d ≤ 15 := by omega
    simp only [c1, c2, c3, if_false]
    have hv : overflowRunHP d = 23 ∧ overflowRunHP (d + 1) = 23 := by
      unfold overflowRunHP
      constructor <;> (split_ifs <;> omega)
    rw [hv.1, hv.2]
    constructor
    · omega
    · rw [if_neg (by omega)]
  · clear a4 hdm
    interval_cases d
    all_goals
      norm_num [overflowRunHP] at ha ⊢
      constructor <;> (try split_ifs) <;> omega

/-- A day of `overflowRun` up to its Result: from the start of day `d`, after
the two Day ticks and the 300 Night ticks, the state is the Result of day `d`
with the event applied. -/
theorem overflowRun_result (d : Int) (g : Game) (ks : Nat → Keys × Keys)
    (k0 : ks 0 = enterRelease) (k1 : ks 1 = enterEdge)
    (hd1 : 1 ≤ d) (hd2 : d ≤ 29309) (h : overflowRunDay d g) :
    (Game.runFor g ks 302).state_ = GameState.Play ∧
    (Game.runFor g ks 302).phase_ = TimePhase.Result ∧
    (Game.runFor g ks 302).dayCount_ = d ∧
    (Game.runFor g ks 302).baseHP_ = overflowRunHP (d + 1) ∧
    (Game.runFor g ks 302).playerAttack_ = wrapInt (g.playerAttack_ + 5 * d) ∧
    (Game.runFor g ks 302).baseDefense_ = 5 ∧
    (Game.runFor g ks 302).points_ = g.points_ ∧
    (Game.runFor g ks 302).lastEarnedPoints_ = d * 5 / 2 ∧
    (Game.runFor g ks 302).rng_.stream = fun _ => 4 := by
  obtain ⟨hP, hD, hT, hdc, ha, hf, hhp, hp0, hp, hs⟩ := h
  have hpos : ∀ x : Int, 0 < overflowRunHP x := by
    intro x; unfold overflowRunHP; split_ifs <;> norm_num
  have e : Game.runFor g ks 302 =
      Game.Update
        (Game.runFor
          (Game.Update (Game.Update g enterRelease.1 enterRelease.2) enterEdge.1 enterEdge.2)
          (fun i => ks (2 + i)) 299)
        (ks 301).1 (ks 301).2 := by
    have e2 : Game.runFor g ks 2 =
        Game.Update (Game.Update g enterRelease.1 enterRelease.2) enterEdge.1 enterEdge.2 := by
      rw [Game.runFor_succ, Game.runFor_succ, k0, k1]
      rfl
    rw [show (302 : Nat) = 2 + 299 + 1 from rfl, Game.runFor_succ, Game.runFor_add, e2]
  rw [e]
  obtain ⟨i1, i2, i3, i4, i5, i6, i7, i8, i9⟩ :=
    Game.Update_day_idle g hP hD hT (by rw [hhp]; exact hpos d)
  obtain ⟨a1, a2, a3, a4, a5, a6, a7, a8, a9⟩ :=
    Game.Update_day_enter (Game.Update g enterRelease.1 enterRelease.2) i1 i2
      (by rw [i5, hhp]; exact hpos d)
  obtain ⟨b1, b2, b3, b4, b5, b6, b7, b8, b9⟩ :=
    Game.runFor_night
      (Game.Update (Game.Update g enterRelease.1 enterRelease.2) enterEdge.1 enterEdge.2)
      (fun i => ks (2 + i)) a1 a2 (by rw [a5, i5, hhp]; exact hpos d) 299
      (by rw [a3]; norm_num)
  have hdmg := overflowRun_damage
    (Game.runFor
      (Game.Update (Game.Update g enterRelease.1 enterRelease.2) enterEdge.1 enterEdge.2)
      (fun i => ks (2 + i)) 299) d hd1 hd2
    (by rw [b4, a4, i4, hdc]) (by rw [b6, a6, i6]; exact ha) (by rw [b7, a7, i7, hf])
  have hhp2 : (Game.runFor
      (Game.Update (Game.Update g enterRelease.1 enterRelease.2) enterEdge.1 enterEdge.2)
      (fun i => ks (2 + i)) 299).baseHP_ = overflowRunHP d := by rw [b5, a5, i5, hhp]
  obtain ⟨c1, c2, c3, c4, c5, c6, c7, c8, c9⟩ :=
    Game.Update_night_end_four
      (Game.runFor
        (Game.Update (Game.Update g enterRelease.1 enterRelease.2) enterEdge.1 enterEdge.2)
        (fun i => ks (2 + i)) 299)
      (ks 301).1 (ks 301).2 b1 b2 (by rw [b3, a3]; norm_num) (by rw [b9, a9, i9]; exact hs)
      (by rw [hhp2]; exact hpos d) (by rw [hhp2]; exact hdmg.1)
  have w5 : wrapInt (d * 5) = d * 5 :=
    wrapInt_of_inInt _ ⟨by unfold INT_MIN; omega, by unfold INT_MAX; omega⟩
  refine ⟨c1, c2, by rw [c3, b4, a4, i4, hdc], ?_, ?_, by rw [c6, b7, a7, i7, hf],
    by rw [c7, b8, a8, i8], ?_, c9⟩
  · rw [c4, hhp2]; exact hdmg.2
  · rw [c5, b6, a6, i6, b4, a4, i4, hdc, w5, mul_comm]
  · rw [c8, b4, a4, i4, hdc, w5, Int.tdiv_eq_ediv (by omega) (by norm_num)]

/-- A day of `overflowRun`: 304 ticks lead from the start of day `d` to the
start of day `d + 1`, as long as `d ≤ 29308`. -/
theorem overflowRun_next (d : Int) (g : Game) (ks : Nat → Keys × Keys)
    (k0 : ks 0 = enterRelease) (k1 : ks 1 = enterEdge)
    (k302 : ks 302 = enterRelease) (k303 : ks 303 = enterEdge)
    (hd1 : 1 ≤ d) (hd2 : d ≤ 29308) (h : overflowRunDay d g) :
    overflowRunDay (d + 1) (Game.runFor g ks 304) := by
  obtain ⟨r1, r2, r3, r4, r5, r6, r7, r8, r9⟩ :=
    overflowRun_result d g ks k0 k1 hd1 (by omega) h
  obtain ⟨hP, hD, hT, hdc, ha, hf, hhp, hp0, hp, hs⟩ := h
  have hpos : ∀ x : Int, 0 < overflowRunHP x := by
    intro x; unfold overflowRunHP; split_ifs <;> norm_num
  have e : Game.runFor g ks 304 =
      Game.Update (Game.runFor g ks 302) enterEdge.1 enterEdge.2 := by
    have e1 : Game.runFor g ks 303 = Game.runFor g ks 302 := by
      rw [Game.runFor_succ, k302]
      exact Game.Update_result_idle _ r1 r2 (by rw [r4]; exact hpos _)
    rw [Game.runFor_succ, e1, k303]
  rw [e]
  obtain ⟨s1, s2, s3, s4, s5, s6, s7, s8, s9⟩ :=
    Game.Update_result_enter (Game.runFor g ks 302) r1 r2 (by rw [r4]; exact hpos _)
  obtain ⟨t1, t2, t3, -⟩ := overflowRun_attack d g.playerAttack_ hd1 (by omega) ha
  obtain ⟨p1, p2, p3⟩ := overflowRun_points d g.points_ hd1 (by omega) hp0 hp
  have wa : wrapInt (g.playerAttack_ + 5 * d) = g.playerAttack_ + 5 * d :=
    wrapInt_of_inInt _ ⟨by unfold INT_MIN; omega, by have := t3 hd2; unfold INT_MAX; omega⟩
  have wd : wrapInt (d + 1) = d + 1 :=
    wrapInt_of_inInt _ ⟨by unfold INT_MIN; omega, by unfold INT_MAX; omega⟩
  have wp : wrapInt (g.points_ + d * 5 / 2) = g.points_ + d * 5 / 2 :=
    wrapInt_of_inInt _ ⟨by unfold INT_MIN; omega, by unfold INT_MAX; omega⟩
  refine ⟨s1, s2, s3, by rw [s4, r3, wd], ?_, by rw [s7, r6], by rw [s5, r4], ?_, ?_,
    by rw [s9, r9]⟩
  · rw [s6, r5, wa]
    linear_combination ha
  · rw [s8, r7, r8, wp]; exact p1
  · rw [s8, r7, r8, wp]; exact p3

theorem overflowRun_succ (n : Nat) :
    overflowRun (n + 1) =
      Game.Update (overflowRun n) (overflowKeys n).1 (overflowKeys n).2 := rfl

/-- The first three ticks of `overflowRun` start day 1. -/
theorem overflowRun_start : overflowRunDay 1 (overflowRun 3) := by
  have k0 : Game.IsKeyTriggered enterEdge.1 enterEdge.2 VK_RETURN = true := by decide
  have k1 : Game.IsKeyTriggered enterRelease.1 enterRelease.2 VK_RETURN = false := by decide
  have e1 : overflowRun 1 = { Game.new (fun _ => 4) with state_ := GameState.Explanation } := by
    show Game.Update (Game.new fun _ => 4) enterEdge.1 enterEdge.2 = _
    rw [Game.Update_Title _ _ _ rfl, if_pos k0]
  have e2 : overflowRun 2 = { Game.new (fun _ => 4) with state_ := GameState.Explanation } := by
    show Game.Update (overflowRun 1) enterRelease.1 enterRelease.2 = _
    rw [e1, Game.Update_Explanation _ _ _ rfl, k1]
    rfl
  have e3 : overflowRun 3 = Game.Update (overflowRun 2) enterEdge.1 enterEdge.2 := rfl
  rw [e3, e2, Game.Update_Explanation _ _ _ rfl, if_pos k0]
  obtain ⟨bs, r, hS⟩ := Game.SpawnBalls_frame
    { ({ Game.new (fun _ => 4) with state_ := GameState.Explanation } : Game) with
      state_ := GameState.Play
      phase_ := TimePhase.Day
      phaseTimer_ := 600
      dayCount_ := 1
      baseHP_ := 100
      points_ := 5
      eventMessage_ := "" }
  have hst := Game.SpawnBalls_stream
    { ({ Game.new (fun _ => 4) with state_ := GameState.Explanation } : Game) with
      state_ := GameState.Play
      phase_ := TimePhase.Day
      phaseTimer_ := 600
      dayCount_ := 1
      baseHP_ := 100
      points_ := 5
      eventMessage_ := "" }
  rw [hS] at hst ⊢
  refine ⟨rfl, rfl, rfl, rfl, ?_, rfl, ?_, ?_, ?_, hst⟩
  · show (2 : Int) * 10 = 20 + 5 * 1 * (1 - 1)
    decide
  · show (100 : Int) = overflowRunHP 1
    decide
  · show (0 : Int) ≤ 5
    decide
  · show (4 : Int) * 5 ≤ 20 + 5 * 1 * 1
    decide

/-- The keys of the ticks of a day of `overflowRun`, which starts on an odd
tick. -/
theorem overflowKeys_day (m : Nat) (hm : m % 2 = 1) :
    overflowKeys (m + 0) = enterRelease ∧ overflowKeys (m + 1) = enterEdge ∧
    overflowKeys (m + 302) = enterRelease ∧ overflowKeys (m + 303) = enterEdge := by
  have h0 : ¬ (m + 0) % 2 = 0 := by omega
  have h1 : (m + 1) % 2 = 0 := by omega
  have h2 : ¬ (m + 302) % 2 = 0 := by omega
  have h3 : (m + 303) % 2 = 0 := by omega
  unfold overflowKeys
  rw [if_neg h0, if_pos h1, if_neg h2, if_pos h3]
  exact ⟨rfl, rfl, rfl, rfl⟩

/-- Day `k + 1` of `overflowRun` starts after `3 + 304 * k` ticks, up to day
29309. -/
theorem overflowRun_day (k : Nat) (hk : k ≤ 29308) :
    overflowRunDay ((k : Int) + 1) (overflowRun (3 + 304 * k)) := by
  induction k with
  | zero => exact overflowRun_start
  | succ k ih =>
    have e : overflowRun (3 + 304 * (k + 1)) =
        Game.runFor (overflowRun (3 + 304 * k)) (fun i => overflowKeys (3 + 304 * k + i))
          304 := by
      unfold overflowRun
      rw [← Game.runFor_add, show 3 + 304 * (k + 1) = 3 + 304 * k + 304 from by ring]
    rw [e]
    obtain ⟨k0, k1, k302, k303⟩ := overflowKeys_day (3 + 304 * k) (by omega)
    have h := overflowRun_next ((k : Int) + 1) _ (fun i => overflowKeys (3 + 304 * k + i))
      k0 k1 k302 k303 (by omega) (by omega) (ih (by omega))
    push_cast
    exact h

/-- The Result entry of day 29309 of `overflowRun`: the event adds `5 * 29309`
to the attack 2147470440, and the sum 2147616985 wraps to a negative value. -/
theorem overflowRun_wraps (g : Game) (ks : Nat → Keys × Keys)
    (k0 : ks 0 = enterRelease) (k1 : ks 1 = enterEdge) (h : overflowRunDay 29309 g) :
    (Game.runFor g ks 302).state_ = GameState.Play ∧
    (Game.runFor g ks 302).phase_ = TimePhase.Result ∧
    (Game.runFor g ks 302).baseHP_ = 23 ∧
    (Game.runFor g ks 302).playerAttack_ = -2147350311 ∧
    0 ≤ (Game.runFor g ks 302).points_ ∧
    (Game.runFor g ks 302).points_ ≤ 1073771856 ∧
    (Game.runFor g ks 302).lastEarnedPoints_ = 73272 := by
  obtain ⟨r1, r2, r3, r4, r5, r6, r7, r8, r9⟩ :=
    overflowRun_result 29309 g ks k0 k1 (by norm_num) (by norm_num) h
  obtain ⟨hP, hD, hT, hdc, ha, hf, hhp, hp0, hp, hs⟩ := h
  have hatt : g.playerAttack_ = 2147470440 := by
    norm_num at ha
    omega
  refine ⟨r1, r2, ?_, ?_, ?_, ?_, ?_⟩
  · rw [r4]; norm_num [overflowRunHP]
  · rw [r5, hatt]; norm_num [wrapInt]
  · rw [r7]; exact hp0
  · rw [r7]; norm_num at hp; omega
  · rw [r8]; norm_num

/-- The state of `overflowRun` after 8909937 ticks, the Result entry of day
29309: `Play`, with a negative attack. -/
theorem overflowRun_overflow :
    (overflowRun 8909937).state_ = GameState.Play ∧
    (overflowRun 8909937).phase_ = TimePhase.Result ∧
    (overflowRun 8909937).baseHP_ = 23 ∧
    (overflowRun 8909937).playerAttack_ = -2147350311 ∧
    0 ≤ (overflowRun 8909937).points_ ∧
    (overflowRun 8909937).points_ ≤ 1073771856 ∧
    (overflowRun 8909937).lastEarnedPoints_ = 73272 := by
  have hday : overflowRunDay 29309 (overflowRun (3 + 304 * 29308)) :=
    overflowRun_day 29308 (le_refl _)
  have e : overflowRun 8909937 =
      Game.runFor (overflowRun (3 + 304 * 29308))
        (fun i => overflowKeys (3 + 304 * 29308 + i)) 302 := by
    unfold overflowRun
    rw [← Game.runFor_add]
  rw [e]
  obtain ⟨k0, k1, -, -⟩ := overflowKeys_day (3 + 304 * 29308) (by norm_num)
  exact overflowRun_wraps _ (fun i => overflowKeys (3 + 304 * 29308 + i)) k0 k1 hday

/-- The start of day 29310 of `overflowRun`, after 8909939 ticks: the attack is
negative and the attack-up cost is -21473502. -/
theorem overflowRun_after :
    (overflowRun 8909939).state_ = GameState.Play ∧
    (overflowRun 8909939).phase_ = TimePhase.Day ∧
    (overflowRun 8909939).phaseTimer_ = 600 ∧
    (overflowRun 8909939).baseHP_ = 23 ∧
    0 ≤ (overflowRun 8909939).points_ ∧
    (overflowRun 8909939).points_ ≤ 1073845128 ∧
    (overflowRun 8909939).playerAttack_.tdiv 100 + 1 = -21473502 := by
  obtain ⟨h1, h2, h3, h4, h5, h6, h7⟩ := overflowRun_overflow
  have e1 : overflowRun 8909938 = overflowRun 8909937 := by
    have e : overflowRun 8909938 =
        Game.Update (overflowRun 8909937) enterRelease.1 enterRelease.2 :=
      overflowRun_succ 8909937
    rw [e]
    exact Game.Update_result_idle _ h1 h2 (by rw [h3]; norm_num)
  have e : overflowRun 8909939 =
      Game.Update (overflowRun 8909937) enterEdge.1 enterEdge.2 := by
    have e2 : overflowRun 8909939 =
        Game.Update (overflowRun 8909938) enterEdge.1 enterEdge.2 :=
      overflowRun_succ 8909938
    rw [e2, e1]
  obtain ⟨s1, s2, s3, -, s5, s6, -, s8, -⟩ :=
    Game.Update_result_enter (overflowRun 8909937) h1 h2 (by rw [h3]; norm_num)
  rw [← e] at s1 s2 s3 s5 s6 s8
  have hp : (overflowRun 8909939).points_ = (overflowRun 8909937).points_ + 73272 := by
    rw [s8, h7]
    exact wrapInt_of_inInt _ ⟨by unfold INT_MIN; omega, by unfold INT_MAX; omega⟩
  have hcost : (overflowRun 8909939).playerAttack_.tdiv 100 + 1 = -21473502 := by
    rw [s6, h4]
    decide
  exact ⟨s1, s2, s3, by rw [s5, h3], by omega, by omega, hcost⟩

/-! ## Non-negativity -/

theorem Reachable_of_ReachableInRange (g : Game) (h : ReachableInRange g) : Reachable g := by
  induction h with
  | init stream => exact Reachable.init stream
  | tick g keys preKeys _ _ ih => exact Reachable.tick g keys preKeys ih

theorem ReachableInRange_runTicks (g : Game) (ticks : List (Keys × Keys))
    (h : ReachableInRange g) (hr : Game.runInRange g ticks) :
    ReachableInRange (Game.runTicks g ticks) := by
  induction ticks generalizing g with
  | nil => exact h
  | cons t ts ih => exact ih _ (ReachableInRange.tick g t.1 t.2 h hr.1) hr.2

theorem wrapInt_nonneg (x : Int) (h0 : 0 ≤ x) (h1 : x ≤ INT_MAX) : 0 ≤ wrapInt x := by
  rw [wrapInt_of_inInt x ⟨by unfold INT_MIN; omega, h1⟩]
  exact h0

/-- The event keeps the members non-negative when its sums and products are
representable. -/
theorem nonnegInv_HandleEvent (g : Game) (h : nonnegInv g)
    (h10 : g.dayCount_ * 10 ≤ INT_MAX)
    (ha : g.playerAttack_ + g.dayCount_ * 10 ≤ INT_MAX)
    (hf : g.baseDefense_ + g.dayCount_ * 10 ≤ INT_MAX)
    (hl : g.lastEarnedPoints_ * 3 ≤ INT_MAX) : nonnegInv (Game.HandleEvent g) := by
  obtain ⟨h1, h2, h3, h4, h5, h6, h7, h8⟩ := h
  have htd : 0 ≤ g.lastEarnedPoints_.tdiv 2 := by
    rw [Int.tdiv_eq_ediv h4 (by norm_num)]
    exact Int.ediv_nonneg h4 (by norm_num)
  have w10 : wrapInt (g.dayCount_ * 10) = g.dayCount_ * 10 :=
    wrapInt_of_inInt _ ⟨by unfold INT_MIN; omega, h10⟩
  have w5 : wrapInt (g.dayCount_ * 5) = g.dayCount_ * 5 :=
    wrapInt_of_inInt _ ⟨by unfold INT_MIN; omega, by omega⟩
  by_cases d1 : g.draw1 < 2
  · rw [Game.HandleEvent_awakening g d1]
    unfold nonnegInv
    simp only [w10]
    exact ⟨h1, wrapInt_nonneg _ (by omega) ha, wrapInt_nonneg _ (by omega) hf,
      wrapInt_nonneg _ (by omega) hl, h5, h6, h7, h8⟩
  · by_cases d2 : g.draw2 < 30
    · rw [Game.HandleEvent_good g (by omega) d2]
      unfold nonnegInv
      simp only [w5]
      refine ⟨h1, ?_, ?_, ?_, h5, h6, h7, h8⟩
      · split_ifs
        · exact wrapInt_nonneg _ (by omega) (by omega)
        · exact h2
      · split_ifs
        · exact wrapInt_nonneg _ (by omega) (by omega)
        · exact h3
      · split_ifs
        · exact wrapInt_nonneg _ (by omega) (by omega)
        · exact h4
    · by_cases d3 : g.draw2 < 50
      · rw [Game.HandleEvent_bad g (by omega) (by omega) d3]
        unfold nonnegInv
        simp only
        refine ⟨h1, ?_, ?_, ?_, h5, h6, h7, h8⟩
        · split_ifs
          · exact le_max_left _ _
          · exact h2
        · split_ifs
          · exact le_max_left _ _
          · exact h3
        · split_ifs
          · exact htd
          · exact h4
      · rw [Game.HandleEvent_neutral g (by omega) (by omega)]
        exact ⟨h1, h2, h3, h4, h5, h6, h7, h8⟩

theorem nonnegInv_UpdatePlay (g : Game) (keys preKeys : Keys) (h : nonnegInv g)
    (hr : g.inRange) : nonnegInv (Game.UpdatePlay g keys preKeys) := by
  obtain ⟨r1, r2, r3, r4, r5, r6, r7⟩ := hr
  have hcost : ∀ x : Int, 0 ≤ x → 1 ≤ x.tdiv 100 + 1 := by
    intro x hx
    rw [Int.tdiv_eq_ediv hx (by norm_num)]
    have : (0 : Int) ≤ x / 100 := Int.ediv_nonneg hx (by norm_num)
    omega
  have wsub : ∀ p c : Int, 1 ≤ c → c ≤ p → p ≤ INT_MAX → 0 ≤ wrapInt (p - c) := by
    intro p c hc hcp hp
    exact wrapInt_nonneg _ (by omega) (by omega)
  have capture : ∀ s, nonnegInv s → nonnegInv (Game.dayCapture s) := by
    intro s hs; rw [Game.dayCapture_eq]; unfold nonnegInv at *; simp only
    split_ifs <;> omega
  have countdown : ∀ s, nonnegInv s → nonnegInv (Game.dayCountdown s) := fun s hs => hs
  have attackUp : ∀ e c s, 1 ≤ c → s.playerAttack_ + 2 ≤ INT_MAX → s.points_ ≤ INT_MAX →
      nonnegInv s → nonnegInv (Game.dayAttackUp e c s) ∧
        (Game.dayAttackUp e c s).points_ ≤ INT_MAX ∧
        (Game.dayAttackUp e c s).baseDefense_ = s.baseDefense_ := by
    intro e c s hc ha hp hs; rw [Game.dayAttackUp_eq]; unfold nonnegInv at *; simp only
    obtain ⟨h1, h2, h3, h4, h5, h6, h7, h8⟩ := hs
    by_cases hb : e = true ∧ c ≤ s.points_
    · simp only [hb, and_self, if_true]
      have e1 : wrapInt (s.points_ - c) = s.points_ - c :=
        wrapInt_of_inInt _ ⟨by unfold INT_MIN; omega, by omega⟩
      exact ⟨⟨wsub _ _ hc hb.2 hp, wrapInt_nonneg _ (by omega) ha, h3, h4, h5, h6, h7, h8⟩,
        by rw [e1]; omega, trivial⟩
    · simp only [hb, if_false]
      exact ⟨⟨h1, h2, h3, h4, h5, h6, h7, h8⟩, hp, trivial⟩
  have defenseUp : ∀ e c s, 1 ≤ c → s.baseDefense_ + 2 ≤ INT_MAX → s.points_ ≤ INT_MAX →
      nonnegInv s → nonnegInv (Game.dayDefenseUp e c s) ∧
        (Game.dayDefenseUp e c s).points_ ≤ INT_MAX := by
    intro e c s hc ha hp hs; rw [Game.dayDefenseUp_eq]; unfold nonnegInv at *; simp only
    obtain ⟨h1, h2, h3, h4, h5, h6, h7, h8⟩ := hs
    by_cases hb : e = true ∧ c ≤ s.points_
    · simp only [hb, and_self, if_true]
      have e1 : wrapInt (s.points_ - c) = s.points_ - c :=
        wrapInt_of_inInt _ ⟨by unfold INT_MIN; omega, by omega⟩
      exact ⟨⟨wsub _ _ hc hb.2 hp, h2, wrapInt_nonneg _ (by omega) ha, h4, h5, h6, h7, h8⟩,
        by rw [e1]; omega⟩
    · simp only [hb, if_false]
      exact ⟨⟨h1, h2, h3, h4, h5, h6, h7, h8⟩, hp⟩
  have heal : ∀ e s, s.points_ ≤ INT_MAX → nonnegInv s → nonnegInv (Game.dayHeal e s) := by
    intro e s hp hs; rw [Game.dayHeal_eq]; unfold nonnegInv at *; simp only
    obtain ⟨h1, h2, h3, h4, h5, h6, h7, h8⟩ := hs
    by_cases hb : e = true ∧ 1 ≤ s.points_
    · simp only [hb, and_self, if_true]
      exact ⟨wsub _ _ (le_refl 1) hb.2 hp, h2, h3, h4, h5, h6, h7, h8⟩
    · simp only [hb, if_false]
      exact ⟨h1, h2, h3, h4, h5, h6, h7, h8⟩
  have undo : ∀ e s, nonnegInv s → nonnegInv (Game.dayUndo e s) := by
    intro e s hs; rw [Game.dayUndo_eq]; unfold nonnegInv at *; simp only
    split_ifs <;> omega
  have dend : ∀ e s, nonnegInv s → nonnegInv (Game.dayEnd e s) := by
    intro e s hs; rw [Game.dayEnd_eq]; exact hs
  have result : ∀ s, nonnegInv s → s.dayCount_ = g.dayCount_ →
      s.playerAttack_ = g.playerAttack_ → s.baseDefense_ = g.baseDefense_ →
      nonnegInv (Game.StartResult s) := by
    intro s hs e1 e2 e3
    obtain ⟨h1, h2, h3, h4, h5, h6, h7, h8⟩ := hs
    have hl : (Game.StartResultDamage s).lastEarnedPoints_ = s.dayCount_ * 5 / 2 := by
      show (wrapInt (s.dayCount_ * 5)).tdiv 2 = _
      rw [wrapInt_of_inInt _ ⟨by unfold INT_MIN; omega, by omega⟩,
        Int.tdiv_eq_ediv (by omega) (by norm_num)]
    apply nonnegInv_HandleEvent
    · refine ⟨h1, h2, h3, ?_, h5, h6, h7, h8⟩
      rw [hl]
      exact Int.ediv_nonneg (by omega) (by norm_num)
    · show s.dayCount_ * 10 ≤ INT_MAX
      omega
    · show s.playerAttack_ + s.dayCount_ * 10 ≤ INT_MAX
      omega
    · show s.baseDefense_ + s.dayCount_ * 10 ≤ INT_MAX
      omega
    · rw [hl]
      unfold INT_MAX at *
      omega
  have hg := h
  obtain ⟨h1, h2, h3, h4, h5, h6, h7, h8⟩ := h
  have hpm : g.points_ ≤ INT_MAX := by omega
  cases hph : g.phase_ with
  | Day =>
    rw [Game.UpdatePlay_Day g keys preKeys hph]
    obtain ⟨a1, a2, a3⟩ := attackUp (Game.IsKeyTriggered keys preKeys key1)
      (g.playerAttack_.tdiv 100 + 1) (Game.dayCountdown (Game.dayCapture g)) (hcost _ h2)
      (by rw [Game.dayCapture_eq]; exact r1) (by rw [Game.dayCapture_eq]; exact hpm)
      (countdown _ (capture _ hg))
    obtain ⟨d1, d2⟩ := defenseUp (Game.IsKeyTriggered keys preKeys key2)
      (g.baseDefense_.tdiv 100 + 1) _ (hcost _ h3)
      (by rw [a3, Game.dayCapture_eq]; exact r2) a2 a1
    exact dend _ _ (undo _ _ (heal _ _ d2 d1))
  | Night =>
    rw [Game.UpdatePlay_Night g keys preKeys hph]
    split_ifs
    · exact result _ hg rfl rfl rfl
    · exact hg
  | Result =>
    rw [Game.UpdatePlay_Result g keys preKeys hph]
    split_ifs
    · unfold Game.StartDay
      obtain ⟨bs, r, hs⟩ := Game.SpawnBalls_frame
        { g with
          phase_ := TimePhase.Day
          phaseTimer_ := 600
          dayCount_ := wrapInt (g.dayCount_ + 1)
          points_ := wrapInt (g.points_ + g.lastEarnedPoints_)
          eventMessage_ := "" }
      rw [hs]
      exact ⟨wrapInt_nonneg _ (by omega) r7, h2, h3, h4, h5, h6, h7,
        wrapInt_nonneg _ (by omega) (by unfold INT_MAX at *; omega)⟩
    · exact hg

theorem nonnegInv_Update (g : Game) (keys preKeys : Keys) (h : nonnegInv g)
    (hr : g.inRange) : nonnegInv (Game.Update g keys preKeys) := by
  cases hst : g.state_ with
  | Title =>
    rw [Game.Update_Title g keys preKeys hst]
    split_ifs <;> exact h
  | Explanation =>
    rw [Game.Update_Explanation g keys preKeys hst]
    split_ifs
    · obtain ⟨bs, r, hs⟩ := Game.SpawnBalls_frame
        { g with
          state_ := GameState.Play
          phase_ := TimePhase.Day
          phaseTimer_ := 600
          dayCount_ := 1
          baseHP_ := 100
          points_ := 5
          eventMessage_ := "" }
      rw [hs]
      obtain ⟨h1, h2, h3, h4, h5, h6, h7, h8⟩ := h
      exact ⟨by simp only; omega, h2, h3, h4, h5, h6, h7, by simp only; omega⟩
    · exact h
  | Play =>
    obtain ⟨st, hU⟩ := Game.Update_Play_frame g keys preKeys hst
    rw [hU]
    exact nonnegInv_UpdatePlay g keys preKeys h hr
  | GameOver =>
    rw [Game.Update_GameOver g keys preKeys hst]
    split_ifs
    · simp [nonnegInv, Game.Reset]
    · exact h

theorem nonnegInv_of_ReachableInRange (g : Game) (h : ReachableInRange g) : nonnegInv g := by
  induction h with
  | init stream => simp [nonnegInv, Game.new, Game.Reset]
  | tick g keys preKeys _ hr ih => exact nonnegInv_Update g keys preKeys ih hr

/-- C16, as the claim states it, fails once `playerAttack_` overflows.  Seed
the generator so that every raw draw is 4, and let Enter, the only key used,
be down on every second tick, chained as in the main loop.  Each day then
takes 304 ticks; no game is lost (the health settles at 23), nothing is
bought, and the event of every day adds `5 * dayCount_` to the attack, which
is `10 + 5 * (1 + ... + (d - 1))` at the start of day `d`.  After 8909937
ticks, at the Result entry of day 29309, the event adds 146545 to the attack
2147470440; the `int` sum wraps, and the reachable `Play` state holds the
attack -2147350311, for which the upgrade cost `attack / 100 + 1` is
-21473502. -/
theorem C16_counterexample :
    Reachable (overflowRun 8909937) ∧
    (overflowRun 8909937).state_ = GameState.Play ∧
    (overflowRun 8909937).playerAttack_ = -2147350311 ∧
    (overflowRun 8909937).playerAttack_.tdiv 100 + 1 = -21473502 := by
  obtain ⟨h1, -, -, h4, -⟩ := overflowRun_overflow
  refine ⟨Reachable_runFor _ _ _ (Reachable.init _), h1, h4, ?_⟩
  rw [h4]
  decide

/-- C16, amended: non-negativity invariant without overflow.  In every state
reachable from the initial (Reset) state by a sequence of `Update` ticks, with
any key snapshots and any generator stream, each tick of which starts in a
state that is `inRange` (so that none of its `int` operations overflows),
`points ≥ 0`, `attack ≥ 0` and `defense ≥ 0`; consequently both upgrade costs
`stat / 100 + 1`, which then are `⌊stat / 100⌋ + 1`, are at least 1. -/
theorem C16_non_negativity (g : Game) (h : ReachableInRange g) :
    0 ≤ g.points_ ∧ 0 ≤ g.playerAttack_ ∧ 0 ≤ g.baseDefense_ ∧
    1 ≤ g.playerAttack_.tdiv 100 + 1 ∧ 1 ≤ g.baseDefense_.tdiv 100 + 1 ∧
    g.playerAttack_.tdiv 100 + 1 = ⌊(g.playerAttack_ : ℚ) / 100⌋ + 1 ∧
    g.baseDefense_.tdiv 100 + 1 = ⌊(g.baseDefense_ : ℚ) / 100⌋ + 1 := by
  obtain ⟨h1, h2, h3, -⟩ := nonnegInv_of_ReachableInRange g h
  have hcost : ∀ x : Int, 0 ≤ x →
      1 ≤ x.tdiv 100 + 1 ∧ x.tdiv 100 + 1 = ⌊(x : ℚ) / 100⌋ + 1 := by
    intro x hx
    have e1 : ((x : ℚ) / 100) = (x : ℚ) / ((100 : Nat) : ℚ) := by norm_num
    rw [e1, Rat.floor_intCast_div_natCast, Int.tdiv_eq_ediv hx (by norm_num)]
    have : (0 : Int) ≤ x / 100 := Int.ediv_nonneg hx (by norm_num)
    exact ⟨by omega, rfl⟩
  exact ⟨h1, h2, h3, (hcost _ h2).1, (hcost _ h3).1, (hcost _ h2).2, (hcost _ h3).2⟩

/-- C16, instance: the state after starting a session and buying an attack-up
and a defense-up in the first day tick. -/
theorem C16_non_negativity_witness :
    0 ≤ (Game.runTicks (Game.new fun n => n)
          [(keysDown [VK_RETURN], keysDown []), (keysDown [], keysDown [VK_RETURN]),
           (keysDown [VK_RETURN], keysDown []),
           (keysDown [key1, key2], keysDown [VK_RETURN])]).points_ :=
  (C16_non_negativity _ (ReachableInRange_runTicks (Game.new fun n => n)
    [(keysDown [VK_RETURN], keysDown []), (keysDown [], keysDown [VK_RETURN]),
     (keysDown [VK_RETURN], keysDown []),
     (keysDown [key1, key2], keysDown [VK_RETURN])] (ReachableInRange.init _)
    ⟨by decide, by decide, by decide, by decide, trivial⟩)).1

/-! ## Game over only at Result entry -/

/-- A Day call of `UpdatePlay`, whatever the keys: the countdown, the phase,
and positivity of health and of its backup. -/
theorem Game.day_tick_any (s : Game) (keys preKeys : Keys) (hD : s.phase_ = TimePhase.Day) :
    (Game.UpdatePlay s keys preKeys).phaseTimer_ = s.phaseTimer_ - 1 ∧
    ((Game.UpdatePlay s keys preKeys).phase_ = TimePhase.Day ∨
      (Game.UpdatePlay s keys preKeys).phase_ = TimePhase.Night) ∧
    (0 < s.baseHP_ → (s.phaseTimer_ = 600 ∨ 0 < s.baseHPBackup_) →
      0 < (Game.UpdatePlay s keys preKeys).baseHP_ ∧
        0 < (Game.UpdatePlay s keys preKeys).baseHPBackup_) := by
  rw [Game.UpdatePlay_Day s keys preKeys hD]
  simp only [Game.dayEnd_eq, Game.dayUndo_eq, Game.dayHeal_eq, Game.dayDefenseUp_eq,
    Game.dayAttackUp_eq, Game.dayCountdown, Game.dayCapture_eq]
  refine ⟨trivial, ?_, ?_⟩
  · split_ifs
    · exact Or.inr rfl
    · exact Or.inl hD
  · intro hhp hb
    constructor
    · split_ifs <;> omega
    · split_ifs <;> omega

theorem Game.StartDay_frame (g : Game) :
    ∃ bs r, Game.StartDay g =
      { g with
        phase_ := TimePhase.Day
        phaseTimer_ := 600
        dayCount_ := wrapInt (g.dayCount_ + 1)
        points_ := wrapInt (g.points_ + g.lastEarnedPoints_)
        eventMessage_ := ""
        balls_ := bs
        rng_ := r } := by
  unfold Game.StartDay
  obtain ⟨bs, r, hs⟩ := Game.SpawnBalls_frame
    { g with
      phase_ := TimePhase.Day
      phaseTimer_ := 600
      dayCount_ := wrapInt (g.dayCount_ + 1)
      points_ := wrapInt (g.points_ + g.lastEarnedPoints_)
      eventMessage_ := "" }
  exact ⟨bs, r, hs⟩

/-- Health at the end of a `Play` tick that does not end the Night is positive,
given the invariant before the tick. -/
theorem Game.tick_keeps_alive (g : Game) (keys preKeys : Keys)
    (hP : g.state_ = GameState.Play) (hI : aliveInv g)
    (hN : g.phase_ = TimePhase.Night → 0 < g.nightTimer_ - 1) :
    0 < (Game.UpdatePlay g keys preKeys).baseHP_ := by
  obtain ⟨hhp, hb⟩ := hI hP
  cases hph : g.phase_ with
  | Day =>
    have hb' : g.phaseTimer_ = 600 ∨ 0 < g.baseHPBackup_ := by
      rcases hb hph with h | h
      · exact Or.inl h
      · exact Or.inr (by omega)
    exact ((Game.day_tick_any g keys preKeys hph).2.2 (by omega) hb').1
  | Night =>
    rw [((Game.night_tick_facts g keys preKeys hph).2 (hN hph)).2.2]
    omega
  | Result =>
    rw [Game.UpdatePlay_Result g keys preKeys hph]
    split_ifs
    · obtain ⟨bs, r, hs⟩ := Game.StartDay_frame g
      rw [hs]
      show 0 < g.baseHP_
      omega
    · omega

theorem aliveInv_Update (g : Game) (keys preKeys : Keys) (h : aliveInv g) :
    aliveInv (Game.Update g keys preKeys) := by
  cases hst : g.state_ with
  | Title =>
    rw [Game.Update_Title g keys preKeys hst]
    split_ifs
    · intro hc; cases hc
    · intro hc; rw [hst] at hc; cases hc
  | Explanation =>
    rw [Game.Update_Explanation g keys preKeys hst]
    split_ifs
    · obtain ⟨bs, r, hs⟩ := Game.SpawnBalls_frame
        { g with
          state_ := GameState.Play
          phase_ := TimePhase.Day
          phaseTimer_ := 600
          dayCount_ := 1
          baseHP_ := 100
          points_ := 5
          eventMessage_ := "" }
      rw [hs]
      intro _
      exact ⟨by simp only; norm_num, fun _ => Or.inl rfl⟩
    · intro hc; rw [hst] at hc; cases hc
  | Play =>
    rw [Game.Update_Play g keys preKeys hst]
    split_ifs with hdead
    · intro hc; cases hc
    · intro _
      refine ⟨by omega, fun hday => ?_⟩
      obtain ⟨hhp, hb⟩ := h hst
      cases hph : g.phase_ with
      | Day =>
        have hb' : g.phaseTimer_ = 600 ∨ 0 < g.baseHPBackup_ := by
          rcases hb hph with h1 | h1
          · exact Or.inl h1
          · exact Or.inr (by omega)
        have := ((Game.day_tick_any g keys preKeys hph).2.2 (by omega) hb').2
        exact Or.inr (by omega)
      | Night =>
        rcases le_or_lt (g.nightTimer_ - 1) 0 with hn | hn
        · rw [(Game.night_tick_facts g keys preKeys hph).1 hn] at hday
          cases hday
        · rw [((Game.night_tick_facts g keys preKeys hph).2 hn).1] at hday
          cases hday
      | Result =>
        rw [Game.UpdatePlay_Result g keys preKeys hph] at hday ⊢
        split_ifs at hday ⊢
        · obtain ⟨bs, r, hs⟩ := Game.StartDay_frame g
          rw [hs]
          exact Or.inl rfl
        · rw [hph] at hday; cases hday
  | GameOver =>
    rw [Game.Update_GameOver g keys preKeys hst]
    split_ifs
    · intro hc; cases hc
    · intro hc; rw [hst] at hc; cases hc

theorem aliveInv_of_Reachable (g : Game) (h : Reachable g) : aliveInv g := by
  induction h with
  | init stream => intro hc; cases hc
  | tick g keys preKeys _ ih => exact aliveInv_Update g keys preKeys ih

/-- C19: game over only at Result entry.  In every reachable state at a tick
boundary with session state `Play`, health is at least 1.  Hence a tick from
such a state leads to `GameOver` only if it is the tick in which the Night
countdown expires and Result is entered; a tick taken in phase `Day` (with any
keys, undo included) and a tick taken in phase `Result` end in `Play`. -/
theorem C19_game_over_only_at_result_entry (g : Game) (keys preKeys : Keys)
    (h : Reachable g) (hP : g.state_ = GameState.Play) :
    1 ≤ g.baseHP_ ∧
    ((Game.Update g keys preKeys).state_ = GameState.GameOver →
      g.phase_ = TimePhase.Night ∧ g.nightTimer_ - 1 ≤ 0 ∧
        (Game.Update g keys preKeys).phase_ = TimePhase.Result) ∧
    (g.phase_ = TimePhase.Day → (Game.Update g keys preKeys).state_ = GameState.Play) ∧
    (g.phase_ = TimePhase.Result → (Game.Update g keys preKeys).state_ = GameState.Play) ∧
    (g.phase_ = TimePhase.Night → 0 < g.nightTimer_ - 1 →
      (Game.Update g keys preKeys).state_ = GameState.Play) := by
  have hI := aliveInv_of_Reachable g h
  have stays : (g.phase_ = TimePhase.Night → 0 < g.nightTimer_ - 1) →
      (Game.Update g keys preKeys).state_ = GameState.Play := by
    intro hN
    rw [Game.Update_Play_alive g keys preKeys hP (Game.tick_keeps_alive g keys preKeys hP hI hN),
      Game.UpdatePlay_state]
    exact hP
  refine ⟨(hI hP).1, ?_, ?_, ?_, ?_⟩
  · intro hover
    have hnight : g.phase_ = TimePhase.Night ∧ g.nightTimer_ - 1 ≤ 0 := by
      by_contra hc
      have hs := stays (fun hN => by
        by_contra hc2
        exact hc ⟨hN, by omega⟩)
      rw [hs] at hover
      cases hover
    refine ⟨hnight.1, hnight.2, ?_⟩
    obtain ⟨st, hU⟩ := Game.Update_Play_frame g keys preKeys hP
    rw [hU]
    exact (Game.night_tick_facts g keys preKeys hnight.1).1 hnight.2
  · intro hD
    exact stays (fun hN => by rw [hD] at hN; cases hN)
  · intro hR
    exact stays (fun hN => by rw [hR] at hN; cases hN)
  · intro hN hn
    exact stays (fun _ => hn)

/-- C19, instance: the session just started (health 100); an undo edge in the
first day tick keeps the session in `Play`. -/
theorem C19_game_over_only_at_result_entry_witness :
    (Game.Update
      (Game.runTicks (Game.new fun n => n)
        [(keysDown [VK_RETURN], keysDown []), (keysDown [], keysDown [VK_RETURN]),
         (keysDown [VK_RETURN], keysDown [])])
      (keysDown [keyR]) (keysDown [VK_RETURN])).state_ = GameState.Play :=
  (C19_game_over_only_at_result_entry
    (Game.runTicks (Game.new fun n => n)
      [(keysDown [VK_RETURN], keysDown []), (keysDown [], keysDown [VK_RETURN]),
       (keysDown [VK_RETURN], keysDown [])])
    (keysDown [keyR]) (keysDown [VK_RETURN])
    (Reachable_runTicks _ _ (Reachable.init _)) rfl).2.2.1 rfl

/-! ## Undo cannot create resources -/

/-- A Day call of `UpdatePlay` from a day start, or from a state bounded by the
snapshot, ends bounded by the snapshot. -/
theorem Game.day_tick_res (s : Game) (keys preKeys : Keys) (hD : s.phase_ = TimePhase.Day)
    (h0 : s.phaseTimer_ = 600 ∨ resInv s) (ha : 0 ≤ s.playerAttack_)
    (hf : 0 ≤ s.baseDefense_) (hhp : s.baseHP_ ≤ 200)
    (ha2 : s.playerAttack_ + 2 ≤ INT_MAX) (hf2 : s.baseDefense_ + 2 ≤ INT_MAX)
    (hpm : s.points_ ≤ INT_MAX) :
    resInv (Game.UpdatePlay s keys preKeys) := by
  have hcost : ∀ x : Int, 0 ≤ x → 1 ≤ x.tdiv 100 + 1 := by
    intro x hx
    rw [Int.tdiv_eq_ediv hx (by norm_num)]
    have : (0 : Int) ≤ x / 100 := Int.ediv_nonneg hx (by norm_num)
    omega
  have wsub : ∀ p c : Int, 1 ≤ c → c ≤ p → p ≤ INT_MAX → wrapInt (p - c) = p - c := by
    intro p c hc hcp hp
    exact wrapInt_of_inInt _ ⟨by unfold INT_MIN; omega, by omega⟩
  have wadd : ∀ x : Int, 0 ≤ x → x + 2 ≤ INT_MAX → wrapInt (x + 2) = x + 2 := by
    intro x hx hx2
    exact wrapInt_of_inInt _ ⟨by unfold INT_MIN; omega, hx2⟩
  have capture : (resInv (Game.dayCapture s) ∧ (Game.dayCapture s).baseHP_ ≤ 200) ∧
      (Game.dayCapture s).points_ = s.points_ ∧
      (Game.dayCapture s).playerAttack_ = s.playerAttack_ ∧
      (Game.dayCapture s).baseDefense_ = s.baseDefense_ := by
    rw [Game.dayCapture_eq]
    refine ⟨?_, rfl, rfl, rfl⟩
    unfold resInv at *
    simp only
    rcases h0 with h | h
    · simp only [h, if_true]
      omega
    · split_ifs <;> omega
  have attackUp : ∀ (e : Bool) (c : Int) (t : Game), 1 ≤ c → 0 ≤ t.playerAttack_ →
      t.playerAttack_ + 2 ≤ INT_MAX → t.points_ ≤ INT_MAX → resInv t ∧ t.baseHP_ ≤ 200 →
      (resInv (Game.dayAttackUp e c t) ∧ (Game.dayAttackUp e c t).baseHP_ ≤ 200) ∧
        (Game.dayAttackUp e c t).points_ ≤ INT_MAX ∧
        (Game.dayAttackUp e c t).baseDefense_ = t.baseDefense_ := by
    intro e c t hc hta hta2 htp ht
    rw [Game.dayAttackUp_eq]
    unfold resInv at *
    simp only
    by_cases hb : e = true ∧ c ≤ t.points_
    · simp only [hb, and_self, if_true, wsub _ _ hc hb.2 htp, wadd _ hta hta2]
      exact ⟨by omega, by omega, trivial⟩
    · simp only [hb, if_false]
      exact ⟨ht, htp, trivial⟩
  have defenseUp : ∀ (e : Bool) (c : Int) (t : Game), 1 ≤ c → 0 ≤ t.baseDefense_ →
      t.baseDefense_ + 2 ≤ INT_MAX → t.points_ ≤ INT_MAX → resInv t ∧ t.baseHP_ ≤ 200 →
      (resInv (Game.dayDefenseUp e c t) ∧ (Game.dayDefenseUp e c t).baseHP_ ≤ 200) ∧
        (Game.dayDefenseUp e c t).points_ ≤ INT_MAX := by
    intro e c t hc htf htf2 htp ht
    rw [Game.dayDefenseUp_eq]
    unfold resInv at *
    simp only
    by_cases hb : e = true ∧ c ≤ t.points_
    · simp only [hb, and_self, if_true, wsub _ _ hc hb.2 htp, wadd _ htf htf2]
      exact ⟨by omega, by omega⟩
    · simp only [hb, if_false]
      exact ⟨ht, htp⟩
  have heal : ∀ (e : Bool) (t : Game), t.points_ ≤ INT_MAX → resInv t ∧ t.baseHP_ ≤ 200 →
      resInv (Game.dayHeal e t) ∧ (Game.dayHeal e t).baseHP_ ≤ 200 := by
    intro e t htp ht
    rw [Game.dayHeal_eq]
    unfold resInv at *
    simp only
    by_cases hb : e = true ∧ 1 ≤ t.points_
    · simp only [hb, and_self, if_true, wsub _ _ (le_refl 1) hb.2 htp]
      omega
    · simp only [hb, if_false]
      exact ht
  have undo : ∀ (e : Bool) (t : Game), resInv t ∧ t.baseHP_ ≤ 200 →
      resInv (Game.dayUndo e t) := by
    intro e t ht
    rw [Game.dayUndo_eq]
    unfold resInv at *
    simp only
    split_ifs <;> omega
  have dend : ∀ (e : Bool) (t : Game), resInv t → resInv (Game.dayEnd e t) := by
    intro e t ht
    rw [Game.dayEnd_eq]
    exact ht
  rw [Game.UpdatePlay_Day s keys preKeys hD]
  obtain ⟨c0, c1, c2, c3⟩ := capture
  obtain ⟨a0, a1, a2⟩ := attackUp (Game.IsKeyTriggered keys preKeys key1)
    (s.playerAttack_.tdiv 100 + 1) (Game.dayCountdown (Game.dayCapture s)) (hcost _ ha)
    (by rw [← c2] at ha; exact ha) (by rw [← c2] at ha2; exact ha2)
    (by rw [← c1] at hpm; exact hpm) c0
  obtain ⟨d0, d1⟩ := defenseUp (Game.IsKeyTriggered keys preKeys key2)
    (s.baseDefense_.tdiv 100 + 1) _ (hcost _ hf)
    (by rw [a2]; rw [← c3] at hf; exact hf) (by rw [a2]; rw [← c3] at hf2; exact hf2) a1 a0
  exact dend _ _ (undo _ _ (heal _ _ d1 d0))

theorem undoInv_Update (g : Game) (keys preKeys : Keys) (hn : nonnegInv g) (hh : hpInv g)
    (hrange : g.inRange) (h : undoInv g) : undoInv (Game.Update g keys preKeys) := by
  obtain ⟨ht, hr⟩ := h
  cases hst : g.state_ with
  | Title =>
    rw [Game.Update_Title g keys preKeys hst]
    split_ifs
    · exact ⟨ht, fun hc => by cases hc⟩
    · exact ⟨ht, fun hc => by rw [hst] at hc; cases hc⟩
  | Explanation =>
    rw [Game.Update_Explanation g keys preKeys hst]
    split_ifs
    · obtain ⟨bs, r, hs⟩ := Game.SpawnBalls_frame
        { g with
          state_ := GameState.Play
          phase_ := TimePhase.Day
          phaseTimer_ := 600
          dayCount_ := 1
          baseHP_ := 100
          points_ := 5
          eventMessage_ := "" }
      rw [hs]
      refine ⟨fun _ => le_refl _, fun _ hc => ?_⟩
      rcases hc with ⟨-, hc⟩ | hc
      · exact absurd hc (lt_irrefl _)
      · cases hc
    · exact ⟨ht, fun hc => by rw [hst] at hc; cases hc⟩
  | Play =>
    obtain ⟨st, hU⟩ := Game.Update_Play_frame g keys preKeys hst
    rw [hU]
    cases hph : g.phase_ with
    | Day =>
      obtain ⟨f1, f2, -⟩ := Game.day_tick_any g keys preKeys hph
      have htm := ht hph
      have h0 : g.phaseTimer_ = 600 ∨ resInv g := by
        rcases lt_or_eq_of_le htm with hlt | heq
        · exact Or.inr (hr hst (Or.inl ⟨hph, hlt⟩))
        · exact Or.inl heq
      have hres := Game.day_tick_res g keys preKeys hph h0 hn.2.1 hn.2.2.1 hh.2.1 hrange.1
        hrange.2.1 (by have h7 := hrange.2.2.2.2.2.2; have h4 := hn.2.2.2.1; omega)
      refine ⟨fun _ => ?_, fun _ _ => hres⟩
      show (Game.UpdatePlay g keys preKeys).phaseTimer_ ≤ 600
      omega
    | Night =>
      rcases le_or_lt (g.nightTimer_ - 1) 0 with hn1 | hn1
      · have hres := (Game.night_tick_facts g keys preKeys hph).1 hn1
        refine ⟨fun hc => ?_, fun _ hc => ?_⟩
        · have hc' : (Game.UpdatePlay g keys preKeys).phase_ = TimePhase.Day := hc
          rw [hres] at hc'; cases hc'
        · have hc' : ((Game.UpdatePlay g keys preKeys).phase_ = TimePhase.Day ∧
              (Game.UpdatePlay g keys preKeys).phaseTimer_ < 600) ∨
              (Game.UpdatePlay g keys preKeys).phase_ = TimePhase.Night := hc
          rw [hres] at hc'
          rcases hc' with ⟨hc', -⟩ | hc' <;> cases hc'
      · rw [Game.UpdatePlay_Night g keys preKeys hph, if_neg (by omega)]
        refine ⟨fun hc => ?_, fun _ _ => hr hst (Or.inr hph)⟩
        have hc' : g.phase_ = TimePhase.Day := hc
        rw [hph] at hc'; cases hc'
    | Result =>
      rw [Game.UpdatePlay_Result g keys preKeys hph]
      split_ifs
      · obtain ⟨bs, r, hs⟩ := Game.StartDay_frame g
        rw [hs]
        refine ⟨fun _ => le_refl _, fun _ hc => ?_⟩
        rcases hc with ⟨-, hc⟩ | hc
        · exact absurd hc (lt_irrefl _)
        · cases hc
      · refine ⟨fun hc => ?_, fun _ hc => ?_⟩
        · have hc' : g.phase_ = TimePhase.Day := hc
          rw [hph] at hc'; cases hc'
        · have hc' : (g.phase_ = TimePhase.Day ∧ g.phaseTimer_ < 600) ∨
              g.phase_ = TimePhase.Night := hc
          rw [hph] at hc'
          rcases hc' with ⟨hc', -⟩ | hc' <;> cases hc'
  | GameOver =>
    rw [Game.Update_GameOver g keys preKeys hst]
    split_ifs
    · exact ⟨fun _ => le_refl _, fun hc => by cases hc⟩
    · exact ⟨ht, fun hc => by rw [hst] at hc; cases hc⟩

theorem undoInv_of_ReachableInRange (g : Game) (h : ReachableInRange g) : undoInv g := by
  induction h with
  | init stream => exact ⟨fun _ => le_refl _, fun hc => by cases hc⟩
  | tick g keys preKeys hg hr ih =>
    exact undoInv_Update g keys preKeys (nonnegInv_of_ReachableInRange g hg)
      (hpInv_of_Reachable g (Reachable_of_ReachableInRange g hg)) hr ih

/-- A run within a Day keeps the day invariant and ends in `Play`/`Day`. -/
theorem dayInv_run (g0 : Game) :
    ∀ (ticks : List (Keys × Keys)) (g : Game), dayInv g0 g → Game.staysInDay g ticks →
      dayInv g0 (Game.runTicks g ticks) ∧
      (Game.runTicks g ticks).state_ = GameState.Play ∧
      (Game.runTicks g ticks).phase_ = TimePhase.Day := by
  intro ticks
  induction ticks with
  | nil => intro g hI hS; exact ⟨hI, hS.1, hS.2⟩
  | cons t ts ih =>
    intro g hI hS
    have h := dayInv_tick g0 g t.1 t.2 hS.1.1 hS.1.2 hI
    exact ih (Game.Update g t.1 t.2) (Or.inr h.1) hS.2

/-- The first tick of a Day on which Enter is released and the attack-up key
goes down, when the cost is covered. -/
theorem Game.Update_day_attackUp (g : Game) (hP : g.state_ = GameState.Play)
    (hD : g.phase_ = TimePhase.Day) (hT : g.phaseTimer_ = 600) (hhp : 0 < g.baseHP_)
    (hc : g.playerAttack_.tdiv 100 + 1 ≤ g.points_) :
    (Game.Update g (keysDown [key1]) (keysDown [VK_RETURN])).state_ = GameState.Play ∧
    (Game.Update g (keysDown [key1]) (keysDown [VK_RETURN])).phase_ = TimePhase.Day ∧
    (Game.Update g (keysDown [key1]) (keysDown [VK_RETURN])).phaseTimer_ = 599 ∧
    (Game.Update g (keysDown [key1]) (keysDown [VK_RETURN])).dayPointsBackup_ = g.points_ ∧
    (Game.Update g (keysDown [key1]) (keysDown [VK_RETURN])).points_ =
      wrapInt (g.points_ - (g.playerAttack_.tdiv 100 + 1)) := by
  have k0 : Game.IsKeyTriggered (keysDown [key1]) (keysDown [VK_RETURN]) VK_RETURN = false := by
    decide
  have k1 : Game.IsKeyTriggered (keysDown [key1]) (keysDown [VK_RETURN]) key1 = true := by
    decide
  have k2 : Game.IsKeyTriggered (keysDown [key1]) (keysDown [VK_RETURN]) key2 = false := by
    decide
  have k3 : Game.IsKeyTriggered (keysDown [key1]) (keysDown [VK_RETURN]) key3 = false := by
    decide
  have kR : Game.IsKeyTriggered (keysDown [key1]) (keysDown [VK_RETURN]) keyR = false := by
    decide
  have hU : Game.UpdatePlay g (keysDown [key1]) (keysDown [VK_RETURN]) =
      { g with
        phaseTimer_ := 599
        playerAttack_ := wrapInt (g.playerAttack_ + 2)
        points_ := wrapInt (g.points_ - (g.playerAttack_.tdiv 100 + 1))
        dayPointsBackup_ := g.points_
        attackBackup_ := g.playerAttack_
        defenseBackup_ := g.baseDefense_
        baseHPBackup_ := g.baseHP_ } := by
    rw [Game.UpdatePlay_Day g _ _ hD, k0, k1, k2, k3, kR]
    simp only [Game.dayEnd_eq, Game.dayUndo_eq, Game.dayHeal_eq, Game.dayDefenseUp_eq,
      Game.dayAttackUp_eq, Game.dayCountdown, Game.dayCapture_eq]
    simp [hT, hc]
  rw [Game.Update_Play_alive g _ _ hP (by rw [hU]; exact hhp), hU]
  exact ⟨hP, hD, rfl, rfl, rfl⟩

/-- C20, as the claim states it, fails after `playerAttack_` has overflowed.
In the run of `overflowRun`, day 29310 starts after 8909939 ticks with the
attack -2147350311, so that the attack-up cost `attack / 100 + 1` is
-21473502.  On the next tick Enter is released and the attack-up key goes
down: the cost is covered, and `points_ -= attackCost` adds 21473502 points.
The reachable `Play` state is in phase `Day` with countdown 599, and its
points exceed the day-start snapshot by 21473502. -/
theorem C20_counterexample :
    Reachable
      (Game.Update (overflowRun 8909939) (keysDown [key1]) (keysDown [VK_RETURN])) ∧
    (overflowKeys 8909938).1 = keysDown [VK_RETURN] ∧
    (Game.Update (overflowRun 8909939) (keysDown [key1]) (keysDown [VK_RETURN])).state_ =
      GameState.Play ∧
    (Game.Update (overflowRun 8909939) (keysDown [key1]) (keysDown [VK_RETURN])).phase_ =
      TimePhase.Day ∧
    (Game.Update (overflowRun 8909939) (keysDown [key1])
      (keysDown [VK_RETURN])).phaseTimer_ = 599 ∧
    (Game.Update (overflowRun 8909939) (keysDown [key1]) (keysDown [VK_RETURN])).points_ =
      (Game.Update (overflowRun 8909939) (keysDown [key1])
        (keysDown [VK_RETURN])).dayPointsBackup_ + 21473502 := by
  obtain ⟨s1, s2, s3, s4, s5, s6, s7⟩ := overflowRun_after
  obtain ⟨t1, t2, t3, t4, t5⟩ :=
    Game.Update_day_attackUp (overflowRun 8909939) s1 s2 s3 (by rw [s4]; norm_num)
      (by rw [s7]; omega)
  refine ⟨Reachable.tick _ _ _ (Reachable_runFor _ _ _ (Reachable.init _)), rfl, t1, t2, t3,
    ?_⟩
  rw [t5, t4, s7, sub_neg_eq_add]
  exact wrapInt_of_inInt _ ⟨by unfold INT_MIN; omega, by unfold INT_MAX; omega⟩

/-- C20, amended: undo cannot create resources without overflow.  In every
`Play` state reachable by ticks each of which starts in a state that is
`inRange` (so that none of its `int` operations overflows), at a tick boundary
after at least one tick of the current Day has run (Day countdown below 600,
or the Night that follows it), the day-start snapshot satisfies
`points ≤ snapshot.points`, `attack ≥ snapshot.attack`,
`defense ≥ snapshot.defense` and `health ≥ snapshot.health`.  So within a day
no sequence of upgrades and undos yields more points than the day started
with: from such a day start (countdown 600), after any run of ticks within
that Day, each starting `inRange`, points are at most, and attack, defense and
health at least, what they were at the day start. -/
theorem C20_undo_creates_nothing (g : Game) (h : ReachableInRange g)
    (hP : g.state_ = GameState.Play) :
    (((g.phase_ = TimePhase.Day ∧ g.phaseTimer_ < 600) ∨ g.phase_ = TimePhase.Night) →
      g.points_ ≤ g.dayPointsBackup_ ∧ g.attackBackup_ ≤ g.playerAttack_ ∧
        g.defenseBackup_ ≤ g.baseDefense_ ∧ g.baseHPBackup_ ≤ g.baseHP_) ∧
    (g.phaseTimer_ = 600 → ∀ ticks : List (Keys × Keys), Game.staysInDay g ticks →
      Game.runInRange g ticks →
      (Game.runTicks g ticks).points_ ≤ g.points_ ∧
        g.playerAttack_ ≤ (Game.runTicks g ticks).playerAttack_ ∧
        g.baseDefense_ ≤ (Game.runTicks g ticks).baseDefense_ ∧
        g.baseHP_ ≤ (Game.runTicks g ticks).baseHP_) := by
  refine ⟨fun hph => (undoInv_of_ReachableInRange g h).2 hP hph, ?_⟩
  intro hT ticks hS hR
  obtain ⟨hI, hP', hD'⟩ := dayInv_run g ticks g (Or.inl ⟨hT, rfl⟩) hS
  rcases hI with ⟨-, he⟩ | ⟨hlt, hs⟩
  · simp only [Game.economy, Prod.mk.injEq] at he
    obtain ⟨e1, e2, e3, e4⟩ := he
    omega
  · have hres := (undoInv_of_ReachableInRange _ (ReachableInRange_runTicks g ticks h hR)).2 hP'
      (Or.inl ⟨hD', hlt⟩)
    simp only [Game.snapshot, Game.economy, Prod.mk.injEq] at hs
    obtain ⟨e1, e2, e3, e4⟩ := hs
    unfold resInv at hres
    omega

/-- C20, instance: day 1 of a fresh session starts with 5 points; after an
attack-up tick, an undo tick and a defense-up tick the points do not exceed
5. -/
theorem C20_undo_creates_nothing_witness :
    (Game.runTicks
      (Game.runTicks (Game.new fun n => n)
        [(keysDown [VK_RETURN], keysDown []), (keysDown [], keysDown [VK_RETURN]),
         (keysDown [VK_RETURN], keysDown [])])
      [(keysDown [key1], keysDown [VK_RETURN]), (keysDown [keyR], keysDown [key1]),
       (keysDown [key2], keysDown [keyR])]).points_ ≤ 5 :=
  ((C20_undo_creates_nothing
    (Game.runTicks (Game.new fun n => n)
      [(keysDown [VK_RETURN], keysDown []), (keysDown [], keysDown [VK_RETURN]),
       (keysDown [VK_RETURN], keysDown [])])
    (ReachableInRange_runTicks (Game.new fun n => n)
      [(keysDown [VK_RETURN], keysDown []), (keysDown [], keysDown [VK_RETURN]),
       (keysDown [VK_RETURN], keysDown [])] (ReachableInRange.init _)
      ⟨by decide, by decide, by decide, trivial⟩) rfl).2 rfl
    [(keysDown [key1], keysDown [VK_RETURN]), (keysDown [keyR], keysDown [key1]),
     (keysDown [key2], keysDown [keyR])]
    ⟨⟨rfl, rfl⟩, ⟨rfl, rfl⟩, ⟨rfl, rfl⟩, ⟨rfl, rfl⟩⟩
    ⟨by decide, by decide, by decide, trivial⟩).1
